import Mathlib

/-!
# cosmo: DistortedPowerCorrelation

A shallow embedding of `cosmo/DistortedPowerCorrelation.cc`.

* `double` is modelled by a linear ordered field `α` with exact arithmetic (NaN and infinities
  are outside the model; `x / 0 = 0` as in every Lean field). Instantiating `α := ℚ` makes every
  definition below executable. Where a test of the code depends on a rounded value, which is the
  test of `r` against the ends of the r grid, the constructor is taken with its rounding explicit:
  `constructRounded fl` passes the result of every operation through `fl`; `fl = id` is
  `construct`, and `roundDouble` is the rounding of IEEE 754 binary64.
* `int` is modelled by `Int`; `/` and `%` on `int` are the truncating `Int.tdiv` and `Int.tmod`
  of C++. The `int` expressions of this file (`1 + ellMax/dell`, `2*nell`, loop counters) are not
  reduced into the range of `int`: an `ellMax` next to the largest `int` is outside the model.
* A thrown `RuntimeError` is the `Failure.runtimeError` result; reading through a null
  `shared_ptr` or past the end of a `std::vector` is the `Failure.undefined` result wherever the
  surrounding function already returns an `Except`.
* The local `double xisum;` of `initialize` has no initializer. Its storage is modelled as a
  field of the loop state (`Sweep.xisum`) that every pass of the (r,mu) loop finds as the previous
  pass left it, and whose first content is the argument `stack` of `initializeObj`.
* The collaborators whose code lives in other files (`AdaptiveMultipoleTransform`,
  `likely::Interpolator`, `TabulatedPower`, `getMultipole`, `legendreP`,
  `multipoleTransformNormalization`, `std::pow`, `std::log10`) are the fields of `Collaborators`;
  they are total functions, so a collaborator that throws is outside the model.
-/

namespace cosmo

set_option linter.unusedSectionVars false

/-- Ways in which a call does not return a value. -/
inductive Failure where
  /-- The C++ `throw RuntimeError(msg)`. -/
  | runtimeError (msg : String)
  /-- Undefined behaviour of the C++ code: null dereference or index out of range. -/
  | undefined
  deriving DecidableEq, Repr

/-- The enumerator `MultipoleTransform::SphericalBessel`, the only one the file uses. -/
inductive MultipoleTransformType where
  | SphericalBessel
  deriving DecidableEq, Repr

/-- The configuration of one `AdaptiveMultipoleTransform` (its constructor's arguments) together
with whatever its own `initialize` and `transform` store inside it (`tuning`, of the collaborator's
own type `σ`; `none` for a transformer that was constructed and not yet used). -/
structure AdaptiveMultipoleTransform (α σ : Type) where
  kind : MultipoleTransformType
  ell : Int
  coef : α
  rgrid : List α
  relerr : α
  abserr : α
  abspow : α
  tuning : Option σ

/-- The arguments of `likely::Interpolator(x, y, algorithm)`. -/
structure Interpolator (α : Type) where
  x : List α
  y : List α
  algorithm : String

/-- The arguments of `cosmo::TabulatedPower(k, Pk, extrapolateBelow, extrapolateAbove)`. -/
structure TabulatedPower (α : Type) where
  k : List α
  Pk : List α
  extrapolateBelow : Bool
  extrapolateAbove : Bool

/-- The functions the file calls and does not define. -/
structure Collaborators (α σ : Type) where
  /-- `std::pow(x, y)`. -/
  pow : α → α → α
  /-- `std::log10(x)`. -/
  log10 : α → α
  /-- `getMultipole(fOfMuPtr, ell)`. -/
  getMultipole : (α → α) → Int → α
  /-- `legendreP(ell, mu)`. -/
  legendreP : Int → α → α
  /-- `multipoleTransformNormalization(ell, dimension, sign)`. -/
  multipoleTransformNormalization : Int → Int → Int → α
  /-- `amt->initialize(kFunction, outSamples, minSamplesPerDecade, margin, vepsMax, vepsMin,
  optimize)`: the transformer's new `tuning` and the new content of `outSamples`. -/
  amtInitialize : AdaptiveMultipoleTransform α σ → (α → Except Failure α) → List α → Int →
    α → α → α → Bool → σ × List α
  /-- `amt->transform(kFunction, outSamples, bypassTerminationTest)`: the returned flag, the
  transformer's new `tuning` and the new content of `outSamples`. -/
  amtTransform : AdaptiveMultipoleTransform α σ → (α → Except Failure α) → List α → Bool →
    Bool × σ × List α
  /-- `(*interpolator)(r)`. -/
  interpolate : Interpolator α → α → α
  /-- `(*tabulatedPower)(k)`. -/
  tabulatedPower : TabulatedPower α → α → α

/-- The data members of a `DistortedPowerCorrelation`. -/
structure DistortedPowerCorrelation (α σ : Type) where
  power : α → α
  distortion : α → α → α
  ellMax : Int
  symmetric : Bool
  relerr : α
  abserr : α
  abspow : α
  initialized : Bool
  kgrid : List α
  minSamplesPerDecade : Int
  rgrid : List α
  transformer : List (AdaptiveMultipoleTransform α σ)
  xiMoments : List (List α)
  interpolator : List (Option (Interpolator α))
  savedPowerMultipole : List (Option (TabulatedPower α))
  rbig : List α
  mubig : List α
  relbig : List α

/-- The local `int dell = symmetric ? 2 : 1`. -/
def dell (symmetric : Bool) : Int := if symmetric then 2 else 1

/-- The values `ell` takes in `for(int ell = start; ell <= ellMax; ell += dell)`, in order. -/
def ellLoop (ellMax : Int) (symmetric : Bool) (ell : Int) : List Int :=
  if ell ≤ ellMax then ell :: ellLoop ellMax symmetric (ell + dell symmetric) else []
termination_by (ellMax - ell + 1).toNat
decreasing_by
  have : 0 < dell symmetric := by cases symmetric <;> decide
  omega

/-- The storage index `_symmetric ? ell/2 : ell`. -/
def slotIndex (symmetric : Bool) (ell : Int) : Int := if symmetric then ell.tdiv 2 else ell

/-- The test `ell < 0 || ell > _ellMax || (_symmetric && (ell%2))` shared by the accessors. -/
def invalidEll (ellMax : Int) (symmetric : Bool) (ell : Int) : Bool :=
  decide (ell < 0) || decide (ell > ellMax) || (symmetric && decide (ell.tmod 2 ≠ 0))

section Model

variable {α σ : Type} [LinearOrderedField α]

/-- The constructor `DistortedPowerCorrelation::DistortedPowerCorrelation`. -/
def construct [FloorRing α] (E : Collaborators α σ) (power : α → α) (distortion : α → α → α)
    (klo khi : α) (nk : Int) (rmin rmax : α) (nr : Int) (ellMax : Int) (symmetric : Bool)
    (relerr abserr abspow : α) : Except Failure (DistortedPowerCorrelation α σ) :=
  if khi ≤ klo then
    .error (.runtimeError "DistortedPowerCorrelation: expected klo < khi.")
  else if klo ≤ 0 then
    .error (.runtimeError "DistortedPowerCorrelation: expected klo > 0.")
  else if nk < 2 then
    .error (.runtimeError "DistortedPowerCorrelation: expected nk >= 2.")
  else if rmax ≤ rmin then
    .error (.runtimeError "DistortedPowerCorrelation: expected rmin < rmax.")
  else if rmin ≤ 0 then
    .error (.runtimeError "DistortedPowerCorrelation: expected rmin > 0.")
  else if nr < 2 then
    .error (.runtimeError "DistortedPowerCorrelation: expected nr >= 2.")
  else if ellMax < 0 then
    .error (.runtimeError "DistortedPowerCorrelation: expected ellMax >= 0.")
  else if symmetric && decide (ellMax.tmod 2 = 1) then
    .error (.runtimeError "DistortedPowerCorrelation: expected even ellMax when symmetric.")
  else
    let dk : α := E.pow (khi / klo) (1 / ((nk : α) - 1))
    let kgrid : List α := (List.range nk.toNat).map (fun (i : Nat) => klo * E.pow dk (i : α))
    let minSamplesPerDecade : Int := Int.ceil ((nk : α) / E.log10 (khi / klo))
    let dr : α := (rmax - rmin) / ((nr : α) - 1)
    let rgrid : List α := (List.range nr.toNat).map (fun (i : Nat) => rmin + dr * (i : α))
    let nell : Int := 1 + ellMax.tdiv (dell symmetric)
    let ells := ellLoop ellMax symmetric 0
    .ok {
      power := power
      distortion := distortion
      ellMax := ellMax
      symmetric := symmetric
      relerr := relerr
      abserr := abserr
      abspow := abspow
      initialized := false
      kgrid := kgrid
      minSamplesPerDecade := minSamplesPerDecade
      rgrid := rgrid
      transformer := ells.map (fun ell =>
        { kind := .SphericalBessel
          ell := ell
          coef := E.multipoleTransformNormalization ell 3 1
          rgrid := rgrid
          relerr := relerr / 10
          abserr := abserr / ((2 * nell : Int) : α)
          abspow := abspow
          tuning := none })
      xiMoments := ells.map (fun _ => List.replicate nr.toNat 0)
      interpolator := ells.map (fun _ => none)
      savedPowerMultipole := ells.map (fun _ => none)
      rbig := List.replicate nell.toNat 0
      mubig := List.replicate nell.toNat 0
      relbig := List.replicate nell.toNat 0 }

/-- The method `getPower(k, mu)`. -/
def getPower (s : DistortedPowerCorrelation α σ) (k mu : α) : Except Failure α :=
  if mu < -1 ∨ mu > 1 then
    .error (.runtimeError "DistortedPowerCorrelation::getPower: expected -1 <= mu <= 1.")
  else
    .ok (s.power k * s.distortion k mu)

/-- The method `getPowerMultipole(k, ell)`. -/
def getPowerMultipole (E : Collaborators α σ) (s : DistortedPowerCorrelation α σ)
    (k : α) (ell : Int) : Except Failure α :=
  if invalidEll s.ellMax s.symmetric ell then
    .error (.runtimeError "DistortedPowerCorrelation::getPowerMultipole: invalid ell.")
  else
    .ok (s.power k * E.getMultipole (fun mu => s.distortion k mu) ell)

/-- The inner loop `for(int i = 0; i < nk; ++i) pgrid[i] = getPowerMultipole(_kgrid[i],ell)` of
`_initPowerMultipoles`; an exception thrown by `getPowerMultipole` leaves the loop. -/
def pgridLoop (E : Collaborators α σ) (s : DistortedPowerCorrelation α σ) (ell : Int) :
    List α → Except Failure (List α)
  | [] => .ok []
  | k :: ks =>
    match getPowerMultipole E s k ell with
    | .error e => .error e
    | .ok p =>
      match pgridLoop E s ell ks with
      | .error e => .error e
      | .ok ps => .ok (p :: ps)

/-- One pass of the multipole loop of `_initPowerMultipoles`, on the outcome so far and the object:
after an exception nothing more is done. -/
def initPowerMultipolesStep (E : Collaborators α σ)
    (acc : Except Failure Unit × DistortedPowerCorrelation α σ) (ell : Int) :
    Except Failure Unit × DistortedPowerCorrelation α σ :=
  match acc.1 with
  | .error _ => acc
  | .ok _ =>
    match pgridLoop E acc.2 ell acc.2.kgrid with
    | .error e => (.error e, acc.2)
    | .ok pgrid =>
      (.ok (), { acc.2 with
        savedPowerMultipole := acc.2.savedPowerMultipole.set (slotIndex acc.2.symmetric ell).toNat
          (some { k := acc.2.kgrid, Pk := pgrid, extrapolateBelow := true,
                  extrapolateAbove := true }) })

/-- The method `_initPowerMultipoles()`: the outcome and the object afterwards. -/
def initPowerMultipoles (E : Collaborators α σ) (s : DistortedPowerCorrelation α σ) :
    Except Failure Unit × DistortedPowerCorrelation α σ :=
  (ellLoop s.ellMax s.symmetric 0).foldl (initPowerMultipolesStep E) (.ok (), s)

/-- The method `getSavedPowerMultipole(k, ell)`. -/
def getSavedPowerMultipole (E : Collaborators α σ) (s : DistortedPowerCorrelation α σ)
    (k : α) (ell : Int) : Except Failure α :=
  if invalidEll s.ellMax s.symmetric ell then
    .error (.runtimeError "DistortedPowerCorrelation::getSavedPowerMultipole: invalid ell.")
  else
    match s.savedPowerMultipole[(slotIndex s.symmetric ell).toNat]? with
    | some (some tabulated) => .ok (E.tabulatedPower tabulated k)
    | some none =>
      .error (.runtimeError "DistortedPowerCorrelation::getSavedPowerMultipole: not initialized.")
    | none => .error .undefined

/-- The method `getCorrelationMultipole(r, ell)`. -/
def getCorrelationMultipole (E : Collaborators α σ) (s : DistortedPowerCorrelation α σ)
    (r : α) (ell : Int) : Except Failure α :=
  if !s.initialized then
    .error (.runtimeError "DistortedPowerCorrelation::getCorrelationMultipole: not initialized.")
  else if invalidEll s.ellMax s.symmetric ell then
    .error (.runtimeError "DistortedPowerCorrelation::getCorrelationMultipole: invalid ell.")
  else
    match s.rgrid.head?, s.rgrid.getLast? with
    | some front, some back =>
      if r < front ∨ r > back then
        .error (.runtimeError "DistortedPowerCorrelation::getCorrelationMultipole: r out of range.")
      else
        match s.interpolator[(slotIndex s.symmetric ell).toNat]? with
        | some (some interpolator) => .ok (E.interpolate interpolator r)
        | _ => .error .undefined
    | _, _ => .error .undefined

/-- The accumulation loop of `getCorrelation`, started from `result`; an exception thrown by
`getCorrelationMultipole` leaves the loop. -/
def getCorrelationLoop (E : Collaborators α σ) (s : DistortedPowerCorrelation α σ) (r mu : α) :
    List Int → α → Except Failure α
  | [], result => .ok result
  | ell :: ells, result =>
    match getCorrelationMultipole E s r ell with
    | .error e => .error e
    | .ok xi => getCorrelationLoop E s r mu ells (result + xi * E.legendreP ell mu)

/-- The method `getCorrelation(r, mu)`. -/
def getCorrelation (E : Collaborators α σ) (s : DistortedPowerCorrelation α σ)
    (r mu : α) : Except Failure α :=
  if !s.initialized then
    .error (.runtimeError "DistortedPowerCorrelation::getCorrelation: not initialized.")
  else if mu < -1 ∨ mu > 1 then
    .error (.runtimeError "DistortedPowerCorrelation::getPower: expected -1 <= mu <= 1.")
  else
    getCorrelationLoop E s r mu (ellLoop s.ellMax s.symmetric 0) 0

/-- The three statements that `initialize` runs on slot `idx` for multipole `ell`: build `fOfKPtr`
bound to `getSavedPowerMultipole(., ell)`, call `_transformer[idx]->initialize(...)` on
`_xiMoments[idx]`, and reset `_interpolator[idx]` to a cubic spline through the new samples. An
index outside the vectors (undefined in C++) leaves the object as it is. -/
def initializeSlot (E : Collaborators α σ) (margin vepsMax vepsMin : α) (optimize : Bool)
    (s : DistortedPowerCorrelation α σ) (idx : Int) (ell : Int) : DistortedPowerCorrelation α σ :=
  match s.transformer[idx.toNat]?, s.xiMoments[idx.toNat]? with
  | some amt, some xi =>
    let out := E.amtInitialize amt (fun k => getSavedPowerMultipole E s k ell) xi
      s.minSamplesPerDecade margin vepsMax vepsMin optimize
    { s with
      transformer := s.transformer.set idx.toNat { amt with tuning := some out.1 }
      xiMoments := s.xiMoments.set idx.toNat out.2
      interpolator := s.interpolator.set idx.toNat
        (some { x := s.rgrid, y := out.2, algorithm := "cspline" }) }
  | _, _ => s

/-- The body of the first multipole loop of `initialize` (index `ell/dell`, no optimization). -/
def coarseStep (E : Collaborators α σ) (margin vepsMax vepsMin : α)
    (s : DistortedPowerCorrelation α σ) (ell : Int) : DistortedPowerCorrelation α σ :=
  initializeSlot E margin vepsMax vepsMin false s (ell.tdiv (dell s.symmetric)) ell

/-- The variables the (r,mu) loop of `initialize` works on: the locals `contribution` and `xisum`,
and the members `_rbig`, `_mubig`, `_relbig`. The local `double xisum;` is declared without an
initializer inside the loop body, so `xisum` here is the content of its storage, which every pass
of the loop finds as the previous pass left it. -/
structure Sweep (α : Type) where
  contribution : List α
  xisum : α
  rbig : List α
  mubig : List α
  relbig : List α

/-- The value `(*_interpolator[idx])(r)`; a null or missing interpolator (undefined in C++) reads
as 0. -/
def interpolatorAt (E : Collaborators α σ) (s : DistortedPowerCorrelation α σ)
    (idx : Int) (r : α) : α :=
  match s.interpolator[idx.toNat]? with
  | some (some interpolator) => E.interpolate interpolator r
  | _ => 0

/-- The inner multipole loop of the (r,mu) loop: fills `contribution` and adds every term to
`xisum`. -/
def sweepTerms (E : Collaborators α σ) (s : DistortedPowerCorrelation α σ) (r mu : α)
    (w : Sweep α) : Sweep α :=
  (ellLoop s.ellMax s.symmetric 0).foldl
    (fun w ell =>
      let idx := slotIndex s.symmetric ell
      let term := interpolatorAt E s idx r * E.legendreP ell mu
      { w with contribution := w.contribution.set idx.toNat term, xisum := w.xisum + term })
    w

/-- The loop `for(int idx = 0; idx < nell; ++idx)` that updates the biggest relative
contributions. -/
def sweepUpdate (nell : Int) (r mu : α) (w : Sweep α) : Sweep α :=
  (List.range nell.toNat).foldl
    (fun w idx =>
      let relfrac := |w.contribution.getD idx 0 / w.xisum|
      if relfrac > w.relbig.getD idx 0 then
        { w with rbig := w.rbig.set idx r, mubig := w.mubig.set idx mu,
                 relbig := w.relbig.set idx relfrac }
      else w)
    w

/-- One pass of the (r,mu) loop body, from `double xisum;` to its end. -/
def sweepPoint (E : Collaborators α σ) (s : DistortedPowerCorrelation α σ) (nell : Int)
    (r mu : α) (w : Sweep α) : Sweep α :=
  let w1 := sweepTerms E s r mu w
  if |w1.xisum| < s.abserr * E.pow r s.abspow then w1 else sweepUpdate nell r mu w1

/-- The loop `BOOST_FOREACH(double r, _rgrid) for(int i = 0; i < nmu; ++i)` of `initialize`. -/
def sweep (E : Collaborators α σ) (s : DistortedPowerCorrelation α σ) (nmu : Int)
    (w : Sweep α) : Sweep α :=
  let dmu : α := 2 / (dell s.symmetric : α) / ((nmu : α) - 1)
  let nell : Int := 1 + s.ellMax.tdiv (dell s.symmetric)
  s.rgrid.foldl
    (fun w r =>
      (List.range nmu.toNat).foldl
        (fun w (i : Nat) => sweepPoint E s nell r (1 - (i : α) * dmu) w) w)
    w

/-- The body of the last multipole loop of `initialize`: a new transformer with the updated
tolerances replaces the one in slot `idx`, then the slot is initialized with `optimize`. -/
def retuneStep (E : Collaborators α σ) (margin vepsMax vepsMin : α) (optimize : Bool)
    (s : DistortedPowerCorrelation α σ) (ell : Int) : DistortedPowerCorrelation α σ :=
  let nell : Int := 1 + s.ellMax.tdiv (dell s.symmetric)
  let idx := slotIndex s.symmetric ell
  let relerr : α :=
    if s.relbig.getD idx.toNat 0 > 0 then s.relerr / (nell : α) / s.relbig.getD idx.toNat 0
    else s.relerr / (nell : α)
  let abserr : α := s.abserr / (nell : α)
  let coef : α := E.multipoleTransformNormalization ell 3 1
  let amt : AdaptiveMultipoleTransform α σ :=
    { kind := .SphericalBessel, ell := ell, coef := coef, rgrid := s.rgrid, relerr := relerr,
      abserr := abserr, abspow := s.abspow, tuning := none }
  initializeSlot E margin vepsMax vepsMin optimize
    { s with transformer := s.transformer.set idx.toNat amt } idx ell

/-- The first multipole loop of `initialize`: every transform at its current tolerances. -/
def coarsePass (E : Collaborators α σ) (margin vepsMax vepsMin : α)
    (s : DistortedPowerCorrelation α σ) : DistortedPowerCorrelation α σ :=
  (ellLoop s.ellMax s.symmetric 0).foldl (coarseStep E margin vepsMax vepsMin) s

/-- The part of `initialize` from `double dmu` to the end of the (r,mu) loop: the locals are set
up, `_relbig` is cleared and the loop runs. `stack` is the content of the storage of the
uninitialized local `xisum` when the loop first reads it. -/
def calibrationSweep (E : Collaborators α σ) (s : DistortedPowerCorrelation α σ) (nmu : Int)
    (stack : α) : DistortedPowerCorrelation α σ :=
  let nell : Int := 1 + s.ellMax.tdiv (dell s.symmetric)
  let w := sweep E s nmu
    { contribution := List.replicate nell.toNat 0, xisum := stack, rbig := s.rbig,
      mubig := s.mubig, relbig := s.relbig.map (fun _ => 0) }
  { s with rbig := w.rbig, mubig := w.mubig, relbig := w.relbig }

/-- The last multipole loop of `initialize`: new transformers with the updated tolerances. -/
def retunePass (E : Collaborators α σ) (margin vepsMax vepsMin : α) (optimize : Bool)
    (s : DistortedPowerCorrelation α σ) : DistortedPowerCorrelation α σ :=
  (ellLoop s.ellMax s.symmetric 0).foldl (retuneStep E margin vepsMax vepsMin optimize) s

/-- The method `initialize(nmu, margin, vepsMax, vepsMin, optimize)`: the outcome and the object
afterwards. `stack` is the content of the storage of the uninitialized local `xisum` when the
(r,mu) loop first reads it. -/
def initializeObj (E : Collaborators α σ) (s : DistortedPowerCorrelation α σ) (nmu : Int)
    (margin vepsMax vepsMin : α) (optimize : Bool) (stack : α) :
    Except Failure Unit × DistortedPowerCorrelation α σ :=
  if nmu < 2 then
    (.error (.runtimeError "DistortedPowerCorrelation::initialize: expected nmu >= 2."), s)
  else if margin < 1 then
    (.error (.runtimeError "DistortedPowerCorrelation::initialize: expected margin >= 1."), s)
  else if vepsMax ≤ vepsMin then
    (.error (.runtimeError "DistortedPowerCorrelation::initialize: expected vepsMax > vepsMin."), s)
  else if vepsMin ≤ 0 then
    (.error (.runtimeError "DistortedPowerCorrelation::initialize: expected vepsMin > 0."), s)
  else
    let p := initPowerMultipoles E s
    match p.1 with
    | .error e => (.error e, p.2)
    | .ok _ =>
      let s1 := coarsePass E margin vepsMax vepsMin p.2
      let s2 := calibrationSweep E s1 nmu stack
      let s3 := retunePass E margin vepsMax vepsMin optimize s2
      (.ok (), { s3 with initialized := true })

/-- The body of the multipole loop of `transform`, on the local `accurate` and the object. -/
def transformStep (E : Collaborators α σ) (interpolatePowerMultipoles bypassTerminationTest : Bool)
    (acc : Bool × DistortedPowerCorrelation α σ) (ell : Int) :
    Bool × DistortedPowerCorrelation α σ :=
  let s := acc.2
  let idx := ell.tdiv (dell s.symmetric)
  match s.transformer[idx.toNat]?, s.xiMoments[idx.toNat]? with
  | some amt, some xi =>
    let fOfK : α → Except Failure α :=
      if interpolatePowerMultipoles then fun k => getSavedPowerMultipole E s k ell
      else fun k => getPowerMultipole E s k ell
    let out := E.amtTransform amt fOfK xi bypassTerminationTest
    (acc.1 && out.1,
      { s with
        transformer := s.transformer.set idx.toNat { amt with tuning := some out.2.1 }
        xiMoments := s.xiMoments.set idx.toNat out.2.2
        interpolator := s.interpolator.set idx.toNat
          (some { x := s.rgrid, y := out.2.2, algorithm := "cspline" }) })
  | _, _ => acc

/-- The method `transform(interpolatePowerMultipoles, bypassTerminationTest)`: the outcome and the
object afterwards. -/
def transform (E : Collaborators α σ) (s : DistortedPowerCorrelation α σ)
    (interpolatePowerMultipoles bypassTerminationTest : Bool) :
    Except Failure Bool × DistortedPowerCorrelation α σ :=
  let p := if interpolatePowerMultipoles then initPowerMultipoles E s else (.ok (), s)
  match p.1 with
  | .error e => (.error e, p.2)
  | .ok _ =>
    let out := (ellLoop p.2.ellMax p.2.symmetric 0).foldl
      (transformStep E interpolatePowerMultipoles bypassTerminationTest) (true, p.2)
    (.ok out.1, out.2)

/-- The method `getTransform(ell)`. -/
def getTransform (s : DistortedPowerCorrelation α σ) (ell : Int) :
    Except Failure (AdaptiveMultipoleTransform α σ) :=
  if invalidEll s.ellMax s.symmetric ell then
    .error (.runtimeError "DistortedPowerCorrelation::getTransform: invalid ell.")
  else
    match s.transformer[(ell.tdiv (dell s.symmetric)).toNat]? with
    | some amt => .ok amt
    | none => .error .undefined

/-- The method `getBiggestContribution(ell, rbig, mubig, relbig)`; the three output arguments are
the returned triple. -/
def getBiggestContribution (s : DistortedPowerCorrelation α σ) (ell : Int) :
    Except Failure (α × α × α) :=
  if !s.initialized then
    .error (.runtimeError "DistortedPowerCorrelation::getBiggestContribution: not initialized.")
  else if invalidEll s.ellMax s.symmetric ell then
    .error (.runtimeError "DistortedPowerCorrelation::getBiggestContribution: invalid ell.")
  else
    let idx := (ell.tdiv (dell s.symmetric)).toNat
    match s.rbig[idx]?, s.mubig[idx]?, s.relbig[idx]? with
    | some rbig, some mubig, some relbig => .ok (rbig, mubig, relbig)
    | _, _, _ => .error .undefined

/-- A call of one public method on an object, with its arguments. -/
inductive Call (α : Type) where
  | getPower (k mu : α)
  | getPowerMultipole (k : α) (ell : Int)
  | getSavedPowerMultipole (k : α) (ell : Int)
  | getCorrelationMultipole (r : α) (ell : Int)
  | getCorrelation (r mu : α)
  | initializeObj (nmu : Int) (margin vepsMax vepsMin : α) (optimize : Bool) (stack : α)
  | transform (interpolatePowerMultipoles bypassTerminationTest : Bool)
  | getTransform (ell : Int)
  | getBiggestContribution (ell : Int)

/-- Whether an outcome is a normal return. -/
def returned {β : Type} : Except Failure β → Bool
  | .ok _ => true
  | .error _ => false

/-- The effect of a call on the object: whether it returned normally, and the object afterwards.
The accessors assign to no member, so they leave the object as it is. -/
def exec (E : Collaborators α σ) (s : DistortedPowerCorrelation α σ) :
    Call α → Bool × DistortedPowerCorrelation α σ
  | .getPower k mu => (returned (getPower s k mu), s)
  | .getPowerMultipole k ell => (returned (getPowerMultipole E s k ell), s)
  | .getSavedPowerMultipole k ell => (returned (getSavedPowerMultipole E s k ell), s)
  | .getCorrelationMultipole r ell => (returned (getCorrelationMultipole E s r ell), s)
  | .getCorrelation r mu => (returned (getCorrelation E s r mu), s)
  | .initializeObj nmu margin vepsMax vepsMin optimize stack =>
    let out := initializeObj E s nmu margin vepsMax vepsMin optimize stack
    (returned out.1, out.2)
  | .transform interpolatePowerMultipoles bypassTerminationTest =>
    let out := transform E s interpolatePowerMultipoles bypassTerminationTest
    (returned out.1, out.2)
  | .getTransform ell => (returned (getTransform s ell), s)
  | .getBiggestContribution ell => (returned (getBiggestContribution s ell), s)

/-- Whether a call is a call of `initialize`. -/
def Call.isInitialize : Call α → Bool
  | .initializeObj _ _ _ _ _ _ => true
  | _ => false

/-- `Reachable E s0 s`: the object `s0` becomes `s` by some sequence of method calls. -/
inductive Reachable (E : Collaborators α σ) (s0 : DistortedPowerCorrelation α σ) :
    DistortedPowerCorrelation α σ → Prop
  | start : Reachable E s0 s0
  | call {s : DistortedPowerCorrelation α σ} (c : Call α) :
    Reachable E s0 s → Reachable E s0 (exec E s c).2

/-- `ReachableUninitialized E s0 s`: the object `s0` becomes `s` by some sequence of method calls
none of which is a call of `initialize` that returned normally. -/
inductive ReachableUninitialized (E : Collaborators α σ) (s0 : DistortedPowerCorrelation α σ) :
    DistortedPowerCorrelation α σ → Prop
  | start : ReachableUninitialized E s0 s0
  | call {s : DistortedPowerCorrelation α σ} (c : Call α) :
    ReachableUninitialized E s0 s → (c.isInitialize = true → (exec E s c).1 = false) →
    ReachableUninitialized E s0 (exec E s c).2

/-- The object without the content of its three per-multipole vectors `_transformer`,
`_xiMoments` and `_interpolator`: everything the multipole loops of `initialize` and `transform`
read and do not write. -/
def blankSlots (s : DistortedPowerCorrelation α σ) : DistortedPowerCorrelation α σ :=
  { s with transformer := [], xiMoments := [], interpolator := [] }

/-- The transformer `amt` is the one the last loop of `initialize` builds for slot `j` of the
object `s`: order `j * dell`, relative tolerance `relerr/nell/relbig[j]` (or `relerr/nell` when
the recorded fraction is not positive) and absolute tolerance `abserr/nell`. -/
def TunedFor (s : DistortedPowerCorrelation α σ) (j : Nat)
    (amt : AdaptiveMultipoleTransform α σ) : Prop :=
  amt.ell = (j : Int) * dell s.symmetric ∧
  amt.relerr
    = (if s.relbig.getD j 0 > 0 then
        s.relerr / ((1 + s.ellMax.tdiv (dell s.symmetric) : Int) : α) / s.relbig.getD j 0
      else s.relerr / ((1 + s.ellMax.tdiv (dell s.symmetric) : Int) : α)) ∧
  amt.abserr = s.abserr / ((1 + s.ellMax.tdiv (dell s.symmetric) : Int) : α)

/-- The shape of every object a successful construction and any calls lead to: `ellMax` is not
negative, the per-multipole vectors have `nell = 1 + ellMax/dell` entries, and no recorded
fraction is negative. -/
structure Sized (s : DistortedPowerCorrelation α σ) : Prop where
  ellMax_nonneg : 0 ≤ s.ellMax
  transformer_length : s.transformer.length = (1 + s.ellMax.tdiv (dell s.symmetric)).toNat
  xiMoments_length : s.xiMoments.length = (1 + s.ellMax.tdiv (dell s.symmetric)).toNat
  interpolator_length : s.interpolator.length = (1 + s.ellMax.tdiv (dell s.symmetric)).toNat
  rbig_length : s.rbig.length = (1 + s.ellMax.tdiv (dell s.symmetric)).toNat
  mubig_length : s.mubig.length = (1 + s.ellMax.tdiv (dell s.symmetric)).toNat
  relbig_length : s.relbig.length = (1 + s.ellMax.tdiv (dell s.symmetric)).toNat
  relbig_nonneg : ∀ x ∈ s.relbig, 0 ≤ x

/-- Every slot holds an interpolator, and a transformer with the tolerances `initialize` derives
from the recorded fraction. -/
structure Calibrated (s : DistortedPowerCorrelation α σ) : Prop where
  interpolator_ready : ∀ j, j < (1 + s.ellMax.tdiv (dell s.symmetric)).toNat →
    ∃ interpolator, s.interpolator[j]? = some (some interpolator)
  transformer_tuned : ∀ j, j < (1 + s.ellMax.tdiv (dell s.symmetric)).toNat →
    ∃ amt, s.transformer[j]? = some amt ∧ TunedFor s j amt

/-- What holds of every object a successful construction and any calls lead to: it has the right
shape, and it is calibrated once the flag is set. -/
structure Invariant (s : DistortedPowerCorrelation α σ) : Prop where
  sized : Sized s
  calibrated : s.initialized = true → Calibrated s

/-- The call `_transformer[i]->transform(fOfKPtr, _xiMoments[i], bypassTerminationTest)` that the
loop of `transform` makes for slot `i` when the object is `pre`: on the transformer and the samples
of slot `i`, with `fOfKPtr` bound to `getSavedPowerMultipole(., ell)` or `getPowerMultipole(., ell)`
for the order `ell = i * dell` of that slot. `none` when the slot does not exist. -/
def transformCall (E : Collaborators α σ) (interpolatePowerMultipoles bypassTerminationTest : Bool)
    (pre : DistortedPowerCorrelation α σ) (i : Nat) : Option (Bool × σ × List α) :=
  match pre.transformer[i]?, pre.xiMoments[i]? with
  | some amt, some xi =>
    some (E.amtTransform amt
      (if interpolatePowerMultipoles then
        fun k => getSavedPowerMultipole E pre k ((i : Int) * dell pre.symmetric)
      else fun k => getPowerMultipole E pre k ((i : Int) * dell pre.symmetric))
      xi bypassTerminationTest)
  | _, _ => none

/-- The value `mu = 1. - i*dmu` of the (r,mu) loop of `initialize`, with
`dmu = 2./dell/(nmu-1.)`. -/
def sweepMu (symmetric : Bool) (nmu : Int) (i : Nat) : α :=
  1 - (i : α) * (2 / (dell symmetric : α) / ((nmu : α) - 1))

/-- The table `_initPowerMultipoles` builds for slot `i`, whose order is `i * dell`: the k grid
and, at every k of the grid, `P(k)` times the multipole of that order of `D(k, .)`, that is the
value of `getPowerMultipole(k, i * dell)`. -/
def powerMultipoleTable (E : Collaborators α σ) (s : DistortedPowerCorrelation α σ) (i : Nat) :
    TabulatedPower α :=
  { k := s.kgrid
    Pk := s.kgrid.map
      (fun k => s.power k * E.getMultipole (fun mu => s.distortion k mu) ((i : Int) * dell s.symmetric))
    extrapolateBelow := true
    extrapolateAbove := true }

/-- Every slot of the cache holds the table of its own order. -/
def Cached (E : Collaborators α σ) (s : DistortedPowerCorrelation α σ) : Prop :=
  ∀ i, i < (1 + s.ellMax.tdiv (dell s.symmetric)).toNat →
    s.savedPowerMultipole[i]? = some (some (powerMultipoleTable E s i))

/-- The transformer `amt` is the one the last loop of `initialize` constructs for slot `j` of the
object `s`, with every constructor argument: spherical-Bessel kind, order `j * dell`, the
normalization of that order, the r grid, the updated tolerances and `abspow`. -/
def RetunedFor (E : Collaborators α σ) (s : DistortedPowerCorrelation α σ) (j : Nat)
    (amt : AdaptiveMultipoleTransform α σ) : Prop :=
  amt.kind = .SphericalBessel ∧
  amt.ell = (j : Int) * dell s.symmetric ∧
  amt.coef = E.multipoleTransformNormalization ((j : Int) * dell s.symmetric) 3 1 ∧
  amt.rgrid = s.rgrid ∧
  amt.relerr
    = (if s.relbig.getD j 0 > 0 then
        s.relerr / ((1 + s.ellMax.tdiv (dell s.symmetric) : Int) : α) / s.relbig.getD j 0
      else s.relerr / ((1 + s.ellMax.tdiv (dell s.symmetric) : Int) : α)) ∧
  amt.abserr = s.abserr / ((1 + s.ellMax.tdiv (dell s.symmetric) : Int) : α) ∧
  amt.abspow = s.abspow

/-! ### The constructor in rounded arithmetic -/

/-- The constructor with the rounding of its `double` arithmetic made explicit: the body of
`construct`, with the result of every floating-point operation passed through `fl`, the rounding
of the arithmetic type (conversions of `int` values and the results of the library functions
`std::pow`, `std::log10` and `std::ceil` are not rounded again). With `fl` the identity, which is
exact arithmetic, it is `construct`. -/
def constructRounded [FloorRing α] (fl : α → α) (E : Collaborators α σ) (power : α → α)
    (distortion : α → α → α) (klo khi : α) (nk : Int) (rmin rmax : α) (nr : Int) (ellMax : Int)
    (symmetric : Bool) (relerr abserr abspow : α) :
    Except Failure (DistortedPowerCorrelation α σ) :=
  if khi ≤ klo then
    .error (.runtimeError "DistortedPowerCorrelation: expected klo < khi.")
  else if klo ≤ 0 then
    .error (.runtimeError "DistortedPowerCorrelation: expected klo > 0.")
  else if nk < 2 then
    .error (.runtimeError "DistortedPowerCorrelation: expected nk >= 2.")
  else if rmax ≤ rmin then
    .error (.runtimeError "DistortedPowerCorrelation: expected rmin < rmax.")
  else if rmin ≤ 0 then
    .error (.runtimeError "DistortedPowerCorrelation: expected rmin > 0.")
  else if nr < 2 then
    .error (.runtimeError "DistortedPowerCorrelation: expected nr >= 2.")
  else if ellMax < 0 then
    .error (.runtimeError "DistortedPowerCorrelation: expected ellMax >= 0.")
  else if symmetric && decide (ellMax.tmod 2 = 1) then
    .error (.runtimeError "DistortedPowerCorrelation: expected even ellMax when symmetric.")
  else
    let dk : α := E.pow (fl (khi / klo)) (fl (1 / fl ((nk : α) - 1)))
    let kgrid : List α := (List.range nk.toNat).map (fun (i : Nat) => fl (klo * E.pow dk (i : α)))
    let minSamplesPerDecade : Int := Int.ceil (fl ((nk : α) / E.log10 (fl (khi / klo))))
    let dr : α := fl (fl (rmax - rmin) / fl ((nr : α) - 1))
    let rgrid : List α := (List.range nr.toNat).map (fun (i : Nat) => fl (rmin + fl (dr * (i : α))))
    let nell : Int := 1 + ellMax.tdiv (dell symmetric)
    let ells := ellLoop ellMax symmetric 0
    .ok {
      power := power
      distortion := distortion
      ellMax := ellMax
      symmetric := symmetric
      relerr := relerr
      abserr := abserr
      abspow := abspow
      initialized := false
      kgrid := kgrid
      minSamplesPerDecade := minSamplesPerDecade
      rgrid := rgrid
      transformer := ells.map (fun ell =>
        { kind := .SphericalBessel
          ell := ell
          coef := E.multipoleTransformNormalization ell 3 1
          rgrid := rgrid
          relerr := fl (relerr / 10)
          abserr := fl (abserr / ((2 * nell : Int) : α))
          abspow := abspow
          tuning := none })
      xiMoments := ells.map (fun _ => List.replicate nr.toNat 0)
      interpolator := ells.map (fun _ => none)
      savedPowerMultipole := ells.map (fun _ => none)
      rbig := List.replicate nell.toNat 0
      mubig := List.replicate nell.toNat 0
      relbig := List.replicate nell.toNat 0 }

/-- The local `double dr((rmax - rmin)/(nr-1.))` of the constructor under the rounding `fl`. -/
def rgridStep (fl : α → α) (rmin rmax : α) (nr : Int) : α :=
  fl (fl (rmax - rmin) / fl ((nr : α) - 1))

/-- The element `rmin + dr*i` that the constructor pushes on the r grid, under the rounding
`fl`. -/
def rgridPoint (fl : α → α) (rmin rmax : α) (nr : Int) (i : α) : α :=
  fl (rmin + fl (rgridStep fl rmin rmax nr * i))

end Model

/-! ## A small executable instance

Exact collaborators over `ℚ`, small enough to evaluate by hand. They stand in for the numerical
routines; only their types are fixed by the file under study. -/

/-- The Legendre polynomials by Bonnet's recursion. -/
def exampleLegendre : Nat → ℚ → ℚ
  | 0, _ => 1
  | 1, mu => mu
  | n + 2, mu =>
    ((2 * (n : ℚ) + 3) * mu * exampleLegendre (n + 1) mu - ((n : ℚ) + 1) * exampleLegendre n mu)
      / ((n : ℚ) + 2)

/-- The value of a table at the last knot that is not above `x` (0 below the first knot). -/
def exampleLookup (xs ys : List ℚ) (x : ℚ) : ℚ :=
  (((xs.zip ys).filter (fun p => decide (p.1 ≤ x))).getLast?.map (fun p => p.2)).getD 0

/-- The value of a function object at 1, with 0 for a call that throws. -/
def exampleAtOne (f : ℚ → Except Failure ℚ) : ℚ :=
  match f 1 with
  | .ok v => v
  | .error _ => 0

/-- Collaborators over `ℚ`: integer powers and logarithms; the Legendre moments of orders 0 and 2
of a function `a + c*mu^2` of `mu`; a transformer that fills every sample with its coefficient
times the k-space function at `k = 1` and always reports success; step-function tables. -/
def exampleCollaborators : Collaborators ℚ Unit where
  pow := fun x y => x ^ (Int.floor y).toNat
  log10 := fun x => (Nat.log 10 (Int.floor x).toNat : ℚ)
  getMultipole := fun f ell =>
    if ell = 0 then f 0 + (f 1 - f 0) / 3 else if ell = 2 then 2 * (f 1 - f 0) / 3 else 0
  legendreP := fun ell mu => exampleLegendre ell.toNat mu
  multipoleTransformNormalization := fun _ _ _ => 1
  amtInitialize := fun amt f _ _ _ _ _ _ => ((), amt.rgrid.map (fun _ => amt.coef * exampleAtOne f))
  amtTransform := fun amt f _ _ => (true, (), amt.rgrid.map (fun _ => amt.coef * exampleAtOne f))
  interpolate := fun interpolator r => exampleLookup interpolator.x interpolator.y r
  tabulatedPower := fun tabulated k => exampleLookup tabulated.k tabulated.Pk k

/-- An object by hand: even multipoles 0 and 2, grids `k = [1, 10]` and `r = [1, 2]`, power 1 and
distortion `7/2 - (3/2) mu^2`, not initialized. -/
def exampleObject : DistortedPowerCorrelation ℚ Unit where
  power := fun _ => 1
  distortion := fun _ mu => 7 / 2 - 3 / 2 * mu ^ 2
  ellMax := 2
  symmetric := true
  relerr := 1 / 100
  abserr := 1 / 1000
  abspow := 0
  initialized := false
  kgrid := [1, 10]
  minSamplesPerDecade := 2
  rgrid := [1, 2]
  transformer :=
    [{ kind := .SphericalBessel, ell := 0, coef := 1, rgrid := [1, 2], relerr := 1 / 1000,
       abserr := 1 / 4000, abspow := 0, tuning := none },
     { kind := .SphericalBessel, ell := 2, coef := 1, rgrid := [1, 2], relerr := 1 / 1000,
       abserr := 1 / 4000, abspow := 0, tuning := none }]
  xiMoments := [[0, 0], [0, 0]]
  interpolator := [none, none]
  savedPowerMultipole := [none, none]
  rbig := [0, 0]
  mubig := [0, 0]
  relbig := [0, 0]

/-- The hand-made object after `initialize(nmu = 2, margin = 1, vepsMax = 1, vepsMin = 1/2,
optimize = false)`, with 0 in the storage of `xisum` at the start. -/
def exampleInitialized : DistortedPowerCorrelation ℚ Unit :=
  (exec exampleCollaborators exampleObject (.initializeObj 2 1 1 (1 / 2) false 0)).2

/-- The hand-made object after the cache build of `initialize`. -/
def exampleCached : DistortedPowerCorrelation ℚ Unit :=
  { exampleObject with
    savedPowerMultipole :=
      [some { k := [1, 10], Pk := [3, 3], extrapolateBelow := true, extrapolateAbove := true },
       some { k := [1, 10], Pk := [-1, -1], extrapolateBelow := true, extrapolateAbove := true }] }

/-- The hand-made object after the first multipole loop of `initialize`: `xi_0 = 3` and
`xi_2 = -1` at both grid points. -/
def exampleCoarse : DistortedPowerCorrelation ℚ Unit :=
  { exampleCached with
    transformer :=
      [{ kind := .SphericalBessel, ell := 0, coef := 1, rgrid := [1, 2], relerr := 1 / 1000,
         abserr := 1 / 4000, abspow := 0, tuning := some () },
       { kind := .SphericalBessel, ell := 2, coef := 1, rgrid := [1, 2], relerr := 1 / 1000,
         abserr := 1 / 4000, abspow := 0, tuning := some () }]
    xiMoments := [[3, 3], [-1, -1]]
    interpolator :=
      [some { x := [1, 2], y := [3, 3], algorithm := "cspline" },
       some { x := [1, 2], y := [-1, -1], algorithm := "cspline" }] }

/-- The hand-made object after the (r,mu) loop of `initialize`: both maxima are found at the first
point `(r, mu) = (1, 1)`, where `xi_total = 3 - 1 = 2`. -/
def exampleSwept : DistortedPowerCorrelation ℚ Unit :=
  { exampleCoarse with rbig := [1, 1], mubig := [1, 1], relbig := [3 / 2, 1 / 2] }

/-- The hand-made object after `initialize`: the new transformers have relative tolerances
`(1/100)/2/(3/2) = 1/300` and `(1/100)/2/(1/2) = 1/100` and absolute tolerance `1/2000`. -/
def exampleFinal : DistortedPowerCorrelation ℚ Unit :=
  { exampleSwept with
    initialized := true
    transformer :=
      [{ kind := .SphericalBessel, ell := 0, coef := 1, rgrid := [1, 2], relerr := 1 / 300,
         abserr := 1 / 2000, abspow := 0, tuning := some () },
       { kind := .SphericalBessel, ell := 2, coef := 1, rgrid := [1, 2], relerr := 1 / 100,
         abserr := 1 / 2000, abspow := 0, tuning := some () }] }

/-! ## FftGaussianRandomFieldGenerator: the k-space accessors

A shallow embedding of `flattenIndex`, `getFieldKRe` and `getFieldKIm` of
`cosmo/FftGaussianRandomFieldGenerator.cc`. The buffer `_pimpl->data` of complex values is a list
of (real, imaginary) pairs; reading it at a negative index or past its end is the
`Failure.undefined` result. The grid sizes and the arguments are `int` values; the one expression
whose value can leave the range of `int` for sizes the constructor accepts is the index computed
by `flattenIndex`, which is reduced into that range (`wrapInt`). -/

/-- The members the k-space accessors read: the grid sizes `getNx()`, `getNy()`, `getNz()`, the
member `_halfz`, and the buffer `_pimpl->data`. -/
structure FftGaussianRandomFieldGenerator (α : Type) where
  nx : Int
  ny : Int
  nz : Int
  halfz : Int
  data : List (α × α)

/-- The state the constructor and `generateFieldK` leave: `_halfz(nz/2+1)`, and a buffer of
`_nbuf = nx*ny*_halfz` complex values. -/
def FftGaussianRandomFieldGenerator.Generated {α : Type}
    (g : FftGaussianRandomFieldGenerator α) : Prop :=
  g.halfz = g.nz.tdiv 2 + 1 ∧ (g.data.length : Int) = g.nx * g.ny * g.halfz

/-- The value of an expression of type `int` (32 bits, two's complement) whose mathematical value
is `x`: `x` reduced modulo `2^32` into `[-2^31, 2^31)`. Reducing after every operation or once at
the end gives the same value. -/
def wrapInt (x : Int) : Int := (x + 2147483648) % 4294967296 - 2147483648

/-- The method `flattenIndex(kx, ky, kz)`: `kz+_halfz*(ky+getNy()*kx)`, computed in `int` and
returned as `int`. -/
def flattenIndex {α : Type} (g : FftGaussianRandomFieldGenerator α) (kx ky kz : Int) : Int :=
  wrapInt (kz + g.halfz * (ky + g.ny * kx))

/-- The read `_pimpl->data[index][0]`. -/
def dataRe {α : Type} (g : FftGaussianRandomFieldGenerator α) (index : Int) : Except Failure α :=
  if index < 0 then .error .undefined
  else
    match g.data[index.toNat]? with
    | some c => .ok c.1
    | none => .error .undefined

/-- The read `_pimpl->data[index][1]`. -/
def dataIm {α : Type} (g : FftGaussianRandomFieldGenerator α) (index : Int) : Except Failure α :=
  if index < 0 then .error .undefined
  else
    match g.data[index.toNat]? with
    | some c => .ok c.2
    | none => .error .undefined

/-- An arithmetic expression of two buffer reads; it has a value when both reads have one. -/
def ofReads {α : Type} (f : α → α → α) (a b : Except Failure α) : Except Failure α :=
  match a, b with
  | .ok x, .ok y => .ok (f x y)
  | .error e, _ => .error e
  | .ok _, .error e => .error e

/-- The method `getFieldKRe(kx, ky, kz)`. -/
def getFieldKRe {α : Type} [LinearOrderedField α] (g : FftGaussianRandomFieldGenerator α)
    (kx ky kz : Int) : Except Failure α :=
  if kx < 0 ∨ kx ≥ g.nx then
    .error (.runtimeError "FftGaussianRandomFieldGenerator: invalid kx < 0 or >= nx.")
  else if ky < 0 ∨ ky ≥ g.ny then
    .error (.runtimeError "FftGaussianRandomFieldGenerator: invalid ky < 0 or >= ny.")
  else if kz < 0 ∨ kz ≥ g.nz then
    .error (.runtimeError "FftGaussianRandomFieldGenerator: invalid kz < 0 or >= nz.")
  else if 2 * kz = g.nz ∧ ky = 0 ∧ kx = 0 then
    dataRe g (flattenIndex g kx ky kz)
  else
    let onPlane : Option (Except Failure α) :=
      if kz = 0 ∨ 2 * kz = g.nz then
        if ky ≠ 0 ∧ kx = 0 then
          some (ofReads (fun a b => (1 / 2) * (a + b))
            (dataRe g (flattenIndex g kx ky kz)) (dataRe g (flattenIndex g kx (g.ny - ky) kz)))
        else if ky = 0 ∧ kx ≠ 0 then
          some (ofReads (fun a b => (1 / 2) * (a + b))
            (dataRe g (flattenIndex g kx ky kz)) (dataRe g (flattenIndex g (g.nx - kx) ky kz)))
        else if kx ≠ 0 ∧ ky ≠ 0 then
          some (ofReads (fun a b => (1 / 2) * (a + b))
            (dataRe g (flattenIndex g kx ky kz))
            (dataRe g (flattenIndex g (g.nx - kx) (g.ny - ky) kz)))
        else none
      else none
    match onPlane with
    | some result => result
    | none =>
      if kz < g.halfz then dataRe g (flattenIndex g kx ky kz)
      else
        let ky2 := if ky ≠ 0 then g.ny - ky else ky
        let kx2 := if kx ≠ 0 then g.nx - kx else kx
        dataRe g (flattenIndex g kx2 ky2 (g.nz - kz))

/-- The method `getFieldKIm(kx, ky, kz)`. -/
def getFieldKIm {α : Type} [LinearOrderedField α] (g : FftGaussianRandomFieldGenerator α)
    (kx ky kz : Int) : Except Failure α :=
  if kx < 0 ∨ kx ≥ g.nx then
    .error (.runtimeError "FftGaussianRandomFieldGenerator: invalid kx < 0 or >= nx.")
  else if ky < 0 ∨ ky ≥ g.ny then
    .error (.runtimeError "FftGaussianRandomFieldGenerator: invalid ky < 0 or >= ny.")
  else if kz < 0 ∨ kz ≥ g.nz then
    .error (.runtimeError "FftGaussianRandomFieldGenerator: invalid kz < 0 or >= nz.")
  else if 2 * kz = g.nz ∧ ky = 0 ∧ kx = 0 then
    .ok 0
  else
    let onPlane : Option (Except Failure α) :=
      if kz = 0 ∨ 2 * kz = g.nz then
        if ky ≠ 0 ∧ kx = 0 then
          some (ofReads (fun a b => (1 / 2) * (a - b))
            (dataIm g (flattenIndex g kx ky kz)) (dataIm g (flattenIndex g kx (g.ny - ky) kz)))
        else if ky = 0 ∧ kx ≠ 0 then
          some (ofReads (fun a b => (1 / 2) * (a - b))
            (dataIm g (flattenIndex g kx ky kz)) (dataIm g (flattenIndex g (g.nx - kx) ky kz)))
        else if kx ≠ 0 ∧ ky ≠ 0 then
          some (ofReads (fun a b => (1 / 2) * (a - b))
            (dataIm g (flattenIndex g kx ky kz))
            (dataIm g (flattenIndex g (g.nx - kx) (g.ny - ky) kz)))
        else none
      else none
    match onPlane with
    | some result => result
    | none =>
      if kz < g.halfz then dataIm g (flattenIndex g kx ky kz)
      else
        let ky2 := if ky ≠ 0 then g.ny - ky else ky
        let kx2 := if kx ≠ 0 then g.nx - kx else kx
        match dataIm g (flattenIndex g kx2 ky2 (g.nz - kz)) with
        | .ok v => .ok (-v)
        | .error e => .error e

/-- A generator on a 2 x 3 x 4 grid (`_halfz = 3`) whose buffer of 18 complex values holds
`(j, -j)` at index `j`. -/
def exampleGenerator : FftGaussianRandomFieldGenerator ℚ where
  nx := 2
  ny := 3
  nz := 4
  halfz := 3
  data := (List.range 18).map (fun (j : Nat) => ((j : ℚ), -(j : ℚ)))

/-- The statement `if(k != 0) k = n - k;` that `getFieldKRe` and `getFieldKIm` apply to `kx` and
`ky` (with `n` the grid size) before a mirrored read. -/
def mirrorIndex (n k : Int) : Int := if k ≠ 0 then n - k else k

/-- A generator on a 2048 x 2048 x 2048 grid (`_halfz = 1025`), with a buffer of
`2048*2048*1025 = 4299161600` complex values, all zero. -/
def exampleHuge : FftGaussianRandomFieldGenerator ℚ where
  nx := 2048
  ny := 2048
  nz := 2048
  halfz := 1025
  data := List.replicate 4299161600 (0, 0)

/-! ## Further hand-made objects for the (r,mu) loop of initialize -/

/-- An object by hand with no power and no absolute tolerance: multipole 0 only, grids
`k = [1, 10]` and `r = [1, 2]`, power 0, distortion 1, `abserr = 0`, not initialized. -/
def exampleNull : DistortedPowerCorrelation ℚ Unit where
  power := fun _ => 0
  distortion := fun _ _ => 1
  ellMax := 0
  symmetric := false
  relerr := 1 / 100
  abserr := 0
  abspow := 0
  initialized := false
  kgrid := [1, 10]
  minSamplesPerDecade := 2
  rgrid := [1, 2]
  transformer :=
    [{ kind := .SphericalBessel, ell := 0, coef := 1, rgrid := [1, 2], relerr := 1 / 1000,
       abserr := 0, abspow := 0, tuning := none }]
  xiMoments := [[0, 0]]
  interpolator := [none]
  savedPowerMultipole := [none]
  rbig := [0]
  mubig := [0]
  relbig := [0]

/-- The object `exampleNull` after the cache build and the first multipole loop of `initialize`:
`xi_0 = 0` at both grid points. -/
def exampleNullCoarse : DistortedPowerCorrelation ℚ Unit :=
  { exampleNull with
    savedPowerMultipole :=
      [some { k := [1, 10], Pk := [0, 0], extrapolateBelow := true, extrapolateAbove := true }]
    transformer :=
      [{ kind := .SphericalBessel, ell := 0, coef := 1, rgrid := [1, 2], relerr := 1 / 1000,
         abserr := 0, abspow := 0, tuning := some () }]
    xiMoments := [[0, 0]]
    interpolator := [some { x := [1, 2], y := [0, 0], algorithm := "cspline" }] }

/-- An object by hand whose two multipoles are equal: as `exampleObject`, with distortion
`1/2 + (3/2) mu^2`, so that `xi_0 = xi_2 = 1`. -/
def exampleEqual : DistortedPowerCorrelation ℚ Unit :=
  { exampleObject with distortion := fun _ mu => 1 / 2 + 3 / 2 * mu ^ 2 }

/-- The object `exampleEqual` after the cache build and the first multipole loop of
`initialize`: `xi_0 = xi_2 = 1` at both grid points. -/
def exampleEqualCoarse : DistortedPowerCorrelation ℚ Unit :=
  { exampleEqual with
    savedPowerMultipole :=
      [some { k := [1, 10], Pk := [1, 1], extrapolateBelow := true, extrapolateAbove := true },
       some { k := [1, 10], Pk := [1, 1], extrapolateBelow := true, extrapolateAbove := true }]
    transformer :=
      [{ kind := .SphericalBessel, ell := 0, coef := 1, rgrid := [1, 2], relerr := 1 / 1000,
         abserr := 1 / 4000, abspow := 0, tuning := some () },
       { kind := .SphericalBessel, ell := 2, coef := 1, rgrid := [1, 2], relerr := 1 / 1000,
         abserr := 1 / 4000, abspow := 0, tuning := some () }]
    xiMoments := [[1, 1], [1, 1]]
    interpolator :=
      [some { x := [1, 2], y := [1, 1], algorithm := "cspline" },
       some { x := [1, 2], y := [1, 1], algorithm := "cspline" }] }

/-- The object `exampleEqual` after the (r,mu) loop of `initialize` entered with 0 in `xisum`:
both maxima are recorded at the first point `(r, mu) = (1, 1)`. -/
def exampleEqualSwept : DistortedPowerCorrelation ℚ Unit :=
  { exampleEqualCoarse with rbig := [1, 1], mubig := [1, 1], relbig := [1 / 2, 1 / 2] }

/-! ## Double precision

The rounding of IEEE 754 binary64 on exact rational values, for the r grid of the constructor. -/

/-- The value of type `double` (IEEE 754 binary64, round to nearest, ties to even) that an
arithmetic operation with the exact result `x` delivers, for `x` in the range of normal numbers:
`x` is scaled by a power of two to a number in `[2^52, 2^53)`, which is rounded to the nearest
integer. -/
def roundDouble (x : ℚ) : ℚ :=
  if x = 0 then 0
  else
    let e : Int := Int.log 2 |x| - 52
    let t : ℚ := |x| / (2 : ℚ) ^ e
    let f : Int := Int.floor t
    let m : Int :=
      if t - f < 1 / 2 then f else if 1 / 2 < t - f then f + 1 else if f % 2 = 0 then f else f + 1
    (if x < 0 then -1 else 1) * (m : ℚ) * (2 : ℚ) ^ e

/-! ## The multipole loop -/

theorem dell_pos (symmetric : Bool) : 0 < dell symmetric := by
  cases symmetric <;> decide

theorem ellLoop_nil {ellMax ell : Int} (symmetric : Bool) (h : ellMax < ell) :
    ellLoop ellMax symmetric ell = [] := by
  rw [ellLoop, if_neg (by omega)]

theorem ellLoop_cons {ellMax ell : Int} (symmetric : Bool) (h : ell ≤ ellMax) :
    ellLoop ellMax symmetric ell = ell :: ellLoop ellMax symmetric (ell + dell symmetric) := by
  rw [ellLoop, if_pos h]

/-- The loop started at `ell` visits `ell, ell + dell, ..., ell + n*dell` when `ellMax` is less
than one step beyond `ell + n*dell`. -/
theorem ellLoop_eq_map_range (symmetric : Bool) (n : Nat) :
    ∀ (ell rest : Int), 0 ≤ rest → rest < dell symmetric →
      ellLoop (ell + n * dell symmetric + rest) symmetric ell
        = (List.range (n + 1)).map (fun (i : Nat) => ell + (i : Int) * dell symmetric) := by
  induction n with
  | zero =>
    intro ell rest h0 h1
    rw [ellLoop_cons symmetric (by simp; omega), ellLoop_nil symmetric (by simp; omega)]
    simp [List.range_succ]
  | succ n ih =>
    intro ell rest h0 h1
    have hd := dell_pos symmetric
    have hle : ell ≤ ell + ((n + 1 : Nat) : Int) * dell symmetric + rest := by
      have : 0 ≤ ((n + 1 : Nat) : Int) * dell symmetric := by positivity
      omega
    rw [ellLoop_cons symmetric hle]
    have hre : ell + ((n + 1 : Nat) : Int) * dell symmetric + rest
        = (ell + dell symmetric) + (n : Int) * dell symmetric + rest := by
      push_cast; ring
    rw [hre, ih (ell + dell symmetric) rest h0 h1, List.range_succ_eq_map (n + 1)]
    simp only [List.map_cons, List.map_map, Nat.cast_zero, zero_mul, add_zero]
    congr 1
    apply List.map_congr_left
    intro i _
    simp only [Function.comp, Nat.cast_succ]
    ring

/-- The number of active multipoles, `nell = 1 + ellMax/dell`, as a natural number. -/
theorem nell_toNat {ellMax : Int} (symmetric : Bool) (h : 0 ≤ ellMax) :
    (1 + ellMax.tdiv (dell symmetric)).toNat = (ellMax / dell symmetric).toNat + 1 := by
  have hd := dell_pos symmetric
  rw [Int.tdiv_eq_ediv h hd.le]
  have : 0 ≤ ellMax / dell symmetric := Int.ediv_nonneg h hd.le
  omega

/-- The multipole loop from 0 visits exactly `i * dell` for `i = 0, ..., nell - 1`. -/
theorem ellLoop_zero {ellMax : Int} (symmetric : Bool) (h : 0 ≤ ellMax) :
    ellLoop ellMax symmetric 0
      = (List.range (1 + ellMax.tdiv (dell symmetric)).toNat).map
          (fun (i : Nat) => (i : Int) * dell symmetric) := by
  have hd := dell_pos symmetric
  have hq : 0 ≤ ellMax / dell symmetric := Int.ediv_nonneg h hd.le
  have hsplit : ellMax
      = 0 + ((ellMax / dell symmetric).toNat : Int) * dell symmetric + ellMax % dell symmetric := by
    rw [Int.toNat_of_nonneg hq]
    have := Int.ediv_add_emod ellMax (dell symmetric)
    linarith [mul_comm (dell symmetric) (ellMax / dell symmetric)]
  rw [nell_toNat symmetric h]
  conv_lhs => rw [hsplit]
  rw [ellLoop_eq_map_range symmetric _ 0 _ (Int.emod_nonneg _ hd.ne')
    (Int.emod_lt_of_pos _ hd)]
  simp

/-! ## Validity of a multipole order -/

theorem invalidEll_of_claim {ellMax ell : Int} {symmetric : Bool}
    (h : ell < 0 ∨ ell > ellMax ∨ (symmetric = true ∧ Odd ell)) :
    invalidEll ellMax symmetric ell = true := by
  unfold invalidEll
  by_cases h0 : ell < 0
  · simp [h0]
  · rcases h with h | h | ⟨hs, ho⟩
    · exact absurd h h0
    · simp [h]
    · have h1 : ell.tmod 2 = ell % 2 := Int.tmod_eq_emod (by omega) (by decide)
      have h2 := Int.odd_iff.mp ho
      simp [hs, h1, h2]

/-- Every order the multipole loop visits passes the validity test of the accessors. -/
theorem invalidEll_of_mem_ellLoop {ellMax ell : Int} {symmetric : Bool}
    (h : ell ∈ ellLoop ellMax symmetric 0) : invalidEll ellMax symmetric ell = false := by
  by_cases hm : 0 ≤ ellMax
  · rw [ellLoop_zero symmetric hm, nell_toNat symmetric hm] at h
    obtain ⟨i, hi, rfl⟩ := List.mem_map.mp h
    have hd := dell_pos symmetric
    have hi2 : (i : Int) ≤ ellMax / dell symmetric := by
      have := List.mem_range.mp hi
      have hq : 0 ≤ ellMax / dell symmetric := Int.ediv_nonneg hm hd.le
      omega
    have hle : (i : Int) * dell symmetric ≤ ellMax :=
      le_trans (Int.mul_le_mul_of_nonneg_right hi2 hd.le) (Int.ediv_mul_le _ hd.ne')
    have hnn : 0 ≤ (i : Int) * dell symmetric := by positivity
    unfold invalidEll
    cases symmetric with
    | false => simp [not_lt.mpr hnn, not_lt.mpr hle]
    | true =>
      have h1 : ((i : Int) * dell true).tmod 2 = ((i : Int) * dell true) % 2 :=
        Int.tmod_eq_emod hnn (by decide)
      have h2 : ((i : Int) * dell true) % 2 = 0 := by simp [dell]
      simp [not_lt.mpr hnn, not_lt.mpr hle, h1, h2]
  · rw [ellLoop_nil symmetric (by omega)] at h
    simp at h

section Proofs

variable {α σ : Type} [LinearOrderedField α]

/-! ## getPower -/

/-- C1. For every object, every `k` and every `mu` in `[-1, 1]`, `getPower(k, mu)` returns
`P(k) * D(k, mu)`; for `mu < -1` or `mu > 1` it throws; in both cases the object is unchanged. -/
theorem getPower_spec (E : Collaborators α σ) (s : DistortedPowerCorrelation α σ) (k mu : α) :
    ((-1 ≤ mu ∧ mu ≤ 1) → getPower s k mu = .ok (s.power k * s.distortion k mu)) ∧
    ((mu < -1 ∨ mu > 1) → ∃ msg, getPower s k mu = .error (.runtimeError msg)) ∧
    (exec E s (.getPower k mu)).2 = s := by
  refine ⟨?_, ?_, rfl⟩
  · rintro ⟨h1, h2⟩
    have : ¬ (mu < -1 ∨ mu > 1) := by
      rintro (h | h)
      · exact absurd h1 (not_le.mpr h)
      · exact absurd h2 (not_le.mpr h)
    simp [getPower, this]
  · intro h
    rw [getPower, if_pos h]
    exact ⟨_, rfl⟩

/-! ## The constructor -/

/-- C2. Construction fails exactly when one of the eight argument tests holds; whether it fails
does not depend on `relerr`, `abserr` or `abspow`; and a failure is a thrown error that carries no
object, so no grid or slot exists after it. -/
theorem construct_fails_iff [FloorRing α] (E : Collaborators α σ) (power : α → α) (distortion : α → α → α)
    (klo khi : α) (nk : Int) (rmin rmax : α) (nr : Int) (ellMax : Int) (symmetric : Bool)
    (relerr abserr abspow : α) :
    ((∃ msg, construct E power distortion klo khi nk rmin rmax nr ellMax symmetric
          relerr abserr abspow = .error (.runtimeError msg))
      ↔ (khi ≤ klo ∨ klo ≤ 0 ∨ nk < 2 ∨ rmax ≤ rmin ∨ rmin ≤ 0 ∨ nr < 2 ∨ ellMax < 0 ∨
          (symmetric = true ∧ Odd ellMax))) ∧
    (returned (construct E power distortion klo khi nk rmin rmax nr ellMax symmetric
          relerr abserr abspow) = false
      ↔ (khi ≤ klo ∨ klo ≤ 0 ∨ nk < 2 ∨ rmax ≤ rmin ∨ rmin ≤ 0 ∨ nr < 2 ∨ ellMax < 0 ∨
          (symmetric = true ∧ Odd ellMax))) ∧
    (∀ relerr2 abserr2 abspow2 : α,
      returned (construct E power distortion klo khi nk rmin rmax nr ellMax symmetric
          relerr2 abserr2 abspow2)
        = returned (construct E power distortion klo khi nk rmin rmax nr ellMax symmetric
          relerr abserr abspow)) := by
  have hodd : ¬ ellMax < 0 → (ellMax.tmod 2 = 1 ↔ Odd ellMax) := by
    intro h
    rw [Int.tmod_eq_emod (by omega) (by decide), Int.odd_iff]
  have key : ∀ r2 a2 p2 : α,
      ((∃ msg, construct E power distortion klo khi nk rmin rmax nr ellMax symmetric
          r2 a2 p2 = .error (.runtimeError msg))
        ↔ (khi ≤ klo ∨ klo ≤ 0 ∨ nk < 2 ∨ rmax ≤ rmin ∨ rmin ≤ 0 ∨ nr < 2 ∨ ellMax < 0 ∨
            (symmetric = true ∧ Odd ellMax))) ∧
      (returned (construct E power distortion klo khi nk rmin rmax nr ellMax symmetric
          r2 a2 p2) = false
        ↔ (khi ≤ klo ∨ klo ≤ 0 ∨ nk < 2 ∨ rmax ≤ rmin ∨ rmin ≤ 0 ∨ nr < 2 ∨ ellMax < 0 ∨
            (symmetric = true ∧ Odd ellMax))) := by
    intro r2 a2 p2
    unfold construct
    by_cases h1 : khi ≤ klo
    · simp [h1, returned]
    by_cases h2 : klo ≤ 0
    · simp [h1, h2, returned]
    by_cases h3 : nk < 2
    · simp [h1, h2, h3, returned]
    by_cases h4 : rmax ≤ rmin
    · simp [h1, h2, h3, h4, returned]
    by_cases h5 : rmin ≤ 0
    · simp [h1, h2, h3, h4, h5, returned]
    by_cases h6 : nr < 2
    · simp [h1, h2, h3, h4, h5, h6, returned]
    by_cases h7 : ellMax < 0
    · simp [h1, h2, h3, h4, h5, h6, h7, returned]
    by_cases h8 : symmetric = true ∧ Odd ellMax
    · have h8b : ellMax.tmod 2 = 1 := (hodd h7).mpr h8.2
      simp [h1, h2, h3, h4, h5, h6, h7, h8, h8.1, h8b, returned]
    · have h8b : ¬ (symmetric = true ∧ ellMax.tmod 2 = 1) := by
        rintro ⟨ha, hb⟩
        exact h8 ⟨ha, (hodd h7).mp hb⟩
      have h8c : (symmetric && decide (ellMax.tmod 2 = 1)) = false := by
        cases symmetric <;> simp_all
      simp [h1, h2, h3, h4, h5, h6, h7, h8, h8c, returned]
  refine ⟨(key relerr abserr abspow).1, (key relerr abserr abspow).2, ?_⟩
  intro r2 a2 p2
  have ha := (key r2 a2 p2).2
  have hb := (key relerr abserr abspow).2
  cases hx : returned (construct E power distortion klo khi nk rmin rmax nr ellMax symmetric
      r2 a2 p2) <;>
    cases hy : returned (construct E power distortion klo khi nk rmin rmax nr ellMax symmetric
      relerr abserr abspow) <;> simp_all

/-! ## Invalid multipole orders -/

/-- C3. For every object, initialized or not, and every `ell` with `ell < 0`, `ell > ellMax`, or
`ell` odd under `symmetric`, each of `getPowerMultipole`, `getSavedPowerMultipole`,
`getCorrelationMultipole`, `getTransform` and `getBiggestContribution` throws, whatever its other
arguments. -/
theorem accessors_reject_invalid_ell (E : Collaborators α σ) (s : DistortedPowerCorrelation α σ)
    (ell : Int) (h : ell < 0 ∨ ell > s.ellMax ∨ (s.symmetric = true ∧ Odd ell)) (k r : α) :
    (∃ msg, getPowerMultipole E s k ell = .error (.runtimeError msg)) ∧
    (∃ msg, getSavedPowerMultipole E s k ell = .error (.runtimeError msg)) ∧
    (∃ msg, getCorrelationMultipole E s r ell = .error (.runtimeError msg)) ∧
    (∃ msg, getTransform s ell = .error (.runtimeError msg)) ∧
    (∃ msg, getBiggestContribution s ell = .error (.runtimeError msg)) := by
  have hi := invalidEll_of_claim h
  refine ⟨?_, ?_, ?_, ?_, ?_⟩
  · rw [getPowerMultipole, if_pos hi]
    exact ⟨_, rfl⟩
  · rw [getSavedPowerMultipole, if_pos hi]
    exact ⟨_, rfl⟩
  · cases hinit : s.initialized
    · rw [getCorrelationMultipole, if_pos (by simp [hinit])]
      exact ⟨_, rfl⟩
    · rw [getCorrelationMultipole, if_neg (by simp [hinit]), if_pos hi]
      exact ⟨_, rfl⟩
  · rw [getTransform, if_pos hi]
    exact ⟨_, rfl⟩
  · cases hinit : s.initialized
    · rw [getBiggestContribution, if_pos (by simp [hinit])]
      exact ⟨_, rfl⟩
    · rw [getBiggestContribution, if_neg (by simp [hinit]), if_pos hi]
      exact ⟨_, rfl⟩

/-- C3 at the hand-made object: order 1 is odd under `symmetric`. -/
theorem accessors_reject_invalid_ell_witness :
    (∃ msg, getPowerMultipole exampleCollaborators exampleObject 1 1
        = .error (.runtimeError msg)) ∧
    (∃ msg, getSavedPowerMultipole exampleCollaborators exampleObject 1 1
        = .error (.runtimeError msg)) ∧
    (∃ msg, getCorrelationMultipole exampleCollaborators exampleObject 1 1
        = .error (.runtimeError msg)) ∧
    (∃ msg, getTransform exampleObject 1 = .error (.runtimeError msg)) ∧
    (∃ msg, getBiggestContribution exampleObject 1 = .error (.runtimeError msg)) :=
  accessors_reject_invalid_ell exampleCollaborators exampleObject 1
    (Or.inr (Or.inr ⟨rfl, by decide⟩)) 1 1

/-! ## Loops -/

omit [LinearOrderedField α] in
/-- A property every pass of a loop keeps holds after the loop. -/
theorem foldl_preserves {S B : Type} (P : S → Prop) (f : S → B → S) (l : List B)
    (h : ∀ s, ∀ b ∈ l, P s → P (f s b)) (s : S) (hs : P s) : P (l.foldl f s) := by
  induction l generalizing s with
  | nil => exact hs
  | cons b bs ih =>
    exact ih (fun s b hb => h s b (List.mem_cons_of_mem _ hb)) _ (h s b (List.mem_cons_self _ _) hs)

omit [LinearOrderedField α] in
/-- A property indexed by the number of passes done: if pass `k` takes it from `k` to `k + 1`,
the loop over `0, ..., n - 1` takes it from `0` to `n`. -/
theorem foldl_range_progress {S : Type} (P : Nat → S → Prop) (f : S → Nat → S) (n : Nat)
    (h : ∀ k s, k < n → P k s → P (k + 1) (f s k)) (s : S) (hs : P 0 s) :
    P n ((List.range n).foldl f s) := by
  induction n with
  | zero => exact hs
  | succ n ih =>
    rw [List.range_succ, List.foldl_append]
    exact h n _ (Nat.lt_succ_self n)
      (ih (fun k s hk hP => h k s (Nat.lt_succ_of_lt hk) hP))

/-! ## The power-multipole cache -/

/-- For a valid order the tabulation loop does not throw and returns one sample per k. -/
theorem pgridLoop_ok (E : Collaborators α σ) (s : DistortedPowerCorrelation α σ) (ell : Int)
    (h : invalidEll s.ellMax s.symmetric ell = false) (ks : List α) :
    pgridLoop E s ell ks
      = .ok (ks.map (fun k => s.power k * E.getMultipole (fun mu => s.distortion k mu) ell)) := by
  induction ks with
  | nil => rfl
  | cons k ks ih =>
    simp [pgridLoop, getPowerMultipole, h, ih]

/-- One pass of the cache loop at a valid order fills the slot of that order and nothing else. -/
theorem initPowerMultipolesStep_ok (E : Collaborators α σ) (s : DistortedPowerCorrelation α σ)
    (ell : Int) (h : invalidEll s.ellMax s.symmetric ell = false) :
    initPowerMultipolesStep E (.ok (), s) ell
      = (.ok (), { s with
          savedPowerMultipole := s.savedPowerMultipole.set (slotIndex s.symmetric ell).toNat
            (some { k := s.kgrid
                    Pk := s.kgrid.map
                      (fun k => s.power k * E.getMultipole (fun mu => s.distortion k mu) ell)
                    extrapolateBelow := true
                    extrapolateAbove := true }) }) := by
  simp [initPowerMultipolesStep, pgridLoop_ok E s ell h]

/-- The cache build never throws, and it changes no member other than `_savedPowerMultipole`,
whose length it keeps. -/
theorem initPowerMultipoles_frame (E : Collaborators α σ) (s : DistortedPowerCorrelation α σ) :
    ∃ saved : List (Option (TabulatedPower α)),
      saved.length = s.savedPowerMultipole.length ∧
      initPowerMultipoles E s = (.ok (), { s with savedPowerMultipole := saved }) := by
  unfold initPowerMultipoles
  have key : ∀ (l : List Int), (∀ ell ∈ l, invalidEll s.ellMax s.symmetric ell = false) →
      ∀ saved0 : List (Option (TabulatedPower α)),
        saved0.length = s.savedPowerMultipole.length →
        ∃ saved : List (Option (TabulatedPower α)),
          saved.length = s.savedPowerMultipole.length ∧
          l.foldl (initPowerMultipolesStep E) (.ok (), { s with savedPowerMultipole := saved0 })
            = (.ok (), { s with savedPowerMultipole := saved }) := by
    intro l
    induction l with
    | nil => intro _ saved0 h0; exact ⟨saved0, h0, rfl⟩
    | cons ell l ih =>
      intro hl saved0 h0
      rw [List.foldl_cons, initPowerMultipolesStep_ok E { s with savedPowerMultipole := saved0 } ell
        (hl ell (List.mem_cons_self _ _))]
      exact ih (fun e he => hl e (List.mem_cons_of_mem _ he)) _ (by simp [h0])
  exact key _ (fun ell h => invalidEll_of_mem_ellLoop h) s.savedPowerMultipole rfl

/-! ## Validation in initialize -/

/-- The two outcomes of `initialize`: a failed validation leaves the object as it was, and past
the validation the call returns normally. -/
theorem initializeObj_outcome (E : Collaborators α σ) (s : DistortedPowerCorrelation α σ)
    (nmu : Int) (margin vepsMax vepsMin : α) (optimize : Bool) (stack : α) :
    ((nmu < 2 ∨ margin < 1 ∨ vepsMax ≤ vepsMin ∨ vepsMin ≤ 0) →
      ∃ msg, initializeObj E s nmu margin vepsMax vepsMin optimize stack
        = (.error (.runtimeError msg), s)) ∧
    (¬ (nmu < 2 ∨ margin < 1 ∨ vepsMax ≤ vepsMin ∨ vepsMin ≤ 0) →
      (initializeObj E s nmu margin vepsMax vepsMin optimize stack).1 = .ok ()) := by
  obtain ⟨saved, -, hp⟩ := initPowerMultipoles_frame E s
  unfold initializeObj
  by_cases h1 : nmu < 2
  · simp only [h1, if_true, true_or, not_true_eq_false, false_implies, and_true, forall_const]
    exact ⟨_, rfl⟩
  by_cases h2 : margin < 1
  · simp only [h1, h2, if_true, if_false, true_or, or_true, not_true_eq_false, false_implies,
      and_true, forall_const]
    exact ⟨_, rfl⟩
  by_cases h3 : vepsMax ≤ vepsMin
  · simp only [h1, h2, h3, if_true, if_false, true_or, or_true, not_true_eq_false, false_implies,
      and_true, forall_const]
    exact ⟨_, rfl⟩
  by_cases h4 : vepsMin ≤ 0
  · simp only [h1, h2, h3, h4, if_true, if_false, or_true, not_true_eq_false, false_implies,
      and_true, forall_const]
    exact ⟨_, rfl⟩
  · simp only [h1, h2, h3, h4, if_false, or_self, false_implies, not_false_eq_true, true_and,
      forall_const, hp]

/-- C7. `initialize` throws whenever `nmu < 2`, `margin < 1`, `vepsMax <= vepsMin` or
`vepsMin <= 0`, and then the object is exactly what it was; for every other argument combination
it returns normally. -/
theorem initializeObj_validation (E : Collaborators α σ) (s : DistortedPowerCorrelation α σ)
    (nmu : Int) (margin vepsMax vepsMin : α) (optimize : Bool) (stack : α) :
    ((nmu < 2 ∨ margin < 1 ∨ vepsMax ≤ vepsMin ∨ vepsMin ≤ 0) →
      ∃ msg, initializeObj E s nmu margin vepsMax vepsMin optimize stack
        = (.error (.runtimeError msg), s)) ∧
    (¬ (nmu < 2 ∨ margin < 1 ∨ vepsMax ≤ vepsMin ∨ vepsMin ≤ 0) →
      (initializeObj E s nmu margin vepsMax vepsMin optimize stack).1 = .ok ()) :=
  initializeObj_outcome E s nmu margin vepsMax vepsMin optimize stack

/-! ## The hand-made object is a constructed object -/

theorem exampleObject_constructed :
    construct exampleCollaborators (fun _ => 1) (fun _ mu => 7 / 2 - 3 / 2 * mu ^ 2)
      1 10 2 1 2 2 2 true (1 / 100) (1 / 1000) 0 = .ok exampleObject := by
  have hl : ellLoop 2 true 0 = [0, 2] := by
    rw [ellLoop_zero true (by decide)]
    decide
  have hlog : Nat.log 10 10 = 1 :=
    Nat.log_eq_of_pow_le_of_lt_pow (by norm_num) (by norm_num)
  simp [construct, hl, exampleObject, exampleCollaborators, dell, List.range_succ, hlog]
  norm_num

/-! ## What the multipole loops leave alone -/

theorem initializeSlot_blank (E : Collaborators α σ) (margin vepsMax vepsMin : α)
    (optimize : Bool) (s : DistortedPowerCorrelation α σ) (idx ell : Int) :
    blankSlots (initializeSlot E margin vepsMax vepsMin optimize s idx ell) = blankSlots s := by
  unfold initializeSlot
  split <;> rfl

theorem coarseStep_blank (E : Collaborators α σ) (margin vepsMax vepsMin : α)
    (s : DistortedPowerCorrelation α σ) (ell : Int) :
    blankSlots (coarseStep E margin vepsMax vepsMin s ell) = blankSlots s :=
  initializeSlot_blank E margin vepsMax vepsMin false s _ ell

theorem retuneStep_blank (E : Collaborators α σ) (margin vepsMax vepsMin : α)
    (optimize : Bool) (s : DistortedPowerCorrelation α σ) (ell : Int) :
    blankSlots (retuneStep E margin vepsMax vepsMin optimize s ell) = blankSlots s := by
  unfold retuneStep
  simp only []
  rw [initializeSlot_blank]
  rfl

theorem transformStep_blank (E : Collaborators α σ) (interpolate bypass : Bool)
    (acc : Bool × DistortedPowerCorrelation α σ) (ell : Int) :
    blankSlots (transformStep E interpolate bypass acc ell).2 = blankSlots acc.2 := by
  unfold transformStep
  simp only []
  split <;> rfl

theorem coarseLoop_blank (E : Collaborators α σ) (margin vepsMax vepsMin : α)
    (l : List Int) (s : DistortedPowerCorrelation α σ) :
    blankSlots (l.foldl (coarseStep E margin vepsMax vepsMin) s) = blankSlots s :=
  foldl_preserves (fun t => blankSlots t = blankSlots s) _ l
    (fun t b _ h => (coarseStep_blank E margin vepsMax vepsMin t b).trans h) s rfl

theorem retuneLoop_blank (E : Collaborators α σ) (margin vepsMax vepsMin : α) (optimize : Bool)
    (l : List Int) (s : DistortedPowerCorrelation α σ) :
    blankSlots (l.foldl (retuneStep E margin vepsMax vepsMin optimize) s) = blankSlots s :=
  foldl_preserves (fun t => blankSlots t = blankSlots s) _ l
    (fun t b _ h => (retuneStep_blank E margin vepsMax vepsMin optimize t b).trans h) s rfl

theorem transformLoop_blank (E : Collaborators α σ) (interpolate bypass : Bool)
    (l : List Int) (acc : Bool × DistortedPowerCorrelation α σ) :
    blankSlots (l.foldl (transformStep E interpolate bypass) acc).2 = blankSlots acc.2 :=
  foldl_preserves (fun t => blankSlots t.2 = blankSlots acc.2) _ l
    (fun t b _ h => (transformStep_blank E interpolate bypass t b).trans h) acc rfl

/-- `transform` never throws in the model, and outside the three per-multipole vectors it
changes at most `_savedPowerMultipole` (only when asked to refresh the cache). -/
theorem transform_frame (E : Collaborators α σ) (s : DistortedPowerCorrelation α σ)
    (interpolate bypass : Bool) :
    ∃ saved : List (Option (TabulatedPower α)),
      saved.length = s.savedPowerMultipole.length ∧
      (interpolate = false → saved = s.savedPowerMultipole) ∧
      (transform E s interpolate bypass).1
        = .ok ((ellLoop s.ellMax s.symmetric 0).foldl (transformStep E interpolate bypass)
            (true, { s with savedPowerMultipole := saved })).1 ∧
      (transform E s interpolate bypass).2
        = ((ellLoop s.ellMax s.symmetric 0).foldl (transformStep E interpolate bypass)
            (true, { s with savedPowerMultipole := saved })).2 ∧
      blankSlots (transform E s interpolate bypass).2
        = blankSlots { s with savedPowerMultipole := saved } := by
  cases interpolate with
  | false =>
    refine ⟨s.savedPowerMultipole, rfl, fun _ => rfl, rfl, rfl, ?_⟩
    exact transformLoop_blank E false bypass _ (true, s)
  | true =>
    obtain ⟨saved, hlen, hp⟩ := initPowerMultipoles_frame E s
    refine ⟨saved, hlen, fun h => absurd h (by decide), ?_, ?_, ?_⟩
    · simp only [transform, if_true, hp]
    · simp only [transform, if_true, hp]
    · simp only [transform, if_true, hp]
      exact transformLoop_blank E true bypass _ (true, { s with savedPowerMultipole := saved })

/-! ## What a successful construction gives -/

/-- A successful construction passed the eight tests and built the members as the constructor's
body says. -/
theorem construct_ok [FloorRing α] {E : Collaborators α σ} {power : α → α}
    {distortion : α → α → α} {klo khi : α} {nk : Int} {rmin rmax : α} {nr : Int} {ellMax : Int}
    {symmetric : Bool} {relerr abserr abspow : α} {s0 : DistortedPowerCorrelation α σ}
    (h : construct E power distortion klo khi nk rmin rmax nr ellMax symmetric
      relerr abserr abspow = .ok s0) :
    (klo < khi ∧ 0 < klo ∧ 2 ≤ nk ∧ rmin < rmax ∧ 0 < rmin ∧ 2 ≤ nr ∧ 0 ≤ ellMax) ∧
    s0.power = power ∧ s0.distortion = distortion ∧
    s0.ellMax = ellMax ∧ s0.symmetric = symmetric ∧
    s0.relerr = relerr ∧ s0.abserr = abserr ∧ s0.abspow = abspow ∧
    s0.initialized = false ∧
    s0.rgrid = (List.range nr.toNat).map
      (fun (i : Nat) => rmin + (rmax - rmin) / ((nr : α) - 1) * (i : α)) ∧
    s0.transformer.length = (ellLoop ellMax symmetric 0).length ∧
    s0.xiMoments.length = (ellLoop ellMax symmetric 0).length ∧
    s0.interpolator.length = (ellLoop ellMax symmetric 0).length ∧
    s0.savedPowerMultipole = (ellLoop ellMax symmetric 0).map (fun _ => none) ∧
    s0.rbig = List.replicate (1 + ellMax.tdiv (dell symmetric)).toNat 0 ∧
    s0.mubig = List.replicate (1 + ellMax.tdiv (dell symmetric)).toNat 0 ∧
    s0.relbig = List.replicate (1 + ellMax.tdiv (dell symmetric)).toNat 0 := by
  unfold construct at h
  by_cases h1 : khi ≤ klo
  · simp [h1] at h
  by_cases h2 : klo ≤ 0
  · simp [h1, h2] at h
  by_cases h3 : nk < 2
  · simp [h1, h2, h3] at h
  by_cases h4 : rmax ≤ rmin
  · simp [h1, h2, h3, h4] at h
  by_cases h5 : rmin ≤ 0
  · simp [h1, h2, h3, h4, h5] at h
  by_cases h6 : nr < 2
  · simp [h1, h2, h3, h4, h5, h6] at h
  by_cases h7 : ellMax < 0
  · simp [h1, h2, h3, h4, h5, h6, h7] at h
  by_cases h8 : (symmetric && decide (ellMax.tmod 2 = 1)) = true
  · simp only [h8] at h
    simp [h1, h2, h3, h4, h5, h6, h7] at h
  · rw [if_neg h1, if_neg h2, if_neg h3, if_neg h4, if_neg h5, if_neg h6, if_neg h7,
      if_neg h8] at h
    injection h with h
    subst h
    refine ⟨⟨not_le.mp h1, not_le.mp h2, not_lt.mp h3, not_le.mp h4, not_le.mp h5,
      not_lt.mp h6, not_lt.mp h7⟩, rfl, rfl, rfl, rfl, rfl, rfl, rfl, rfl, rfl, ?_, ?_, ?_,
      rfl, rfl, rfl, rfl⟩ <;> simp

/-! ## The initialized flag -/

/-- Past its validation `initialize` marks the object initialized. -/
theorem initializeObj_sets_flag (E : Collaborators α σ) (s : DistortedPowerCorrelation α σ)
    (nmu : Int) (margin vepsMax vepsMin : α) (optimize : Bool) (stack : α)
    (hv : ¬ (nmu < 2 ∨ margin < 1 ∨ vepsMax ≤ vepsMin ∨ vepsMin ≤ 0)) :
    (initializeObj E s nmu margin vepsMax vepsMin optimize stack).2.initialized = true := by
  obtain ⟨saved, -, hp⟩ := initPowerMultipoles_frame E s
  simp only [not_or] at hv
  obtain ⟨h1, h2, h3, h4⟩ := hv
  simp only [initializeObj, if_neg h1, if_neg h2, if_neg h3, if_neg h4, hp]

/-- A call keeps the flag as it is, except `initialize` returning normally, which sets it. -/
theorem exec_initialized (E : Collaborators α σ) (s : DistortedPowerCorrelation α σ)
    (c : Call α) :
    ((exec E s c).2.initialized = s.initialized) ∨
    (c.isInitialize = true ∧ (exec E s c).1 = true ∧ (exec E s c).2.initialized = true) := by
  cases c with
  | initializeObj nmu margin vepsMax vepsMin optimize stack =>
    by_cases hv : (nmu < 2 ∨ margin < 1 ∨ vepsMax ≤ vepsMin ∨ vepsMin ≤ 0)
    · obtain ⟨msg, hm⟩ :=
        (initializeObj_outcome E s nmu margin vepsMax vepsMin optimize stack).1 hv
      left
      simp only [exec, hm]
    · right
      refine ⟨rfl, ?_, initializeObj_sets_flag E s nmu margin vepsMax vepsMin optimize stack hv⟩
      simp only [exec,
        (initializeObj_outcome E s nmu margin vepsMax vepsMin optimize stack).2 hv, returned]
  | transform interpolate bypass =>
    left
    obtain ⟨saved, -, -, -, -, hb⟩ := transform_frame E s interpolate bypass
    have hi := congrArg DistortedPowerCorrelation.initialized hb
    exact hi
  | getPower k mu => exact Or.inl rfl
  | getPowerMultipole k ell => exact Or.inl rfl
  | getSavedPowerMultipole k ell => exact Or.inl rfl
  | getCorrelationMultipole r ell => exact Or.inl rfl
  | getCorrelation r mu => exact Or.inl rfl
  | getTransform ell => exact Or.inl rfl
  | getBiggestContribution ell => exact Or.inl rfl

/-- C4. After a successful construction the flag is false; in every state reached from it by
calls none of which is an `initialize` that returned normally, `getCorrelation` and
`getCorrelationMultipole` throw for all arguments; a call that leaves the flag true found it true
or is an `initialize` that returned normally; and no call sets the flag back to false. -/
theorem initialized_flag_gate [FloorRing α] (E : Collaborators α σ) (power : α → α)
    (distortion : α → α → α) (klo khi : α) (nk : Int) (rmin rmax : α) (nr : Int) (ellMax : Int)
    (symmetric : Bool) (relerr abserr abspow : α) (s0 : DistortedPowerCorrelation α σ)
    (h0 : construct E power distortion klo khi nk rmin rmax nr ellMax symmetric
      relerr abserr abspow = .ok s0) :
    s0.initialized = false ∧
    (∀ s, ReachableUninitialized E s0 s → ∀ (r mu : α) (ell : Int),
      (∃ msg, getCorrelation E s r mu = .error (.runtimeError msg)) ∧
      (∃ msg, getCorrelationMultipole E s r ell = .error (.runtimeError msg))) ∧
    (∀ s, Reachable E s0 s → ∀ c : Call α, (exec E s c).2.initialized = true →
      s.initialized = true ∨ (c.isInitialize = true ∧ (exec E s c).1 = true)) ∧
    (∀ s, Reachable E s0 s → ∀ c : Call α, s.initialized = true →
      (exec E s c).2.initialized = true) := by
  have hinit : s0.initialized = false := (construct_ok h0).2.2.2.2.2.2.2.2.1
  refine ⟨hinit, ?_, ?_, ?_⟩
  · intro s hs
    have hflag : s.initialized = false := by
      induction hs with
      | start => exact hinit
      | call c _ hc ih =>
        rcases exec_initialized E _ c with h | ⟨h1, h2, -⟩
        · rw [h, ih]
        · rw [hc h1] at h2
          exact absurd h2 (by decide)
    intro r mu ell
    constructor
    · rw [getCorrelation, if_pos (by simp [hflag])]
      exact ⟨_, rfl⟩
    · rw [getCorrelationMultipole, if_pos (by simp [hflag])]
      exact ⟨_, rfl⟩
  · intro s _ c hc
    rcases exec_initialized E s c with h | ⟨h1, h2, -⟩
    · left
      rw [← h]
      exact hc
    · exact Or.inr ⟨h1, h2⟩
  · intro s _ c hs
    rcases exec_initialized E s c with h | ⟨-, -, h3⟩
    · rw [h]
      exact hs
    · exact h3

/-! ## Storage indices -/

omit [LinearOrderedField α] in
theorem tdiv_dell_mul (symmetric : Bool) (i : Nat) :
    ((i : Int) * dell symmetric).tdiv (dell symmetric) = i :=
  Int.mul_tdiv_cancel _ (dell_pos symmetric).ne'

omit [LinearOrderedField α] in
theorem slotIndex_mul (symmetric : Bool) (i : Nat) :
    slotIndex symmetric ((i : Int) * dell symmetric) = i := by
  cases symmetric with
  | false => simp [slotIndex, dell]
  | true => simp [slotIndex, dell]

omit [LinearOrderedField α] in
/-- Both index formulas of the file send the `i`-th order of the loop to slot `i`. -/
theorem ellLoop_foldl {S : Type} (f : S → Int → S) (s : S) {ellMax : Int} (symmetric : Bool)
    (h : 0 ≤ ellMax) :
    (ellLoop ellMax symmetric 0).foldl f s
      = (List.range (1 + ellMax.tdiv (dell symmetric)).toNat).foldl
          (fun t (i : Nat) => f t ((i : Int) * dell symmetric)) s := by
  rw [ellLoop_zero symmetric h, List.foldl_map]

/-! ## One slot of the initialize loops -/

/-- On a slot that exists, the three statements of `initialize` replace the slot's transformer
state, samples and interpolator, and nothing else. -/
theorem initializeSlot_eq (E : Collaborators α σ) (margin vepsMax vepsMin : α) (optimize : Bool)
    (s : DistortedPowerCorrelation α σ) (idx ell : Int) (amt : AdaptiveMultipoleTransform α σ)
    (xi : List α) (h1 : s.transformer[idx.toNat]? = some amt)
    (h2 : s.xiMoments[idx.toNat]? = some xi) :
    initializeSlot E margin vepsMax vepsMin optimize s idx ell
      = { s with
          transformer := s.transformer.set idx.toNat
            { amt with tuning := some (E.amtInitialize amt
                (fun k => getSavedPowerMultipole E s k ell) xi s.minSamplesPerDecade margin
                vepsMax vepsMin optimize).1 }
          xiMoments := s.xiMoments.set idx.toNat
            (E.amtInitialize amt (fun k => getSavedPowerMultipole E s k ell) xi
              s.minSamplesPerDecade margin vepsMax vepsMin optimize).2
          interpolator := s.interpolator.set idx.toNat
            (some { x := s.rgrid
                    y := (E.amtInitialize amt (fun k => getSavedPowerMultipole E s k ell) xi
                      s.minSamplesPerDecade margin vepsMax vepsMin optimize).2
                    algorithm := "cspline" }) } := by
  simp only [initializeSlot, h1, h2]

/-- The three per-multipole vectors keep their lengths. -/
theorem initializeSlot_lengths (E : Collaborators α σ) (margin vepsMax vepsMin : α)
    (optimize : Bool) (s : DistortedPowerCorrelation α σ) (idx ell : Int) :
    (initializeSlot E margin vepsMax vepsMin optimize s idx ell).transformer.length
      = s.transformer.length ∧
    (initializeSlot E margin vepsMax vepsMin optimize s idx ell).xiMoments.length
      = s.xiMoments.length ∧
    (initializeSlot E margin vepsMax vepsMin optimize s idx ell).interpolator.length
      = s.interpolator.length := by
  unfold initializeSlot
  split <;> simp

/-- Slots other than `idx` are not touched. -/
theorem initializeSlot_other (E : Collaborators α σ) (margin vepsMax vepsMin : α)
    (optimize : Bool) (s : DistortedPowerCorrelation α σ) (idx ell : Int) (j : Nat)
    (hj : idx.toNat ≠ j) :
    (initializeSlot E margin vepsMax vepsMin optimize s idx ell).transformer[j]?
      = s.transformer[j]? ∧
    (initializeSlot E margin vepsMax vepsMin optimize s idx ell).xiMoments[j]?
      = s.xiMoments[j]? ∧
    (initializeSlot E margin vepsMax vepsMin optimize s idx ell).interpolator[j]?
      = s.interpolator[j]? := by
  unfold initializeSlot
  split <;> simp [List.getElem?_set_ne hj]

/-! ## The (r,mu) loop keeps the recorded fractions non-negative -/

/-- The three recorded vectors have `n` entries and no recorded fraction is negative. -/
theorem sweepUpdate_keeps (n : Nat) (nell : Int) (r mu : α) (w : Sweep α)
    (h : w.rbig.length = n ∧ w.mubig.length = n ∧ w.relbig.length = n ∧ ∀ x ∈ w.relbig, 0 ≤ x) :
    (sweepUpdate nell r mu w).rbig.length = n ∧ (sweepUpdate nell r mu w).mubig.length = n ∧
    (sweepUpdate nell r mu w).relbig.length = n ∧ ∀ x ∈ (sweepUpdate nell r mu w).relbig, 0 ≤ x := by
  unfold sweepUpdate
  refine foldl_preserves
    (fun w => w.rbig.length = n ∧ w.mubig.length = n ∧ w.relbig.length = n ∧
      ∀ x ∈ w.relbig, 0 ≤ x) _ _ ?_ w h
  intro t idx _ ht
  simp only []
  split
  · refine ⟨by simp [ht.1], by simp [ht.2.1], by simp [ht.2.2.1], ?_⟩
    intro x hx
    rcases List.mem_or_eq_of_mem_set hx with hx | hx
    · exact ht.2.2.2 x hx
    · rw [hx]
      exact abs_nonneg _
  · exact ht

/-- The inner multipole loop writes only the locals `contribution` and `xisum`. -/
theorem sweepTerms_keeps (E : Collaborators α σ) (s : DistortedPowerCorrelation α σ) (r mu : α)
    (w : Sweep α) :
    (sweepTerms E s r mu w).rbig = w.rbig ∧ (sweepTerms E s r mu w).mubig = w.mubig ∧
    (sweepTerms E s r mu w).relbig = w.relbig := by
  unfold sweepTerms
  refine foldl_preserves
    (fun t => t.rbig = w.rbig ∧ t.mubig = w.mubig ∧ t.relbig = w.relbig) _ _ ?_ w ⟨rfl, rfl, rfl⟩
  intro t _ _ ht
  exact ht

theorem sweepPoint_keeps (E : Collaborators α σ) (s : DistortedPowerCorrelation α σ) (n : Nat)
    (nell : Int) (r mu : α) (w : Sweep α)
    (h : w.rbig.length = n ∧ w.mubig.length = n ∧ w.relbig.length = n ∧ ∀ x ∈ w.relbig, 0 ≤ x) :
    (sweepPoint E s nell r mu w).rbig.length = n ∧ (sweepPoint E s nell r mu w).mubig.length = n ∧
    (sweepPoint E s nell r mu w).relbig.length = n ∧
    ∀ x ∈ (sweepPoint E s nell r mu w).relbig, 0 ≤ x := by
  obtain ⟨h1, h2, h3⟩ := sweepTerms_keeps E s r mu w
  have hw : (sweepTerms E s r mu w).rbig.length = n ∧ (sweepTerms E s r mu w).mubig.length = n ∧
      (sweepTerms E s r mu w).relbig.length = n ∧ ∀ x ∈ (sweepTerms E s r mu w).relbig, 0 ≤ x := by
    rw [h1, h2, h3]
    exact h
  unfold sweepPoint
  simp only []
  split
  · exact hw
  · exact sweepUpdate_keeps n nell r mu _ hw

theorem sweep_keeps (E : Collaborators α σ) (s : DistortedPowerCorrelation α σ) (n : Nat)
    (nmu : Int) (w : Sweep α)
    (h : w.rbig.length = n ∧ w.mubig.length = n ∧ w.relbig.length = n ∧ ∀ x ∈ w.relbig, 0 ≤ x) :
    (sweep E s nmu w).rbig.length = n ∧ (sweep E s nmu w).mubig.length = n ∧
    (sweep E s nmu w).relbig.length = n ∧ ∀ x ∈ (sweep E s nmu w).relbig, 0 ≤ x := by
  unfold sweep
  simp only []
  refine foldl_preserves
    (fun w => w.rbig.length = n ∧ w.mubig.length = n ∧ w.relbig.length = n ∧
      ∀ x ∈ w.relbig, 0 ≤ x) _ _ ?_ w h
  intro t r _ ht
  refine foldl_preserves
    (fun w => w.rbig.length = n ∧ w.mubig.length = n ∧ w.relbig.length = n ∧
      ∀ x ∈ w.relbig, 0 ≤ x) _ _ ?_ t ht
  intro t2 i _ ht2
  exact sweepPoint_keeps E s n _ r _ t2 ht2

/-! ## The invariant -/

omit [LinearOrderedField α] in
theorem ellLoop_length {ellMax : Int} (symmetric : Bool) (h : 0 ≤ ellMax) :
    (ellLoop ellMax symmetric 0).length = (1 + ellMax.tdiv (dell symmetric)).toNat := by
  rw [ellLoop_zero symmetric h, List.length_map, List.length_range]

/-- Two objects that agree outside the three per-multipole vectors agree on every other member. -/
theorem blankSlots_fields {s t : DistortedPowerCorrelation α σ}
    (hb : blankSlots t = blankSlots s) :
    t.power = s.power ∧ t.distortion = s.distortion ∧ t.ellMax = s.ellMax ∧
    t.symmetric = s.symmetric ∧ t.relerr = s.relerr ∧ t.abserr = s.abserr ∧
    t.abspow = s.abspow ∧ t.initialized = s.initialized ∧ t.kgrid = s.kgrid ∧
    t.minSamplesPerDecade = s.minSamplesPerDecade ∧ t.rgrid = s.rgrid ∧
    t.savedPowerMultipole = s.savedPowerMultipole ∧ t.rbig = s.rbig ∧ t.mubig = s.mubig ∧
    t.relbig = s.relbig := by
  have e1 := congrArg DistortedPowerCorrelation.power hb
  have e2 := congrArg DistortedPowerCorrelation.distortion hb
  have e3 := congrArg DistortedPowerCorrelation.ellMax hb
  have e4 := congrArg DistortedPowerCorrelation.symmetric hb
  have e5 := congrArg DistortedPowerCorrelation.relerr hb
  have e6 := congrArg DistortedPowerCorrelation.abserr hb
  have e7 := congrArg DistortedPowerCorrelation.abspow hb
  have e8 := congrArg DistortedPowerCorrelation.initialized hb
  have e9 := congrArg DistortedPowerCorrelation.kgrid hb
  have e10 := congrArg DistortedPowerCorrelation.minSamplesPerDecade hb
  have e11 := congrArg DistortedPowerCorrelation.rgrid hb
  have e12 := congrArg DistortedPowerCorrelation.savedPowerMultipole hb
  have e13 := congrArg DistortedPowerCorrelation.rbig hb
  have e14 := congrArg DistortedPowerCorrelation.mubig hb
  have e15 := congrArg DistortedPowerCorrelation.relbig hb
  exact ⟨e1, e2, e3, e4, e5, e6, e7, e8, e9, e10, e11, e12, e13, e14, e15⟩

/-- Two objects that agree outside the three per-multipole vectors, whose vectors have the same
lengths, have the same shape. -/
theorem Sized.of_blank {s t : DistortedPowerCorrelation α σ} (h : Sized s)
    (hb : blankSlots t = blankSlots s) (h1 : t.transformer.length = s.transformer.length)
    (h2 : t.xiMoments.length = s.xiMoments.length)
    (h3 : t.interpolator.length = s.interpolator.length) : Sized t := by
  obtain ⟨-, -, he, hs, -, -, -, -, -, -, -, -, hr, hm, hl⟩ := blankSlots_fields hb
  refine ⟨?_, ?_, ?_, ?_, ?_, ?_, ?_, ?_⟩
  · rw [he]; exact h.1
  · rw [h1, he, hs]; exact h.2
  · rw [h2, he, hs]; exact h.3
  · rw [h3, he, hs]; exact h.4
  · rw [hr, he, hs]; exact h.5
  · rw [hm, he, hs]; exact h.6
  · rw [hl, he, hs]; exact h.7
  · rw [hl]; exact h.8

/-- A constructed object satisfies the invariant. -/
theorem construct_invariant [FloorRing α] {E : Collaborators α σ} {power : α → α}
    {distortion : α → α → α} {klo khi : α} {nk : Int} {rmin rmax : α} {nr : Int} {ellMax : Int}
    {symmetric : Bool} {relerr abserr abspow : α} {s0 : DistortedPowerCorrelation α σ}
    (h : construct E power distortion klo khi nk rmin rmax nr ellMax symmetric
      relerr abserr abspow = .ok s0) : Invariant s0 := by
  obtain ⟨⟨-, -, -, -, -, -, hm⟩, -, -, he, hs, -, -, -, hi, -, ht, hx, hp, -, hr, hmu, hrel⟩ :=
    construct_ok h
  have hlen := ellLoop_length symmetric hm
  refine ⟨⟨by rw [he]; exact hm, ?_, ?_, ?_, ?_, ?_, ?_, ?_⟩, ?_⟩
  · rw [ht, hlen, he, hs]
  · rw [hx, hlen, he, hs]
  · rw [hp, hlen, he, hs]
  · rw [hr, he, hs, List.length_replicate]
  · rw [hmu, he, hs, List.length_replicate]
  · rw [hrel, he, hs, List.length_replicate]
  · intro x hx
    rw [hrel] at hx
    rw [(List.mem_replicate.mp hx).2]
  · intro h1
    rw [hi] at h1
    exact absurd h1 (by decide)

/-- The cache does not enter the invariant. -/
theorem Invariant.withSaved {s : DistortedPowerCorrelation α σ} (h : Invariant s)
    (saved : List (Option (TabulatedPower α))) :
    Invariant { s with savedPowerMultipole := saved } :=
  ⟨⟨h.1.1, h.1.2, h.1.3, h.1.4, h.1.5, h.1.6, h.1.7, h.1.8⟩, fun hi => ⟨(h.2 hi).1, (h.2 hi).2⟩⟩

/-- One pass of the loop of `transform` keeps the invariant. -/
theorem transformStep_invariant (E : Collaborators α σ) (interpolate bypass : Bool)
    (acc : Bool × DistortedPowerCorrelation α σ) (ell : Int) (h : Invariant acc.2) :
    Invariant (transformStep E interpolate bypass acc ell).2 := by
  unfold transformStep
  simp only []
  split
  · rename_i amt xi h1 h2
    refine ⟨⟨h.1.1, ?_, ?_, ?_, h.1.5, h.1.6, h.1.7, h.1.8⟩, fun hi => ⟨?_, ?_⟩⟩
    · simpa using h.1.2
    · simpa using h.1.3
    · simpa using h.1.4
    · intro j hj
      obtain ⟨it, hit⟩ := (h.2 hi).1 j hj
      by_cases hij : (ell.tdiv (dell acc.2.symmetric)).toNat = j
      · have hlt : j < acc.2.interpolator.length := by rw [h.1.4]; exact hj
        exact ⟨_, by simp only [hij, List.getElem?_set_self hlt]; rfl⟩
      · exact ⟨it, by simp only [List.getElem?_set_ne hij, hit]⟩
    · intro j hj
      obtain ⟨amt2, hamt, htuned⟩ := (h.2 hi).2 j hj
      by_cases hij : (ell.tdiv (dell acc.2.symmetric)).toNat = j
      · have hlt : j < acc.2.transformer.length := by rw [h.1.2]; exact hj
        rw [hij] at h1
        have hsame : amt2 = amt := Option.some.inj (hamt.symm.trans h1)
        subst hsame
        refine ⟨_, by simp only [hij, List.getElem?_set_self hlt]; rfl, ?_⟩
        exact htuned
      · exact ⟨amt2, by simp only [List.getElem?_set_ne hij, hamt], htuned⟩
  · exact h

/-- The method `transform` keeps the invariant. -/
theorem transform_invariant (E : Collaborators α σ) (s : DistortedPowerCorrelation α σ)
    (interpolate bypass : Bool) (h : Invariant s) :
    Invariant (transform E s interpolate bypass).2 := by
  obtain ⟨saved, -, -, -, h2, -⟩ := transform_frame E s interpolate bypass
  rw [h2]
  exact foldl_preserves (fun acc => Invariant acc.2) _ _
    (fun acc ell _ hacc => transformStep_invariant E interpolate bypass acc ell hacc)
    (true, { s with savedPowerMultipole := saved }) (h.withSaved saved)

/-- The first loop of `initialize` keeps the shape. -/
theorem coarsePass_sized (E : Collaborators α σ) (margin vepsMax vepsMin : α)
    (s : DistortedPowerCorrelation α σ) (h : Sized s) :
    Sized (coarsePass E margin vepsMax vepsMin s) := by
  unfold coarsePass
  refine foldl_preserves Sized _ _ ?_ s h
  intro t ell _ ht
  obtain ⟨h1, h2, h3⟩ := initializeSlot_lengths E margin vepsMax vepsMin false t
    (ell.tdiv (dell t.symmetric)) ell
  exact ht.of_blank (coarseStep_blank E margin vepsMax vepsMin t ell) h1 h2 h3

/-- The (r,mu) loop keeps the shape. -/
theorem calibrationSweep_sized (E : Collaborators α σ) (s : DistortedPowerCorrelation α σ)
    (nmu : Int) (stack : α) (h : Sized s) : Sized (calibrationSweep E s nmu stack) := by
  have hk := sweep_keeps E s (1 + s.ellMax.tdiv (dell s.symmetric)).toNat nmu
    { contribution := List.replicate (1 + s.ellMax.tdiv (dell s.symmetric)).toNat 0
      xisum := stack, rbig := s.rbig, mubig := s.mubig, relbig := s.relbig.map (fun _ => 0) }
    ⟨h.5, h.6, by simpa using h.7, by
      intro x hx
      obtain ⟨_, _, rfl⟩ := List.mem_map.mp hx
      exact le_refl _⟩
  exact ⟨h.1, h.2, h.3, h.4, hk.1, hk.2.1, hk.2.2.1, hk.2.2.2⟩

/-- One pass of the last loop of `initialize`, at the `k`-th order: slot `k` gets an interpolator
and a transformer with the updated tolerances, the other slots are not touched, and the lengths
stay. -/
theorem retuneStep_slot (E : Collaborators α σ) (margin vepsMax vepsMin : α) (optimize : Bool)
    (t : DistortedPowerCorrelation α σ) (k : Nat) (hk1 : k < t.transformer.length)
    (hk2 : k < t.xiMoments.length) (hk3 : k < t.interpolator.length) :
    (∃ interpolator,
      (retuneStep E margin vepsMax vepsMin optimize t ((k : Int) * dell t.symmetric)).interpolator[k]?
        = some (some interpolator)) ∧
    (∃ amt,
      (retuneStep E margin vepsMax vepsMin optimize t ((k : Int) * dell t.symmetric)).transformer[k]?
        = some amt ∧ TunedFor t k amt) ∧
    (∀ j, j ≠ k →
      (retuneStep E margin vepsMax vepsMin optimize t ((k : Int) * dell t.symmetric)).interpolator[j]?
          = t.interpolator[j]? ∧
      (retuneStep E margin vepsMax vepsMin optimize t ((k : Int) * dell t.symmetric)).transformer[j]?
          = t.transformer[j]?) ∧
    (retuneStep E margin vepsMax vepsMin optimize t ((k : Int) * dell t.symmetric)).transformer.length
      = t.transformer.length ∧
    (retuneStep E margin vepsMax vepsMin optimize t ((k : Int) * dell t.symmetric)).xiMoments.length
      = t.xiMoments.length ∧
    (retuneStep E margin vepsMax vepsMin optimize t ((k : Int) * dell t.symmetric)).interpolator.length
      = t.interpolator.length := by
  have hxi : t.xiMoments[k]? = some (t.xiMoments[k]) := List.getElem?_eq_getElem hk2
  unfold retuneStep
  simp only [slotIndex_mul, Int.toNat_ofNat]
  rw [initializeSlot_eq E margin vepsMax vepsMin optimize _ (k : Int) _ _ (t.xiMoments[k])
    (by simp only [Int.toNat_ofNat]; exact List.getElem?_set_self hk1)
    (by simp only [Int.toNat_ofNat]; exact hxi)]
  simp only [Int.toNat_ofNat, List.length_set, and_true]
  refine ⟨⟨_, List.getElem?_set_self hk3⟩, ⟨_, List.getElem?_set_self (by simpa using hk1), ?_⟩, ?_⟩
  · exact ⟨rfl, rfl, rfl⟩
  · intro j hj
    exact ⟨List.getElem?_set_ne (Ne.symm hj),
      by rw [List.getElem?_set_ne (Ne.symm hj), List.getElem?_set_ne (Ne.symm hj)]⟩

/-- The last loop of `initialize` keeps the shape and leaves the object calibrated. -/
theorem retunePass_calibrated (E : Collaborators α σ) (margin vepsMax vepsMin : α)
    (optimize : Bool) (s : DistortedPowerCorrelation α σ) (h : Sized s) :
    Sized (retunePass E margin vepsMax vepsMin optimize s) ∧
    Calibrated (retunePass E margin vepsMax vepsMin optimize s) ∧
    blankSlots (retunePass E margin vepsMax vepsMin optimize s) = blankSlots s := by
  have hprog := foldl_range_progress
    (fun k t => blankSlots t = blankSlots s ∧
      t.transformer.length = s.transformer.length ∧ t.xiMoments.length = s.xiMoments.length ∧
      t.interpolator.length = s.interpolator.length ∧
      ∀ j, j < k → (∃ interpolator, t.interpolator[j]? = some (some interpolator)) ∧
        (∃ amt, t.transformer[j]? = some amt ∧ TunedFor s j amt))
    (fun t (i : Nat) =>
      retuneStep E margin vepsMax vepsMin optimize t ((i : Int) * dell s.symmetric))
    (1 + s.ellMax.tdiv (dell s.symmetric)).toNat
    (by
      intro k t hk ⟨hb, h1, h2, h3, hslots⟩
      have hsym : s.symmetric = t.symmetric := (blankSlots_fields hb).2.2.2.1.symm
      simp only [hsym]
      obtain ⟨⟨it, hit⟩, ⟨amt, hamt, htuned⟩, hother, l1, l2, l3⟩ :=
        retuneStep_slot E margin vepsMax vepsMin optimize t k
          (by rw [h1, h.2]; exact hk) (by rw [h2, h.3]; exact hk) (by rw [h3, h.4]; exact hk)
      refine ⟨(retuneStep_blank E margin vepsMax vepsMin optimize t _).trans hb,
        l1.trans h1, l2.trans h2, l3.trans h3, ?_⟩
      intro j hj
      by_cases hjk : j = k
      · subst hjk
        refine ⟨⟨it, hit⟩, amt, hamt, ?_⟩
        have ht : TunedFor (blankSlots t) j amt := htuned
        rw [hb] at ht
        exact ht
      · have hlt : j < k := by omega
        obtain ⟨hi1, hi2⟩ := hother j hjk
        rw [hi1, hi2]
        exact hslots j hlt)
    s ⟨rfl, rfl, rfl, rfl, fun j hj => absurd hj (Nat.not_lt_zero j)⟩
  unfold retunePass
  rw [ellLoop_foldl _ s s.symmetric h.1]
  obtain ⟨hb, h1, h2, h3, hslots⟩ := hprog
  obtain ⟨-, -, he, hs, -⟩ := blankSlots_fields hb
  refine ⟨h.of_blank hb h1 h2 h3, ⟨?_, ?_⟩, hb⟩
  · intro j hj
    rw [he, hs] at hj
    exact (hslots j hj).1
  · intro j hj
    rw [he, hs] at hj
    obtain ⟨amt, hamt, htuned⟩ := (hslots j hj).2
    refine ⟨amt, hamt, ?_⟩
    have ht : TunedFor (blankSlots s) j amt := htuned
    rw [← hb] at ht
    exact ht

/-- The method `initialize` keeps the invariant. -/
theorem initializeObj_invariant (E : Collaborators α σ) (s : DistortedPowerCorrelation α σ)
    (nmu : Int) (margin vepsMax vepsMin : α) (optimize : Bool) (stack : α) (h : Invariant s) :
    Invariant (initializeObj E s nmu margin vepsMax vepsMin optimize stack).2 := by
  by_cases hv : (nmu < 2 ∨ margin < 1 ∨ vepsMax ≤ vepsMin ∨ vepsMin ≤ 0)
  · obtain ⟨msg, hm⟩ :=
      (initializeObj_outcome E s nmu margin vepsMax vepsMin optimize stack).1 hv
    rw [hm]
    exact h
  · obtain ⟨saved, -, hp⟩ := initPowerMultipoles_frame E s
    simp only [not_or] at hv
    obtain ⟨h1, h2, h3, h4⟩ := hv
    simp only [initializeObj, if_neg h1, if_neg h2, if_neg h3, if_neg h4, hp]
    obtain ⟨hsz, hcal, -⟩ := retunePass_calibrated E margin vepsMax vepsMin optimize _
      (calibrationSweep_sized E _ nmu stack
        (coarsePass_sized E margin vepsMax vepsMin _ (h.withSaved saved).1))
    exact ⟨⟨hsz.1, hsz.2, hsz.3, hsz.4, hsz.5, hsz.6, hsz.7, hsz.8⟩,
      fun _ => ⟨hcal.1, hcal.2⟩⟩

/-- Every call keeps the invariant. -/
theorem exec_invariant (E : Collaborators α σ) (s : DistortedPowerCorrelation α σ) (c : Call α)
    (h : Invariant s) : Invariant (exec E s c).2 := by
  cases c with
  | initializeObj nmu margin vepsMax vepsMin optimize stack =>
    exact initializeObj_invariant E s nmu margin vepsMax vepsMin optimize stack h
  | transform interpolate bypass => exact transform_invariant E s interpolate bypass h
  | getPower k mu => exact h
  | getPowerMultipole k ell => exact h
  | getSavedPowerMultipole k ell => exact h
  | getCorrelationMultipole r ell => exact h
  | getCorrelation r mu => exact h
  | getTransform ell => exact h
  | getBiggestContribution ell => exact h

/-! ## What no call changes -/

/-- No call changes the functions, the multipole range, the tolerances or the grids. -/
theorem exec_immutable (E : Collaborators α σ) (s : DistortedPowerCorrelation α σ) (c : Call α) :
    (exec E s c).2.power = s.power ∧ (exec E s c).2.distortion = s.distortion ∧
    (exec E s c).2.ellMax = s.ellMax ∧ (exec E s c).2.symmetric = s.symmetric ∧
    (exec E s c).2.relerr = s.relerr ∧ (exec E s c).2.abserr = s.abserr ∧
    (exec E s c).2.abspow = s.abspow ∧ (exec E s c).2.kgrid = s.kgrid ∧
    (exec E s c).2.minSamplesPerDecade = s.minSamplesPerDecade ∧
    (exec E s c).2.rgrid = s.rgrid := by
  have same : ∀ t : DistortedPowerCorrelation α σ, t = s →
      t.power = s.power ∧ t.distortion = s.distortion ∧ t.ellMax = s.ellMax ∧
      t.symmetric = s.symmetric ∧ t.relerr = s.relerr ∧ t.abserr = s.abserr ∧
      t.abspow = s.abspow ∧ t.kgrid = s.kgrid ∧
      t.minSamplesPerDecade = s.minSamplesPerDecade ∧ t.rgrid = s.rgrid := by
    intro t ht
    subst ht
    exact ⟨rfl, rfl, rfl, rfl, rfl, rfl, rfl, rfl, rfl, rfl⟩
  cases c with
  | initializeObj nmu margin vepsMax vepsMin optimize stack =>
    by_cases hv : (nmu < 2 ∨ margin < 1 ∨ vepsMax ≤ vepsMin ∨ vepsMin ≤ 0)
    · obtain ⟨msg, hm⟩ :=
        (initializeObj_outcome E s nmu margin vepsMax vepsMin optimize stack).1 hv
      exact same _ (by simp only [exec, hm])
    · obtain ⟨saved, -, hp⟩ := initPowerMultipoles_frame E s
      simp only [not_or] at hv
      obtain ⟨h1, h2, h3, h4⟩ := hv
      simp only [exec, initializeObj, if_neg h1, if_neg h2, if_neg h3, if_neg h4, hp]
      have hb1 := retuneLoop_blank E margin vepsMax vepsMin optimize
        (ellLoop (calibrationSweep E (coarsePass E margin vepsMax vepsMin
          { s with savedPowerMultipole := saved }) nmu stack).ellMax
          (calibrationSweep E (coarsePass E margin vepsMax vepsMin
          { s with savedPowerMultipole := saved }) nmu stack).symmetric 0)
        (calibrationSweep E (coarsePass E margin vepsMax vepsMin
          { s with savedPowerMultipole := saved }) nmu stack)
      have hb2 := coarseLoop_blank E margin vepsMax vepsMin
        (ellLoop s.ellMax s.symmetric 0) { s with savedPowerMultipole := saved }
      obtain ⟨a1, a2, a3, a4, a5, a6, a7, -, a9, a10, a11, -⟩ := blankSlots_fields hb1
      obtain ⟨b1, b2, b3, b4, b5, b6, b7, -, b9, b10, b11, -⟩ := blankSlots_fields hb2
      exact ⟨a1.trans b1, a2.trans b2, a3.trans b3, a4.trans b4, a5.trans b5, a6.trans b6,
        a7.trans b7, a9.trans b9, a10.trans b10, a11.trans b11⟩
  | transform interpolate bypass =>
    obtain ⟨saved, -, -, -, -, hb⟩ := transform_frame E s interpolate bypass
    obtain ⟨a1, a2, a3, a4, a5, a6, a7, -, a9, a10, a11, -⟩ := blankSlots_fields hb
    exact ⟨a1, a2, a3, a4, a5, a6, a7, a9, a10, a11⟩
  | getPower k mu => exact same _ rfl
  | getPowerMultipole k ell => exact same _ rfl
  | getSavedPowerMultipole k ell => exact same _ rfl
  | getCorrelationMultipole r ell => exact same _ rfl
  | getCorrelation r mu => exact same _ rfl
  | getTransform ell => exact same _ rfl
  | getBiggestContribution ell => exact same _ rfl

/-- Every object reached from a constructed one satisfies the invariant and has the constructed
object's functions, multipole range, tolerances and grids. -/
theorem reachable_invariant (E : Collaborators α σ) {s0 s : DistortedPowerCorrelation α σ}
    (h0 : Invariant s0) (hs : Reachable E s0 s) :
    Invariant s ∧
    (s.power = s0.power ∧ s.distortion = s0.distortion ∧ s.ellMax = s0.ellMax ∧
      s.symmetric = s0.symmetric ∧ s.relerr = s0.relerr ∧ s.abserr = s0.abserr ∧
      s.abspow = s0.abspow ∧ s.kgrid = s0.kgrid ∧
      s.minSamplesPerDecade = s0.minSamplesPerDecade ∧ s.rgrid = s0.rgrid) := by
  induction hs with
  | start => exact ⟨h0, rfl, rfl, rfl, rfl, rfl, rfl, rfl, rfl, rfl, rfl⟩
  | call c _ ih =>
    obtain ⟨hI, b1, b2, b3, b4, b5, b6, b7, b8, b9, b10⟩ := ih
    obtain ⟨a1, a2, a3, a4, a5, a6, a7, a8, a9, a10⟩ := exec_immutable E _ c
    exact ⟨exec_invariant E _ c hI, a1.trans b1, a2.trans b2, a3.trans b3, a4.trans b4,
      a5.trans b5, a6.trans b6, a7.trans b7, a8.trans b8, a9.trans b9, a10.trans b10⟩

/-! ## The r grid's end points -/

omit [LinearOrderedField α] in
/-- An order in `[0, ellMax]`, even under `symmetric`, is the `i`-th order of the multipole loop
for some `i < nell`. -/
theorem active_slot {ellMax ell : Int} {symmetric : Bool} (h0 : 0 ≤ ell) (h1 : ell ≤ ellMax)
    (h2 : symmetric = true → 2 ∣ ell) :
    ∃ i : Nat, i < (1 + ellMax.tdiv (dell symmetric)).toNat ∧ ell = (i : Int) * dell symmetric := by
  have hm : 0 ≤ ellMax := le_trans h0 h1
  rw [nell_toNat symmetric hm]
  cases symmetric with
  | false =>
    refine ⟨ell.toNat, ?_, ?_⟩
    · simp only [dell, Bool.false_eq_true, if_false, Int.ediv_one]
      omega
    · simp only [dell, Bool.false_eq_true, if_false, mul_one]
      omega
  | true =>
    obtain ⟨c, hc⟩ := h2 rfl
    refine ⟨c.toNat, ?_, ?_⟩
    · simp only [dell, if_true]
      omega
    · simp only [dell, if_true]
      omega

/-- On an initialized object `getCorrelationMultipole` at the `i`-th active order tests `r`
against the ends of the r grid and then evaluates the interpolator of slot `i`. -/
theorem getCorrelationMultipole_active (E : Collaborators α σ)
    (s : DistortedPowerCorrelation α σ) (hI : Invariant s) (hinit : s.initialized = true)
    (lo hi : α) (hlo : s.rgrid.head? = some lo) (hhi : s.rgrid.getLast? = some hi)
    (i : Nat) (hi2 : i < (1 + s.ellMax.tdiv (dell s.symmetric)).toNat) (r : α) :
    ∃ interpolator, s.interpolator[i]? = some (some interpolator) ∧
      getCorrelationMultipole E s r ((i : Int) * dell s.symmetric)
        = if r < lo ∨ r > hi then
            .error (.runtimeError
              "DistortedPowerCorrelation::getCorrelationMultipole: r out of range.")
          else .ok (E.interpolate interpolator r) := by
  obtain ⟨it, hit⟩ := (hI.2 hinit).1 i hi2
  refine ⟨it, hit, ?_⟩
  have hvalid : invalidEll s.ellMax s.symmetric ((i : Int) * dell s.symmetric) = false := by
    apply invalidEll_of_mem_ellLoop
    rw [ellLoop_zero s.symmetric hI.1.1]
    exact List.mem_map.mpr ⟨i, List.mem_range.mpr hi2, rfl⟩
  simp only [getCorrelationMultipole, hinit, hvalid, hlo, hhi, slotIndex_mul,
    Int.toNat_ofNat, hit, Bool.not_true, Bool.false_eq_true, if_false]

/-- When every multipole is returned, the accumulation loop returns the start value plus the sum
of the Legendre-weighted multipoles. -/
theorem getCorrelationLoop_ok (E : Collaborators α σ) (s : DistortedPowerCorrelation α σ)
    (r mu : α) (xi : Int → α) (ells : List Int)
    (h : ∀ ell ∈ ells, getCorrelationMultipole E s r ell = .ok (xi ell)) (result : α) :
    getCorrelationLoop E s r mu ells result
      = .ok (result + (ells.map (fun ell => xi ell * E.legendreP ell mu)).sum) := by
  induction ells generalizing result with
  | nil => simp [getCorrelationLoop]
  | cons ell ells ih =>
    simp only [getCorrelationLoop, h ell (List.mem_cons_self _ _), List.map_cons, List.sum_cons]
    rw [ih (fun e he => h e (List.mem_cons_of_mem _ he))]
    rw [add_assoc]

/-! ## The claims at the hand-made object -/

/-- C4 at the hand-made object. -/
theorem initialized_flag_gate_witness :
    construct exampleCollaborators (fun _ => 1) (fun _ mu => 7 / 2 - 3 / 2 * mu ^ 2)
      1 10 2 1 2 2 2 true (1 / 100) (1 / 1000) 0 = .ok exampleObject ∧
    (exampleObject.initialized = false ∧
    (∀ s, ReachableUninitialized exampleCollaborators exampleObject s → ∀ (r mu : ℚ) (ell : Int),
      (∃ msg, getCorrelation exampleCollaborators s r mu = .error (.runtimeError msg)) ∧
      (∃ msg, getCorrelationMultipole exampleCollaborators s r ell
        = .error (.runtimeError msg))) ∧
    (∀ s, Reachable exampleCollaborators exampleObject s → ∀ c : Call ℚ,
      (exec exampleCollaborators s c).2.initialized = true →
      s.initialized = true ∨ (c.isInitialize = true ∧ (exec exampleCollaborators s c).1 = true)) ∧
    (∀ s, Reachable exampleCollaborators exampleObject s → ∀ c : Call ℚ,
      s.initialized = true → (exec exampleCollaborators s c).2.initialized = true)) :=
  ⟨exampleObject_constructed,
    initialized_flag_gate exampleCollaborators (fun _ => 1) (fun _ mu => 7 / 2 - 3 / 2 * mu ^ 2)
      1 10 2 1 2 2 2 true (1 / 100) (1 / 1000) 0 exampleObject exampleObject_constructed⟩

theorem exampleInitialized_reachable :
    Reachable exampleCollaborators exampleObject exampleInitialized :=
  Reachable.call _ Reachable.start

theorem exampleInitialized_flag : exampleInitialized.initialized = true :=
  initializeObj_sets_flag exampleCollaborators exampleObject 2 1 1 (1 / 2) false 0 (by norm_num)

theorem example_ellLoop : ellLoop 2 true 0 = [0, 2] := by
  rw [ellLoop_zero true (by decide)]
  decide

theorem example_initPowerMultipoles :
    initPowerMultipoles exampleCollaborators exampleObject = (.ok (), exampleCached) := by
  simp [initPowerMultipoles, initPowerMultipolesStep, pgridLoop, getPowerMultipole, invalidEll,
    slotIndex, exampleObject, exampleCached, exampleCollaborators, example_ellLoop]
  norm_num

theorem example_coarsePass :
    coarsePass exampleCollaborators 1 1 (1 / 2) exampleCached = exampleCoarse := by
  have hl : ellLoop exampleCached.ellMax exampleCached.symmetric 0 = [0, 2] := example_ellLoop
  rw [coarsePass, hl]
  simp [coarseStep, initializeSlot, getSavedPowerMultipole, invalidEll,
    slotIndex, dell, exampleObject, exampleCached, exampleCoarse, exampleCollaborators,
    exampleAtOne, exampleLookup]

theorem example_sweepPoint_first :
    sweepPoint exampleCollaborators exampleCoarse 2 1 1
        { contribution := [0, 0], xisum := 0, rbig := [0, 0], mubig := [0, 0], relbig := [0, 0] }
      = { contribution := [3, -1], xisum := 2, rbig := [1, 1], mubig := [1, 1],
          relbig := [3 / 2, 1 / 2] } := by
  simp [sweepPoint, sweepTerms, sweepUpdate, example_ellLoop, interpolatorAt, slotIndex,
    exampleObject, exampleCached, exampleCoarse, exampleCollaborators, exampleLookup,
    exampleLegendre, List.range_succ]
  norm_num

theorem example_sweepPoint_second :
    sweepPoint exampleCollaborators exampleCoarse 2 1 0
        { contribution := [3, -1], xisum := 2, rbig := [1, 1], mubig := [1, 1],
          relbig := [3 / 2, 1 / 2] }
      = { contribution := [3, 1 / 2], xisum := 11 / 2, rbig := [1, 1], mubig := [1, 1],
          relbig := [3 / 2, 1 / 2] } := by
  simp [sweepPoint, sweepTerms, sweepUpdate, example_ellLoop, interpolatorAt, slotIndex,
    exampleObject, exampleCached, exampleCoarse, exampleCollaborators, exampleLookup,
    exampleLegendre, List.range_succ]
  norm_num [abs_of_pos, abs_div]

theorem example_sweepPoint_third :
    sweepPoint exampleCollaborators exampleCoarse 2 2 1
        { contribution := [3, 1 / 2], xisum := 11 / 2, rbig := [1, 1], mubig := [1, 1],
          relbig := [3 / 2, 1 / 2] }
      = { contribution := [3, -1], xisum := 15 / 2, rbig := [1, 1], mubig := [1, 1],
          relbig := [3 / 2, 1 / 2] } := by
  simp [sweepPoint, sweepTerms, sweepUpdate, example_ellLoop, interpolatorAt, slotIndex,
    exampleObject, exampleCached, exampleCoarse, exampleCollaborators, exampleLookup,
    exampleLegendre, List.range_succ]
  norm_num [abs_of_pos, abs_div]

theorem example_sweepPoint_fourth :
    sweepPoint exampleCollaborators exampleCoarse 2 2 0
        { contribution := [3, -1], xisum := 15 / 2, rbig := [1, 1], mubig := [1, 1],
          relbig := [3 / 2, 1 / 2] }
      = { contribution := [3, 1 / 2], xisum := 11, rbig := [1, 1], mubig := [1, 1],
          relbig := [3 / 2, 1 / 2] } := by
  simp [sweepPoint, sweepTerms, sweepUpdate, example_ellLoop, interpolatorAt, slotIndex,
    exampleObject, exampleCached, exampleCoarse, exampleCollaborators, exampleLookup,
    exampleLegendre, List.range_succ]
  norm_num [abs_of_pos, abs_div]

theorem example_calibrationSweep :
    calibrationSweep exampleCollaborators exampleCoarse 2 0 = exampleSwept := by
  have hn : (1 + exampleCoarse.ellMax.tdiv 2) = 2 := by decide
  have hr : exampleCoarse.rgrid = [1, 2] := rfl
  have hb : exampleCoarse.rbig = [0, 0] := rfl
  have hm : exampleCoarse.mubig = [0, 0] := rfl
  have hl : exampleCoarse.relbig = [0, 0] := rfl
  have hd : dell exampleCoarse.symmetric = 2 := rfl
  have hrange : List.range (2 : Int).toNat = [0, 1] := by decide
  have hrep : List.replicate (2 : Int).toNat (0 : ℚ) = [0, 0] := by
    rw [show (2 : Int).toNat = 2 from rfl]
    rfl
  have mu0 : (1 : ℚ) - ((0 : Nat) : ℚ) * (2 / ((2 : Int) : ℚ) / (((2 : Int) : ℚ) - 1)) = 1 := by
    norm_num
  have mu1 : (1 : ℚ) - ((1 : Nat) : ℚ) * (2 / ((2 : Int) : ℚ) / (((2 : Int) : ℚ) - 1)) = 0 := by
    norm_num
  simp only [calibrationSweep, sweep, hd, hn, hr, hb, hm, hl, hrange, hrep, List.foldl_cons,
    List.foldl_nil, List.map_cons, List.map_nil, mu0, mu1]
  rw [example_sweepPoint_first, example_sweepPoint_second, example_sweepPoint_third,
    example_sweepPoint_fourth]
  rfl

theorem example_retunePass :
    { retunePass exampleCollaborators 1 1 (1 / 2) false exampleSwept with initialized := true }
      = exampleFinal := by
  have hl : ellLoop exampleSwept.ellMax exampleSwept.symmetric 0 = [0, 2] := example_ellLoop
  rw [retunePass, hl]
  simp [retuneStep, initializeSlot, getSavedPowerMultipole, invalidEll,
    slotIndex, dell, exampleObject, exampleCached, exampleCoarse, exampleSwept, exampleFinal,
    exampleCollaborators, exampleAtOne, exampleLookup]
  norm_num

/-- The run of `initialize` on the hand-made object, evaluated. -/
theorem exampleInitialized_eq : exampleInitialized = exampleFinal := by
  have hv : ¬ ((2 : Int) < 2) := by decide
  simp only [exampleInitialized, exec, initializeObj, if_neg hv, example_initPowerMultipoles,
    example_coarsePass, example_calibrationSweep]
  norm_num [example_retunePass]

/-! ## The recorded fractions and the tolerances after initialize -/

/-- On an initialized object reached from a construction, at the `i`-th active order
`getTransform` returns the transformer of slot `i`, which has the tolerances `initialize` derives
from the recorded fraction, and `getBiggestContribution` returns the three recorded values of
slot `i`, the fraction being non-negative. -/
theorem diagnostics_reached [FloorRing α] {E : Collaborators α σ} {power : α → α}
    {distortion : α → α → α} {klo khi : α} {nk : Int} {rmin rmax : α} {nr : Int} {ellMax : Int}
    {symmetric : Bool} {relerr abserr abspow : α} {s0 s : DistortedPowerCorrelation α σ}
    (h0 : construct E power distortion klo khi nk rmin rmax nr ellMax symmetric
      relerr abserr abspow = .ok s0)
    (hs : Reachable E s0 s) (hinit : s.initialized = true)
    (i : Nat) (hi : i < (1 + ellMax.tdiv (dell symmetric)).toNat) :
    ∃ (amt : AdaptiveMultipoleTransform α σ) (rbig mubig f : α),
      getTransform s ((i : Int) * dell symmetric) = .ok amt ∧
      getBiggestContribution s ((i : Int) * dell symmetric) = .ok (rbig, mubig, f) ∧
      0 ≤ f ∧
      amt.ell = (i : Int) * dell symmetric ∧
      amt.relerr
        = (if 0 < f then relerr / ((1 + ellMax.tdiv (dell symmetric) : Int) : α) / f
           else relerr / ((1 + ellMax.tdiv (dell symmetric) : Int) : α)) ∧
      amt.abserr = abserr / ((1 + ellMax.tdiv (dell symmetric) : Int) : α) := by
  obtain ⟨hI, -, -, he, hsym, hre, hab, -⟩ := reachable_invariant E (construct_invariant h0) hs
  obtain ⟨-, -, -, he0, hsym0, hre0, hab0, -⟩ := construct_ok h0
  have hE : s.ellMax = ellMax := he.trans he0
  have hS : s.symmetric = symmetric := hsym.trans hsym0
  have hR : s.relerr = relerr := hre.trans hre0
  have hA : s.abserr = abserr := hab.trans hab0
  have hi2 : i < (1 + s.ellMax.tdiv (dell s.symmetric)).toNat := by rw [hE, hS]; exact hi
  obtain ⟨amt, hamt, ht1, ht2, ht3⟩ := (hI.2 hinit).2 i hi2
  have hvalid : invalidEll s.ellMax s.symmetric ((i : Int) * dell s.symmetric) = false := by
    apply invalidEll_of_mem_ellLoop
    rw [ellLoop_zero s.symmetric hI.1.1]
    exact List.mem_map.mpr ⟨i, List.mem_range.mpr hi2, rfl⟩
  have hb1 : i < s.rbig.length := by rw [hI.1.5]; exact hi2
  have hb2 : i < s.mubig.length := by rw [hI.1.6]; exact hi2
  have hb3 : i < s.relbig.length := by rw [hI.1.7]; exact hi2
  have hrb : s.rbig[i]? = some s.rbig[i] := List.getElem?_eq_getElem hb1
  have hmb : s.mubig[i]? = some s.mubig[i] := List.getElem?_eq_getElem hb2
  have hlb : s.relbig[i]? = some s.relbig[i] := List.getElem?_eq_getElem hb3
  have hgd : s.relbig.getD i 0 = s.relbig[i] := by
    rw [List.getD_eq_getElem?_getD, hlb]
    rfl
  refine ⟨amt, s.rbig[i], s.mubig[i], s.relbig[i], ?_, ?_, ?_, ?_, ?_, ?_⟩
  · rw [← hS]
    simp only [getTransform, hvalid, tdiv_dell_mul, Int.toNat_ofNat, hamt, Bool.false_eq_true,
      if_false]
  · rw [← hS]
    simp only [getBiggestContribution, hinit, hvalid, tdiv_dell_mul, Int.toNat_ofNat, hrb, hmb,
      hlb, Bool.not_true, Bool.false_eq_true, if_false]
  · exact hI.1.8 _ (List.getElem_mem _)
  · rw [ht1, hS]
  · rw [ht2, hgd, hR, hE, hS]
  · rw [ht3, hA, hE, hS]

/-- C8 as stated fails: on the hand-made object, constructed and initialized normally (with 0 in
the storage of `xisum` at the start), the fraction recorded for order 0 is 3/2. It is found at the
first point `(r, mu) = (1, 1)` of the loop, where `xi_0 = 3`, `xi_2 = -1` and `xi_total = 2`; the
later points give smaller fractions. -/
theorem biggestContribution_above_one :
    construct exampleCollaborators (fun _ => 1) (fun _ mu => 7 / 2 - 3 / 2 * mu ^ 2)
      1 10 2 1 2 2 2 true (1 / 100) (1 / 1000) 0 = .ok exampleObject ∧
    (initializeObj exampleCollaborators exampleObject 2 1 1 (1 / 2) false 0).1 = .ok () ∧
    getBiggestContribution
      (initializeObj exampleCollaborators exampleObject 2 1 1 (1 / 2) false 0).2 0
        = .ok (1, 1, 3 / 2) ∧
    ¬ ((3 / 2 : ℚ) ≤ 1) := by
  refine ⟨exampleObject_constructed, ?_, ?_, by norm_num⟩
  · exact (initializeObj_outcome exampleCollaborators exampleObject 2 1 1 (1 / 2) false 0).2
      (by norm_num)
  · have h : (initializeObj exampleCollaborators exampleObject 2 1 1 (1 / 2) false 0).2
        = exampleFinal := exampleInitialized_eq
    rw [h]
    simp [getBiggestContribution, invalidEll, dell, exampleFinal, exampleSwept, exampleCoarse,
      exampleCached, exampleObject]

/-- C8, amended. After `initialize` has returned normally, for every active order
`getBiggestContribution` returns, and the relative fraction it reports is not negative. -/
theorem biggestContribution_nonneg [FloorRing α] (E : Collaborators α σ) (power : α → α)
    (distortion : α → α → α) (klo khi : α) (nk : Int) (rmin rmax : α) (nr : Int) (ellMax : Int)
    (symmetric : Bool) (relerr abserr abspow : α) (s0 s : DistortedPowerCorrelation α σ)
    (h0 : construct E power distortion klo khi nk rmin rmax nr ellMax symmetric
      relerr abserr abspow = .ok s0)
    (hs : Reachable E s0 s) (hinit : s.initialized = true)
    (ell : Int) (hell : 0 ≤ ell ∧ ell ≤ ellMax ∧ (symmetric = true → 2 ∣ ell)) :
    ∃ rbig mubig relbig : α,
      getBiggestContribution s ell = .ok (rbig, mubig, relbig) ∧ 0 ≤ relbig := by
  obtain ⟨i, hi, rfl⟩ := active_slot hell.1 hell.2.1 hell.2.2
  obtain ⟨-, rbig, mubig, f, -, hb, hf, -⟩ := diagnostics_reached h0 hs hinit i hi
  exact ⟨rbig, mubig, f, hb, hf⟩

/-- C8, amended, at the hand-made object and order 2. -/
theorem biggestContribution_nonneg_witness :
    ∃ rbig mubig relbig : ℚ,
      getBiggestContribution exampleInitialized 2 = .ok (rbig, mubig, relbig) ∧ 0 ≤ relbig :=
  biggestContribution_nonneg exampleCollaborators (fun _ => 1)
    (fun _ mu => 7 / 2 - 3 / 2 * mu ^ 2) 1 10 2 1 2 2 2 true (1 / 100) (1 / 1000) 0
    exampleObject exampleInitialized exampleObject_constructed exampleInitialized_reachable
    exampleInitialized_flag 2 ⟨by decide, by decide, fun _ => ⟨1, rfl⟩⟩

/-- C9 as stated fails: on the hand-made object (`relerr = 1/100`, two active orders), after
`initialize` (with 0 in the storage of `xisum` at the start) the transformer of order 2 has
relative tolerance `1/100`, which is looser than `relerr/N = 1/200`: its recorded fraction is
`|xi_2 / xi_total| = 1/2`, found at the first point of the loop. -/
theorem tolerance_looser_than_share :
    construct exampleCollaborators (fun _ => 1) (fun _ mu => 7 / 2 - 3 / 2 * mu ^ 2)
      1 10 2 1 2 2 2 true (1 / 100) (1 / 1000) 0 = .ok exampleObject ∧
    (initializeObj exampleCollaborators exampleObject 2 1 1 (1 / 2) false 0).1 = .ok () ∧
    (∃ amt,
      getTransform (initializeObj exampleCollaborators exampleObject 2 1 1 (1 / 2) false 0).2 2
        = .ok amt ∧
      amt.relerr = 1 / 100 ∧ ¬ (amt.relerr ≤ (1 / 100 : ℚ) / ((1 + (2 : Int).tdiv 2 : Int) : ℚ))) := by
  refine ⟨exampleObject_constructed, ?_, ?_⟩
  · exact (initializeObj_outcome exampleCollaborators exampleObject 2 1 1 (1 / 2) false 0).2
      (by norm_num)
  · have h : (initializeObj exampleCollaborators exampleObject 2 1 1 (1 / 2) false 0).2
        = exampleFinal := exampleInitialized_eq
    rw [h]
    refine ⟨AdaptiveMultipoleTransform.mk .SphericalBessel 2 1 [1, 2] (1 / 100) (1 / 2000) 0
      (some ()), ?_, rfl, ?_⟩
    · simp [getTransform, invalidEll, dell, exampleFinal, exampleSwept, exampleCoarse,
        exampleCached, exampleObject]
    · have hn : (1 + (2 : Int).tdiv 2 : Int) = 2 := by decide
      rw [hn]
      norm_num

/-- C9, amended. After `initialize` has returned normally (with `relerr > 0`), for every active
order the transformer's relative tolerance is `relerr/N/f` when the recorded fraction `f` of that
order is positive and `relerr/N` when it is 0, with `N = 1 + ellMax/dell`; so it is at most
`relerr/N` exactly when `f = 0` or `f >= 1`. -/
theorem tolerance_after_initialize [FloorRing α] (E : Collaborators α σ) (power : α → α)
    (distortion : α → α → α) (klo khi : α) (nk : Int) (rmin rmax : α) (nr : Int) (ellMax : Int)
    (symmetric : Bool) (relerr abserr abspow : α) (s0 s : DistortedPowerCorrelation α σ)
    (h0 : construct E power distortion klo khi nk rmin rmax nr ellMax symmetric
      relerr abserr abspow = .ok s0)
    (hs : Reachable E s0 s) (hinit : s.initialized = true) (hrel : 0 < relerr)
    (ell : Int) (hell : 0 ≤ ell ∧ ell ≤ ellMax ∧ (symmetric = true → 2 ∣ ell)) :
    ∃ (amt : AdaptiveMultipoleTransform α σ) (rbig mubig f : α),
      getTransform s ell = .ok amt ∧
      getBiggestContribution s ell = .ok (rbig, mubig, f) ∧
      amt.relerr
        = (if 0 < f then relerr / ((1 + ellMax.tdiv (dell symmetric) : Int) : α) / f
           else relerr / ((1 + ellMax.tdiv (dell symmetric) : Int) : α)) ∧
      (amt.relerr ≤ relerr / ((1 + ellMax.tdiv (dell symmetric) : Int) : α)
        ↔ (f = 0 ∨ 1 ≤ f)) := by
  obtain ⟨hc, -⟩ := construct_ok h0
  obtain ⟨i, hi, rfl⟩ := active_slot hell.1 hell.2.1 hell.2.2
  obtain ⟨amt, rbig, mubig, f, ht, hb, hf, -, hr, -⟩ := diagnostics_reached h0 hs hinit i hi
  refine ⟨amt, rbig, mubig, f, ht, hb, hr, ?_⟩
  have hN : (0 : α) < ((1 + ellMax.tdiv (dell symmetric) : Int) : α) := by
    have h1 : 0 ≤ ellMax.tdiv (dell symmetric) := by
      rw [Int.tdiv_eq_ediv hc.2.2.2.2.2.2 (dell_pos symmetric).le]
      exact Int.ediv_nonneg hc.2.2.2.2.2.2 (dell_pos symmetric).le
    have h2 : (0 : Int) < 1 + ellMax.tdiv (dell symmetric) := by omega
    exact_mod_cast h2
  have hshare : (0 : α) < relerr / ((1 + ellMax.tdiv (dell symmetric) : Int) : α) :=
    div_pos hrel hN
  rw [hr]
  by_cases hpos : 0 < f
  · rw [if_pos hpos, div_le_iff₀ hpos]
    constructor
    · intro h
      right
      by_contra hlt
      have hlt2 : f < 1 := not_le.mp hlt
      have : relerr / ((1 + ellMax.tdiv (dell symmetric) : Int) : α) * f
          < relerr / ((1 + ellMax.tdiv (dell symmetric) : Int) : α) * 1 :=
        mul_lt_mul_of_pos_left hlt2 hshare
      rw [mul_one] at this
      exact absurd h (not_le.mpr this)
    · rintro (h | h)
      · exact absurd hpos (by rw [h]; exact lt_irrefl _)
      · calc relerr / ((1 + ellMax.tdiv (dell symmetric) : Int) : α)
            = relerr / ((1 + ellMax.tdiv (dell symmetric) : Int) : α) * 1 := (mul_one _).symm
          _ ≤ relerr / ((1 + ellMax.tdiv (dell symmetric) : Int) : α) * f :=
            mul_le_mul_of_nonneg_left h hshare.le
  · rw [if_neg hpos]
    have hzero : f = 0 := le_antisymm (not_lt.mp hpos) hf
    exact ⟨fun _ => Or.inl hzero, fun _ => le_refl _⟩

/-- C9, amended, at the hand-made object and order 2. -/
theorem tolerance_after_initialize_witness :
    ∃ (amt : AdaptiveMultipoleTransform ℚ Unit) (rbig mubig f : ℚ),
      getTransform exampleInitialized 2 = .ok amt ∧
      getBiggestContribution exampleInitialized 2 = .ok (rbig, mubig, f) ∧
      amt.relerr
        = (if 0 < f then (1 / 100 : ℚ) / ((1 + (2 : Int).tdiv (dell true) : Int) : ℚ) / f
           else (1 / 100 : ℚ) / ((1 + (2 : Int).tdiv (dell true) : Int) : ℚ)) ∧
      (amt.relerr ≤ (1 / 100 : ℚ) / ((1 + (2 : Int).tdiv (dell true) : Int) : ℚ)
        ↔ (f = 0 ∨ 1 ≤ f)) :=
  tolerance_after_initialize exampleCollaborators (fun _ => 1)
    (fun _ mu => 7 / 2 - 3 / 2 * mu ^ 2) 1 10 2 1 2 2 2 true (1 / 100) (1 / 1000) 0
    exampleObject exampleInitialized exampleObject_constructed exampleInitialized_reachable
    exampleInitialized_flag (by norm_num) 2 ⟨by decide, by decide, fun _ => ⟨1, rfl⟩⟩

/-! ## transform -/

/-- The function objects built in the loops read nothing of the three per-multipole vectors. -/
theorem fOfK_blank (E : Collaborators α σ) (interpolate : Bool)
    {t pre : DistortedPowerCorrelation α σ} (hb : blankSlots t = blankSlots pre) (ell : Int) :
    (if interpolate = true then fun k => getSavedPowerMultipole E t k ell
      else fun k => getPowerMultipole E t k ell)
    = (if interpolate = true then fun k => getSavedPowerMultipole E pre k ell
      else fun k => getPowerMultipole E pre k ell) := by
  have h1 : ∀ k, getSavedPowerMultipole E t k ell = getSavedPowerMultipole E pre k ell := by
    intro k
    show getSavedPowerMultipole E (blankSlots t) k ell = getSavedPowerMultipole E (blankSlots pre) k ell
    rw [hb]
  have h2 : ∀ k, getPowerMultipole E t k ell = getPowerMultipole E pre k ell := by
    intro k
    show getPowerMultipole E (blankSlots t) k ell = getPowerMultipole E (blankSlots pre) k ell
    rw [hb]
  cases interpolate
  · simp only [Bool.false_eq_true, if_false]
    exact funext h2
  · simp only [if_true]
    exact funext h1

/-- One pass of the loop of `transform` at the `k`-th order, on a slot still as it was in `pre`:
the pass makes the call `transformCall ... pre k`, ands its flag into `accurate`, and stores its
results in slot `k`. -/
theorem transformStep_eq (E : Collaborators α σ) (interpolate bypass : Bool)
    (acc : Bool × DistortedPowerCorrelation α σ) (pre : DistortedPowerCorrelation α σ) (k : Nat)
    (hb : blankSlots acc.2 = blankSlots pre) (amt : AdaptiveMultipoleTransform α σ) (xi : List α)
    (h1 : acc.2.transformer[k]? = some amt) (h2 : acc.2.xiMoments[k]? = some xi)
    (h1p : pre.transformer[k]? = some amt) (h2p : pre.xiMoments[k]? = some xi) :
    ∃ out, transformCall E interpolate bypass pre k = some out ∧
      transformStep E interpolate bypass acc ((k : Int) * dell pre.symmetric)
        = (acc.1 && out.1,
            { acc.2 with
              transformer := acc.2.transformer.set k { amt with tuning := some out.2.1 }
              xiMoments := acc.2.xiMoments.set k out.2.2
              interpolator := acc.2.interpolator.set k
                (some { x := pre.rgrid, y := out.2.2, algorithm := "cspline" }) }) := by
  obtain ⟨-, -, -, hsym, -, -, -, -, -, -, hrg, -⟩ := blankSlots_fields hb
  refine ⟨E.amtTransform amt
    (if interpolate = true then
      fun x => getSavedPowerMultipole E pre x ((k : Int) * dell pre.symmetric)
    else fun x => getPowerMultipole E pre x ((k : Int) * dell pre.symmetric)) xi bypass, ?_, ?_⟩
  · simp only [transformCall, h1p, h2p]
  · simp only [transformStep, hsym, tdiv_dell_mul, Int.toNat_ofNat, h1, h2, hrg,
      fOfK_blank E interpolate hb]

/-- The loop of `transform`, started on `pre` with `accurate = true`: the flag it returns is the
conjunction of the flags of the calls, one per slot, and every slot holds the results of its own
call. -/
theorem transformLoop_spec (E : Collaborators α σ) (interpolate bypass : Bool)
    (pre : DistortedPowerCorrelation α σ) (h : Sized pre) :
    ((ellLoop pre.ellMax pre.symmetric 0).foldl (transformStep E interpolate bypass)
        (true, pre)).1
      = (List.range (1 + pre.ellMax.tdiv (dell pre.symmetric)).toNat).all
          (fun i => match transformCall E interpolate bypass pre i with
            | some out => out.1
            | none => true) ∧
    ∀ j, j < (1 + pre.ellMax.tdiv (dell pre.symmetric)).toNat →
      ∃ out amt, transformCall E interpolate bypass pre j = some out ∧
        pre.transformer[j]? = some amt ∧
        ((ellLoop pre.ellMax pre.symmetric 0).foldl (transformStep E interpolate bypass)
            (true, pre)).2.transformer[j]? = some { amt with tuning := some out.2.1 } ∧
        ((ellLoop pre.ellMax pre.symmetric 0).foldl (transformStep E interpolate bypass)
            (true, pre)).2.xiMoments[j]? = some out.2.2 ∧
        ((ellLoop pre.ellMax pre.symmetric 0).foldl (transformStep E interpolate bypass)
            (true, pre)).2.interpolator[j]?
          = some (some { x := pre.rgrid, y := out.2.2, algorithm := "cspline" }) := by
  have hprog := foldl_range_progress
    (fun k (acc : Bool × DistortedPowerCorrelation α σ) =>
      blankSlots acc.2 = blankSlots pre ∧
      acc.2.transformer.length = pre.transformer.length ∧
      acc.2.xiMoments.length = pre.xiMoments.length ∧
      acc.2.interpolator.length = pre.interpolator.length ∧
      acc.1 = (List.range k).all
          (fun i => match transformCall E interpolate bypass pre i with
            | some out => out.1
            | none => true) ∧
      (∀ j, j < k →
        ∃ out amt, transformCall E interpolate bypass pre j = some out ∧
          pre.transformer[j]? = some amt ∧
          acc.2.transformer[j]? = some { amt with tuning := some out.2.1 } ∧
          acc.2.xiMoments[j]? = some out.2.2 ∧
          acc.2.interpolator[j]?
            = some (some { x := pre.rgrid, y := out.2.2, algorithm := "cspline" })) ∧
      (∀ j, k ≤ j → acc.2.transformer[j]? = pre.transformer[j]? ∧
        acc.2.xiMoments[j]? = pre.xiMoments[j]?))
    (fun acc (i : Nat) =>
      transformStep E interpolate bypass acc ((i : Int) * dell pre.symmetric))
    (1 + pre.ellMax.tdiv (dell pre.symmetric)).toNat
    (by
      intro k acc hk ⟨hb, l1, l2, l3, hflag, hdone, htodo⟩
      have hk1 : k < pre.transformer.length := by rw [h.2]; exact hk
      have hk2 : k < pre.xiMoments.length := by rw [h.3]; exact hk
      have hk3 : k < acc.2.interpolator.length := by rw [l3, h.4]; exact hk
      have h1p : pre.transformer[k]? = some pre.transformer[k] := List.getElem?_eq_getElem hk1
      have h2p : pre.xiMoments[k]? = some pre.xiMoments[k] := List.getElem?_eq_getElem hk2
      obtain ⟨out, hcall, hstep⟩ := transformStep_eq E interpolate bypass acc pre k hb
        pre.transformer[k] pre.xiMoments[k] ((htodo k (le_refl k)).1.trans h1p)
        ((htodo k (le_refl k)).2.trans h2p) h1p h2p
      simp only [hstep]
      refine ⟨hb, by simpa using l1, by simpa using l2, by simpa using l3, ?_, ?_, ?_⟩
      · rw [List.range_succ, List.all_append, hflag]
        simp only [List.all_cons, List.all_nil, Bool.and_true, hcall]
      · intro j hj
        by_cases hjk : j = k
        · subst hjk
          exact ⟨out, pre.transformer[j], hcall, h1p,
            List.getElem?_set_self (by rw [l1]; exact hk1),
            List.getElem?_set_self (by rw [l2]; exact hk2),
            List.getElem?_set_self hk3⟩
        · obtain ⟨o, a, c1, c2, c3, c4, c5⟩ := hdone j (by omega)
          exact ⟨o, a, c1, c2, by rw [List.getElem?_set_ne (Ne.symm hjk)]; exact c3,
            by rw [List.getElem?_set_ne (Ne.symm hjk)]; exact c4,
            by rw [List.getElem?_set_ne (Ne.symm hjk)]; exact c5⟩
      · intro j hj
        have hjk : k ≠ j := by omega
        obtain ⟨c1, c2⟩ := htodo j (by omega)
        exact ⟨by rw [List.getElem?_set_ne hjk]; exact c1,
          by rw [List.getElem?_set_ne hjk]; exact c2⟩)
    (true, pre)
    ⟨rfl, rfl, rfl, rfl, by simp, fun j hj => absurd hj (Nat.not_lt_zero j),
      fun j _ => ⟨rfl, rfl⟩⟩
  rw [ellLoop_foldl _ _ pre.symmetric h.1]
  exact ⟨hprog.2.2.2.2.1, hprog.2.2.2.2.2.1⟩

/-- The method `transform` is its multipole loop, run on the object as the optional cache refresh
leaves it; the refresh touches neither the transformers, nor the samples, nor the r grid. -/
theorem transform_eq_loop (E : Collaborators α σ) (s : DistortedPowerCorrelation α σ)
    (interpolate bypass : Bool) (h : Sized s) :
    Sized (if interpolate = true then (initPowerMultipoles E s).2 else s) ∧
    blankSlots (if interpolate = true then (initPowerMultipoles E s).2 else s)
      = blankSlots { s with
          savedPowerMultipole :=
            (if interpolate = true then (initPowerMultipoles E s).2 else s).savedPowerMultipole } ∧
    (if interpolate = true then (initPowerMultipoles E s).2 else s).transformer = s.transformer ∧
    (if interpolate = true then (initPowerMultipoles E s).2 else s).xiMoments = s.xiMoments ∧
    transform E s interpolate bypass
      = (.ok ((ellLoop (if interpolate = true then (initPowerMultipoles E s).2 else s).ellMax
              (if interpolate = true then (initPowerMultipoles E s).2 else s).symmetric 0).foldl
            (transformStep E interpolate bypass)
            (true, if interpolate = true then (initPowerMultipoles E s).2 else s)).1,
          ((ellLoop (if interpolate = true then (initPowerMultipoles E s).2 else s).ellMax
              (if interpolate = true then (initPowerMultipoles E s).2 else s).symmetric 0).foldl
            (transformStep E interpolate bypass)
            (true, if interpolate = true then (initPowerMultipoles E s).2 else s)).2) := by
  cases interpolate with
  | false =>
    simp only [Bool.false_eq_true, if_false]
    exact ⟨h, trivial, trivial, trivial, rfl⟩
  | true =>
    obtain ⟨saved, -, hp⟩ := initPowerMultipoles_frame E s
    simp only [if_true, hp, transform]
    refine ⟨⟨h.1, h.2, h.3, h.4, h.5, h.6, h.7, h.8⟩, ?_⟩
    simp

/-- C10. `transform` returns true exactly when the call made on every active multipole's
transformer (with the same `bypassTerminationTest`) returned true; every active slot is called
once, on the transformer and samples it held before, whatever the earlier calls returned; its
transformer keeps the call's state, its samples are the call's output, and its interpolator is a
cubic spline through the r grid and those samples. -/
theorem transform_spec [FloorRing α] (E : Collaborators α σ) (power : α → α)
    (distortion : α → α → α) (klo khi : α) (nk : Int) (rmin rmax : α) (nr : Int) (ellMax : Int)
    (symmetric : Bool) (relerr abserr abspow : α) (s0 s pre : DistortedPowerCorrelation α σ)
    (h0 : construct E power distortion klo khi nk rmin rmax nr ellMax symmetric
      relerr abserr abspow = .ok s0)
    (hs : Reachable E s0 s) (interpolate bypass : Bool)
    (hpre : pre = if interpolate = true then (initPowerMultipoles E s).2 else s) :
    (pre.transformer = s.transformer ∧ pre.xiMoments = s.xiMoments) ∧
    (∃ accurate, (transform E s interpolate bypass).1 = .ok accurate ∧
      (accurate = true ↔
        ∀ i, i < (1 + ellMax.tdiv (dell symmetric)).toNat →
          ∀ out, transformCall E interpolate bypass pre i = some out → out.1 = true)) ∧
    (∀ i, i < (1 + ellMax.tdiv (dell symmetric)).toNat →
      ∃ out amt, transformCall E interpolate bypass pre i = some out ∧
        s.transformer[i]? = some amt ∧
        (transform E s interpolate bypass).2.transformer[i]?
          = some { amt with tuning := some out.2.1 } ∧
        (transform E s interpolate bypass).2.xiMoments[i]? = some out.2.2 ∧
        (transform E s interpolate bypass).2.interpolator[i]?
          = some (some { x := s.rgrid, y := out.2.2, algorithm := "cspline" })) := by
  obtain ⟨hI, -, -, he, hsym, -⟩ := reachable_invariant E (construct_invariant h0) hs
  obtain ⟨-, -, -, he0, hsym0, -⟩ := construct_ok h0
  obtain ⟨hsz, hbl, htr, hxi, hT⟩ := transform_eq_loop E s interpolate bypass hI.1
  rw [← hpre] at hsz hbl htr hxi hT
  obtain ⟨-, -, hbe, hbs, -, -, -, -, -, -, hbr, -⟩ := blankSlots_fields hbl
  have hE : pre.ellMax = ellMax := hbe.trans (he.trans he0)
  have hS : pre.symmetric = symmetric := hbs.trans (hsym.trans hsym0)
  have hR : pre.rgrid = s.rgrid := hbr
  obtain ⟨hflag, hslots⟩ := transformLoop_spec E interpolate bypass pre hsz
  rw [hE, hS] at hflag hslots
  rw [hE, hS] at hT
  refine ⟨⟨htr, hxi⟩, ⟨_, by rw [hT], ?_⟩, ?_⟩
  · rw [hflag, List.all_eq_true]
    constructor
    · intro h i hi out hout
      have := h i (List.mem_range.mpr hi)
      rw [hout] at this
      exact this
    · intro h i hi
      obtain ⟨out, -, hout, -⟩ := hslots i (List.mem_range.mp hi)
      rw [hout]
      exact h i (List.mem_range.mp hi) out hout
  · intro i hi
    obtain ⟨out, amt, c1, c2, c3, c4, c5⟩ := hslots i hi
    rw [htr] at c2
    rw [hR] at c5
    rw [hT]
    exact ⟨out, amt, c1, c2, c3, c4, c5⟩

/-- C10 at the hand-made object, without cache refresh and with the termination test bypassed. -/
theorem transform_spec_witness :
    (exampleObject.transformer = exampleObject.transformer ∧
      exampleObject.xiMoments = exampleObject.xiMoments) ∧
    (∃ accurate, (transform exampleCollaborators exampleObject false true).1 = .ok accurate ∧
      (accurate = true ↔
        ∀ i, i < (1 + (2 : Int).tdiv (dell true)).toNat →
          ∀ out, transformCall exampleCollaborators false true exampleObject i = some out →
            out.1 = true)) ∧
    (∀ i, i < (1 + (2 : Int).tdiv (dell true)).toNat →
      ∃ out amt, transformCall exampleCollaborators false true exampleObject i = some out ∧
        exampleObject.transformer[i]? = some amt ∧
        (transform exampleCollaborators exampleObject false true).2.transformer[i]?
          = some { amt with tuning := some out.2.1 } ∧
        (transform exampleCollaborators exampleObject false true).2.xiMoments[i]?
          = some out.2.2 ∧
        (transform exampleCollaborators exampleObject false true).2.interpolator[i]?
          = some (some { x := exampleObject.rgrid, y := out.2.2, algorithm := "cspline" })) :=
  transform_spec exampleCollaborators (fun _ => 1)
    (fun _ mu => 7 / 2 - 3 / 2 * mu ^ 2) 1 10 2 1 2 2 2 true (1 / 100) (1 / 1000) 0
    exampleObject exampleObject exampleObject exampleObject_constructed Reachable.start
    false true rfl

/-! ## The r grid -/

omit [LinearOrderedField α] in
/-- The orders the multipole loop visits are the orders in `[0, ellMax]`, even under
`symmetric`. -/
theorem mem_ellLoop_iff {ellMax : Int} (symmetric : Bool) (ell : Int) :
    ell ∈ ellLoop ellMax symmetric 0
      ↔ 0 ≤ ell ∧ ell ≤ ellMax ∧ (symmetric = true → 2 ∣ ell) := by
  constructor
  · intro h
    by_cases hm : 0 ≤ ellMax
    · have hv := invalidEll_of_mem_ellLoop h
      rw [ellLoop_zero symmetric hm] at h
      obtain ⟨i, -, rfl⟩ := List.mem_map.mp h
      simp only [invalidEll, Bool.or_eq_false_iff, decide_eq_false_iff_not, not_lt] at hv
      refine ⟨hv.1.1, by omega, ?_⟩
      intro hs
      subst hs
      exact ⟨i, by simp [dell, mul_comm]⟩
    · rw [ellLoop_nil symmetric (by omega)] at h
      simp at h
  · rintro ⟨h0, h1, h2⟩
    obtain ⟨i, hi, rfl⟩ := active_slot h0 h1 h2
    rw [ellLoop_zero symmetric (le_trans h0 h1)]
    exact List.mem_map.mpr ⟨i, List.mem_range.mpr hi, rfl⟩

/-- C14. For every accepted construction and every active order the two index formulas `ell/dell`
and `symmetric ? ell/2 : ell` agree and give an index in `[0, N)`, `N = 1 + ellMax/dell`; the
orders of the multipole loop are the active orders, and their indices are `0, 1, ..., N-1` in this
order, each once; and the per-multipole vectors have `N` entries. -/
theorem slot_index_bijection [FloorRing α] (E : Collaborators α σ) (power : α → α)
    (distortion : α → α → α) (klo khi : α) (nk : Int) (rmin rmax : α) (nr : Int) (ellMax : Int)
    (symmetric : Bool) (relerr abserr abspow : α) (s0 : DistortedPowerCorrelation α σ)
    (h0 : construct E power distortion klo khi nk rmin rmax nr ellMax symmetric
      relerr abserr abspow = .ok s0) :
    (∀ ell : Int, 0 ≤ ell → ell ≤ ellMax → (symmetric = true → 2 ∣ ell) →
      ell.tdiv (dell symmetric) = slotIndex symmetric ell ∧
      0 ≤ slotIndex symmetric ell ∧
      slotIndex symmetric ell < 1 + ellMax.tdiv (dell symmetric)) ∧
    (∀ ell : Int, ell ∈ ellLoop ellMax symmetric 0
      ↔ 0 ≤ ell ∧ ell ≤ ellMax ∧ (symmetric = true → 2 ∣ ell)) ∧
    (ellLoop ellMax symmetric 0).map (slotIndex symmetric)
      = (List.range (1 + ellMax.tdiv (dell symmetric)).toNat).map (fun (i : Nat) => (i : Int)) ∧
    (∀ ell ell2 : Int, ell ∈ ellLoop ellMax symmetric 0 → ell2 ∈ ellLoop ellMax symmetric 0 →
      slotIndex symmetric ell = slotIndex symmetric ell2 → ell = ell2) ∧
    (∀ i : Int, 0 ≤ i → i < 1 + ellMax.tdiv (dell symmetric) →
      ∃ ell, ell ∈ ellLoop ellMax symmetric 0 ∧ slotIndex symmetric ell = i) ∧
    ((s0.transformer.length : Int) = 1 + ellMax.tdiv (dell symmetric) ∧
      (s0.xiMoments.length : Int) = 1 + ellMax.tdiv (dell symmetric) ∧
      (s0.interpolator.length : Int) = 1 + ellMax.tdiv (dell symmetric) ∧
      (s0.savedPowerMultipole.length : Int) = 1 + ellMax.tdiv (dell symmetric) ∧
      (s0.rbig.length : Int) = 1 + ellMax.tdiv (dell symmetric) ∧
      (s0.mubig.length : Int) = 1 + ellMax.tdiv (dell symmetric) ∧
      (s0.relbig.length : Int) = 1 + ellMax.tdiv (dell symmetric)) := by
  obtain ⟨⟨-, -, -, -, -, -, hm⟩, -, -, he, hs, -, -, -, -, -, -, -, -, hsv, -⟩ := construct_ok h0
  obtain ⟨-, l1, l2, l3, l4, l5, l6, -⟩ := (construct_invariant h0).1
  rw [he, hs] at l1 l2 l3 l4 l5 l6
  have hN : 0 ≤ 1 + ellMax.tdiv (dell symmetric) := by
    have := nell_toNat symmetric hm
    omega
  have hcast : (((1 + ellMax.tdiv (dell symmetric)).toNat : Nat) : Int)
      = 1 + ellMax.tdiv (dell symmetric) := Int.toNat_of_nonneg hN
  have hloop := ellLoop_zero symmetric hm
  refine ⟨?_, fun ell => mem_ellLoop_iff symmetric ell, ?_, ?_, ?_, ?_⟩
  · intro ell h1 h2 h3
    obtain ⟨i, hi, rfl⟩ := active_slot h1 h2 h3
    rw [tdiv_dell_mul, slotIndex_mul]
    exact ⟨rfl, Int.natCast_nonneg i, by omega⟩
  · rw [hloop, List.map_map]
    apply List.map_congr_left
    intro i _
    simp only [Function.comp, slotIndex_mul]
  · intro ell ell2 h1 h2 heq
    rw [hloop] at h1 h2
    obtain ⟨i, -, rfl⟩ := List.mem_map.mp h1
    obtain ⟨j, -, rfl⟩ := List.mem_map.mp h2
    rw [slotIndex_mul, slotIndex_mul] at heq
    rw [heq]
  · intro i hi0 hi1
    refine ⟨(i.toNat : Int) * dell symmetric, ?_, ?_⟩
    · rw [hloop]
      exact List.mem_map.mpr ⟨i.toNat, List.mem_range.mpr (by omega), rfl⟩
    · rw [slotIndex_mul]
      omega
  · refine ⟨?_, ?_, ?_, ?_, ?_, ?_, ?_⟩
    · rw [l1, hcast]
    · rw [l2, hcast]
    · rw [l3, hcast]
    · rw [hsv, List.length_map, ellLoop_length symmetric hm, hcast]
    · rw [l4, hcast]
    · rw [l5, hcast]
    · rw [l6, hcast]

/-- C14 at the hand-made object. -/
theorem slot_index_bijection_witness :
    (∀ ell : Int, 0 ≤ ell → ell ≤ 2 → (true = true → 2 ∣ ell) →
      ell.tdiv (dell true) = slotIndex true ell ∧
      0 ≤ slotIndex true ell ∧ slotIndex true ell < 1 + (2 : Int).tdiv (dell true)) ∧
    (∀ ell : Int, ell ∈ ellLoop 2 true 0 ↔ 0 ≤ ell ∧ ell ≤ 2 ∧ (true = true → 2 ∣ ell)) ∧
    (ellLoop 2 true 0).map (slotIndex true)
      = (List.range (1 + (2 : Int).tdiv (dell true)).toNat).map (fun (i : Nat) => (i : Int)) ∧
    (∀ ell ell2 : Int, ell ∈ ellLoop 2 true 0 → ell2 ∈ ellLoop 2 true 0 →
      slotIndex true ell = slotIndex true ell2 → ell = ell2) ∧
    (∀ i : Int, 0 ≤ i → i < 1 + (2 : Int).tdiv (dell true) →
      ∃ ell, ell ∈ ellLoop 2 true 0 ∧ slotIndex true ell = i) ∧
    ((exampleObject.transformer.length : Int) = 1 + (2 : Int).tdiv (dell true) ∧
      (exampleObject.xiMoments.length : Int) = 1 + (2 : Int).tdiv (dell true) ∧
      (exampleObject.interpolator.length : Int) = 1 + (2 : Int).tdiv (dell true) ∧
      (exampleObject.savedPowerMultipole.length : Int) = 1 + (2 : Int).tdiv (dell true) ∧
      (exampleObject.rbig.length : Int) = 1 + (2 : Int).tdiv (dell true) ∧
      (exampleObject.mubig.length : Int) = 1 + (2 : Int).tdiv (dell true) ∧
      (exampleObject.relbig.length : Int) = 1 + (2 : Int).tdiv (dell true)) :=
  slot_index_bijection exampleCollaborators (fun _ => 1)
    (fun _ mu => 7 / 2 - 3 / 2 * mu ^ 2) 1 10 2 1 2 2 2 true (1 / 100) (1 / 1000) 0
    exampleObject exampleObject_constructed

/-! ## The mu samples of the (r,mu) loop -/

/-- C18. For `nmu >= 2` the samples `mu_i = 1 - i*dmu`, `dmu = 2/dell/(nmu-1)`, which are the
values of `mu` the (r,mu) loop passes on, start at 1, end at `1 - 2/dell` (that is -1 when not
symmetric and 0 when symmetric), are strictly decreasing and evenly spaced, and lie in
`[-1, 1]`. -/
theorem sweepMu_spec (symmetric : Bool) (nmu : Int) (h : 2 ≤ nmu) :
    (∀ (E : Collaborators α σ) (s : DistortedPowerCorrelation α σ) (w : Sweep α),
      sweep E s nmu w
        = s.rgrid.foldl
            (fun w r => (List.range nmu.toNat).foldl
              (fun w (i : Nat) =>
                sweepPoint E s (1 + s.ellMax.tdiv (dell s.symmetric)) r
                  (sweepMu s.symmetric nmu i) w) w) w) ∧
    (sweepMu symmetric nmu 0 : α) = 1 ∧
    (sweepMu symmetric nmu (nmu.toNat - 1) : α) = 1 - 2 / (dell symmetric : α) ∧
    (symmetric = false → (sweepMu symmetric nmu (nmu.toNat - 1) : α) = -1) ∧
    (symmetric = true → (sweepMu symmetric nmu (nmu.toNat - 1) : α) = 0) ∧
    (∀ i j : Nat, i < j → (sweepMu symmetric nmu j : α) < sweepMu symmetric nmu i) ∧
    (∀ i : Nat, (sweepMu symmetric nmu i : α) - sweepMu symmetric nmu (i + 1)
      = 2 / (dell symmetric : α) / ((nmu : α) - 1)) ∧
    (∀ i : Nat, i < nmu.toNat →
      (-1 : α) ≤ sweepMu symmetric nmu i ∧ (sweepMu symmetric nmu i : α) ≤ 1) := by
  have hn : (0 : α) < (nmu : α) - 1 := by
    have h2 : (2 : α) ≤ (nmu : α) := by exact_mod_cast h
    linarith
  have hd : (0 : α) < (dell symmetric : α) := by exact_mod_cast dell_pos symmetric
  have hdmu : (0 : α) < 2 / (dell symmetric : α) / ((nmu : α) - 1) :=
    div_pos (div_pos two_pos hd) hn
  have hcast : ((nmu.toNat - 1 : Nat) : α) = (nmu : α) - 1 := by
    have h1 : 1 ≤ nmu.toNat := by omega
    rw [Nat.cast_sub h1, Nat.cast_one]
    congr 1
    have h2 : ((nmu.toNat : Int) : α) = (nmu : α) := by rw [Int.toNat_of_nonneg (by omega)]
    rw [← h2, Int.cast_natCast]
  have hlast : (sweepMu symmetric nmu (nmu.toNat - 1) : α) = 1 - 2 / (dell symmetric : α) := by
    unfold sweepMu
    rw [hcast, mul_div_cancel₀ _ hn.ne']
  have hdle : (2 : α) / (dell symmetric : α) ≤ 2 := by
    cases symmetric <;> simp [dell]
  refine ⟨fun _ _ _ => rfl, ?_, hlast, ?_, ?_, ?_, ?_, ?_⟩
  · simp [sweepMu]
  · intro hs
    rw [hlast, hs]
    simp [dell]
    norm_num
  · intro hs
    rw [hlast, hs]
    simp [dell]
  · intro i j hij
    unfold sweepMu
    have hc : (i : α) < (j : α) := by exact_mod_cast hij
    have := mul_lt_mul_of_pos_right hc hdmu
    linarith
  · intro i
    unfold sweepMu
    push_cast
    ring
  · intro i hi
    have hi2 : (i : α) ≤ (nmu : α) - 1 := by
      rw [← hcast]
      have : i ≤ nmu.toNat - 1 := by omega
      exact_mod_cast this
    have h0i : (0 : α) ≤ (i : α) := Nat.cast_nonneg i
    have hprod : (i : α) * (2 / (dell symmetric : α) / ((nmu : α) - 1))
        ≤ 2 / (dell symmetric : α) := by
      calc (i : α) * (2 / (dell symmetric : α) / ((nmu : α) - 1))
          ≤ ((nmu : α) - 1) * (2 / (dell symmetric : α) / ((nmu : α) - 1)) :=
            mul_le_mul_of_nonneg_right hi2 hdmu.le
        _ = 2 / (dell symmetric : α) := mul_div_cancel₀ _ hn.ne'
    have hnn := mul_nonneg h0i hdmu.le
    unfold sweepMu
    constructor <;> linarith

/-- C18 for `nmu = 5` under `symmetric`, over the rationals. -/
theorem sweepMu_spec_witness :
    (∀ (E : Collaborators ℚ Unit) (s : DistortedPowerCorrelation ℚ Unit) (w : Sweep ℚ),
      sweep E s 5 w
        = s.rgrid.foldl
            (fun w r => (List.range (5 : Int).toNat).foldl
              (fun w (i : Nat) =>
                sweepPoint E s (1 + s.ellMax.tdiv (dell s.symmetric)) r
                  (sweepMu s.symmetric 5 i) w) w) w) ∧
    (sweepMu true 5 0 : ℚ) = 1 ∧
    (sweepMu true 5 ((5 : Int).toNat - 1) : ℚ) = 1 - 2 / (dell true : ℚ) ∧
    (true = false → (sweepMu true 5 ((5 : Int).toNat - 1) : ℚ) = -1) ∧
    (true = true → (sweepMu true 5 ((5 : Int).toNat - 1) : ℚ) = 0) ∧
    (∀ i j : Nat, i < j → (sweepMu true 5 j : ℚ) < sweepMu true 5 i) ∧
    (∀ i : Nat, (sweepMu true 5 i : ℚ) - sweepMu true 5 (i + 1)
      = 2 / (dell true : ℚ) / (((5 : Int) : ℚ) - 1)) ∧
    (∀ i : Nat, i < (5 : Int).toNat →
      (-1 : ℚ) ≤ sweepMu true 5 i ∧ (sweepMu true 5 i : ℚ) ≤ 1) :=
  sweepMu_spec true 5 (by decide)

/-! ## FftGaussianRandomFieldGenerator: buffer indices -/

omit [LinearOrderedField α] in
/-- The mathematical value of the index expression at a point of the half space lies in
`[0, nx*ny*halfz)`. -/
theorem flattenValue_bounds (g : FftGaussianRandomFieldGenerator α) (kx ky kz : Int)
    (hx : 0 ≤ kx ∧ kx < g.nx) (hy : 0 ≤ ky ∧ ky < g.ny) (hz : 0 ≤ kz ∧ kz < g.halfz) :
    0 ≤ kz + g.halfz * (ky + g.ny * kx) ∧
    kz + g.halfz * (ky + g.ny * kx) < g.nx * g.ny * g.halfz := by
  have hh : 0 < g.halfz := lt_of_le_of_lt hz.1 hz.2
  have hny : 0 < g.ny := lt_of_le_of_lt hy.1 hy.2
  have h1 : 0 ≤ g.ny * kx := mul_nonneg hny.le hx.1
  have h2 : g.ny * kx ≤ g.ny * (g.nx - 1) := mul_le_mul_of_nonneg_left (by omega) hny.le
  have h3 : 0 ≤ g.halfz * (ky + g.ny * kx) := mul_nonneg hh.le (by omega)
  have h4 : g.halfz * (ky + g.ny * kx) ≤ g.halfz * (g.ny * g.nx - 1) :=
    mul_le_mul_of_nonneg_left (by linarith [mul_sub g.ny g.nx 1]) hh.le
  constructor
  · omega
  · have h5 : g.halfz * (g.ny * g.nx - 1) = g.nx * g.ny * g.halfz - g.halfz := by ring
    omega

/-- An `int` expression whose mathematical value is in `[0, 2^31)` has that value. -/
theorem wrapInt_of_range (x : Int) (h0 : 0 ≤ x) (h1 : x < 2147483648) : wrapInt x = x := by
  unfold wrapInt
  omega

omit [LinearOrderedField α] in
/-- When the largest index of the buffer fits in an `int`, `flattenIndex` returns the
mathematical value of its expression at every point of the half space. -/
theorem flattenIndex_exact (g : FftGaussianRandomFieldGenerator α)
    (hfit : g.nx * g.ny * g.halfz ≤ 2147483648) (kx ky kz : Int)
    (hx : 0 ≤ kx ∧ kx < g.nx) (hy : 0 ≤ ky ∧ ky < g.ny) (hz : 0 ≤ kz ∧ kz < g.halfz) :
    flattenIndex g kx ky kz = kz + g.halfz * (ky + g.ny * kx) := by
  obtain ⟨h0, h1⟩ := flattenValue_bounds g kx ky kz hx hy hz
  exact wrapInt_of_range _ h0 (by omega)

omit [LinearOrderedField α] in
/-- When the largest index of the buffer fits in an `int`, a point of the half space has an index
inside the buffer. -/
theorem flattenIndex_bounds (g : FftGaussianRandomFieldGenerator α)
    (hfit : g.nx * g.ny * g.halfz ≤ 2147483648) (kx ky kz : Int)
    (hx : 0 ≤ kx ∧ kx < g.nx) (hy : 0 ≤ ky ∧ ky < g.ny) (hz : 0 ≤ kz ∧ kz < g.halfz) :
    0 ≤ flattenIndex g kx ky kz ∧ flattenIndex g kx ky kz < g.nx * g.ny * g.halfz := by
  rw [flattenIndex_exact g hfit kx ky kz hx hy hz]
  exact flattenValue_bounds g kx ky kz hx hy hz

omit [LinearOrderedField α] in
/-- When the largest index of the buffer fits in an `int`, `flattenIndex` is injective on the
half space. -/
theorem flattenIndex_injective (g : FftGaussianRandomFieldGenerator α)
    (hfit : g.nx * g.ny * g.halfz ≤ 2147483648)
    (kx ky kz kx2 ky2 kz2 : Int)
    (hx : 0 ≤ kx ∧ kx < g.nx) (hy : 0 ≤ ky ∧ ky < g.ny) (hz : 0 ≤ kz ∧ kz < g.halfz)
    (hx2 : 0 ≤ kx2 ∧ kx2 < g.nx) (hy2 : 0 ≤ ky2 ∧ ky2 < g.ny) (hz2 : 0 ≤ kz2 ∧ kz2 < g.halfz)
    (h : flattenIndex g kx ky kz = flattenIndex g kx2 ky2 kz2) :
    kx = kx2 ∧ ky = ky2 ∧ kz = kz2 := by
  rw [flattenIndex_exact g hfit kx ky kz hx hy hz,
    flattenIndex_exact g hfit kx2 ky2 kz2 hx2 hy2 hz2] at h
  have hh : 0 < g.halfz := lt_of_le_of_lt hz.1 hz.2
  have hny : 0 < g.ny := lt_of_le_of_lt hy.1 hy.2
  have split : ∀ (n a b q p : Int), 0 < n → 0 ≤ a → a < n → 0 ≤ b → b < n →
      a + n * q = b + n * p → a = b ∧ q = p := by
    intro n a b q p hn ha1 ha2 hb1 hb2 he
    have hm := congrArg (· % n) he
    simp only [Int.add_mul_emod_self_left] at hm
    rw [Int.emod_eq_of_lt ha1 ha2, Int.emod_eq_of_lt hb1 hb2] at hm
    refine ⟨hm, ?_⟩
    rw [hm] at he
    exact Int.eq_of_mul_eq_mul_left hn.ne' (by omega)
  obtain ⟨hkz, hrest⟩ := split g.halfz kz kz2 _ _ hh hz.1 hz.2 hz2.1 hz2.2 h
  obtain ⟨hky, hkx⟩ := split g.ny ky ky2 kx kx2 hny hy.1 hy.2 hy2.1 hy2.2 hrest
  exact ⟨hkx, hky, hkz⟩

omit [LinearOrderedField α] in
/-- Reading the real or the imaginary part at a point of the half space returns a value. -/
theorem data_read_ok (g : FftGaussianRandomFieldGenerator α) (hg : g.Generated)
    (hfit : g.nx * g.ny * g.halfz ≤ 2147483648) (kx ky kz : Int)
    (hx : 0 ≤ kx ∧ kx < g.nx) (hy : 0 ≤ ky ∧ ky < g.ny) (hz : 0 ≤ kz ∧ kz < g.halfz) :
    (∃ v, dataRe g (flattenIndex g kx ky kz) = .ok v) ∧
    (∃ v, dataIm g (flattenIndex g kx ky kz) = .ok v) := by
  obtain ⟨h0, h1⟩ := flattenIndex_bounds g hfit kx ky kz hx hy hz
  have hlt : (flattenIndex g kx ky kz).toNat < g.data.length := by
    have := hg.2
    omega
  have hget : g.data[(flattenIndex g kx ky kz).toNat]?
      = some g.data[(flattenIndex g kx ky kz).toNat] := List.getElem?_eq_getElem hlt
  constructor
  · exact ⟨g.data[(flattenIndex g kx ky kz).toNat].1,
      by simp only [dataRe, not_lt.mpr h0, if_false, hget]⟩
  · exact ⟨g.data[(flattenIndex g kx ky kz).toNat].2,
      by simp only [dataIm, not_lt.mpr h0, if_false, hget]⟩

omit [LinearOrderedField α] in
theorem ofReads_ok (f : α → α → α) {a b : Except Failure α}
    (ha : ∃ x, a = .ok x) (hb : ∃ y, b = .ok y) : ∃ v, ofReads f a b = .ok v := by
  obtain ⟨x, rfl⟩ := ha
  obtain ⟨y, rfl⟩ := hb
  exact ⟨f x y, rfl⟩

/-- Every read `getFieldKRe` makes is inside the buffer: the call returns a value. -/
theorem getFieldKRe_ok (g : FftGaussianRandomFieldGenerator α) (hg : g.Generated)
    (hfit : g.nx * g.ny * g.halfz ≤ 2147483648) (kx ky kz : Int)
    (hx : 0 ≤ kx ∧ kx < g.nx) (hy : 0 ≤ ky ∧ ky < g.ny) (hz : 0 ≤ kz ∧ kz < g.nz) :
    ∃ v, getFieldKRe g kx ky kz = .ok v := by
  have hh : g.halfz = g.nz / 2 + 1 := by
    rw [hg.1, Int.tdiv_eq_ediv (by omega) (by decide)]
  have rd := fun a b c ha hb hc => (data_read_ok g hg hfit a b c ha hb hc).1
  unfold getFieldKRe
  rw [if_neg (by omega), if_neg (by omega), if_neg (by omega)]
  by_cases hA : 2 * kz = g.nz ∧ ky = 0 ∧ kx = 0
  · rw [if_pos hA]
    exact rd kx ky kz hx hy (by omega)
  · rw [if_neg hA]
    by_cases hP : kz = 0 ∨ 2 * kz = g.nz
    · by_cases h1 : ky ≠ 0 ∧ kx = 0
      · simp only [hP, h1, if_true, ne_eq, not_false_eq_true, and_self]
        exact ofReads_ok _ (rd _ _ _ (by omega) hy (by omega))
          (rd _ _ _ (by omega) (by omega) (by omega))
      · by_cases h2 : ky = 0 ∧ kx ≠ 0
        · simp only [hP, h1, h2, if_true, if_false, ne_eq, not_false_eq_true, and_self]
          exact ofReads_ok _ (rd _ _ _ hx (by omega) (by omega))
            (rd _ _ _ (by omega) (by omega) (by omega))
        · by_cases h3 : kx ≠ 0 ∧ ky ≠ 0
          · simp only [hP, h1, h2, h3, if_true, if_false, ne_eq, not_false_eq_true, and_self]
            exact ofReads_ok _ (rd _ _ _ hx hy (by omega))
              (rd _ _ _ (by omega) (by omega) (by omega))
          · simp only [hP, h1, h2, h3, if_true, if_false]
            have hkz : kz < g.halfz := by omega
            rw [if_pos hkz]
            exact rd _ _ _ hx hy (by omega)
    · simp only [hP, if_false]
      by_cases hkz : kz < g.halfz
      · rw [if_pos hkz]
        exact rd _ _ _ hx hy (by omega)
      · rw [if_neg hkz]
        refine rd _ _ _ ?_ ?_ (by omega)
        · by_cases hk : kx ≠ 0
          · rw [if_pos hk]; omega
          · rw [if_neg hk]; exact hx
        · by_cases hk : ky ≠ 0
          · rw [if_pos hk]; omega
          · rw [if_neg hk]; exact hy

/-- Every read `getFieldKIm` makes is inside the buffer: the call returns a value. -/
theorem getFieldKIm_ok (g : FftGaussianRandomFieldGenerator α) (hg : g.Generated)
    (hfit : g.nx * g.ny * g.halfz ≤ 2147483648) (kx ky kz : Int)
    (hx : 0 ≤ kx ∧ kx < g.nx) (hy : 0 ≤ ky ∧ ky < g.ny) (hz : 0 ≤ kz ∧ kz < g.nz) :
    ∃ v, getFieldKIm g kx ky kz = .ok v := by
  have hh : g.halfz = g.nz / 2 + 1 := by
    rw [hg.1, Int.tdiv_eq_ediv (by omega) (by decide)]
  have rd := fun a b c ha hb hc => (data_read_ok g hg hfit a b c ha hb hc).2
  unfold getFieldKIm
  rw [if_neg (by omega), if_neg (by omega), if_neg (by omega)]
  by_cases hA : 2 * kz = g.nz ∧ ky = 0 ∧ kx = 0
  · rw [if_pos hA]
    exact ⟨0, rfl⟩
  · rw [if_neg hA]
    by_cases hP : kz = 0 ∨ 2 * kz = g.nz
    · by_cases h1 : ky ≠ 0 ∧ kx = 0
      · simp only [hP, h1, if_true, ne_eq, not_false_eq_true, and_self]
        exact ofReads_ok _ (rd _ _ _ (by omega) hy (by omega))
          (rd _ _ _ (by omega) (by omega) (by omega))
      · by_cases h2 : ky = 0 ∧ kx ≠ 0
        · simp only [hP, h1, h2, if_true, if_false, ne_eq, not_false_eq_true, and_self]
          exact ofReads_ok _ (rd _ _ _ hx (by omega) (by omega))
            (rd _ _ _ (by omega) (by omega) (by omega))
        · by_cases h3 : kx ≠ 0 ∧ ky ≠ 0
          · simp only [hP, h1, h2, h3, if_true, if_false, ne_eq, not_false_eq_true, and_self]
            exact ofReads_ok _ (rd _ _ _ hx hy (by omega))
              (rd _ _ _ (by omega) (by omega) (by omega))
          · simp only [hP, h1, h2, h3, if_true, if_false]
            have hkz : kz < g.halfz := by omega
            rw [if_pos hkz]
            exact rd _ _ _ hx hy (by omega)
    · simp only [hP, if_false]
      by_cases hkz : kz < g.halfz
      · rw [if_pos hkz]
        exact rd _ _ _ hx hy (by omega)
      · rw [if_neg hkz]
        have hread : ∃ v, dataIm g (flattenIndex g (if kx ≠ 0 then g.nx - kx else kx)
            (if ky ≠ 0 then g.ny - ky else ky) (g.nz - kz)) = .ok v := by
          refine rd _ _ _ ?_ ?_ (by omega)
          · by_cases hk : kx ≠ 0
            · rw [if_pos hk]; omega
            · rw [if_neg hk]; exact hx
          · by_cases hk : ky ≠ 0
            · rw [if_pos hk]; omega
            · rw [if_neg hk]; exact hy
        obtain ⟨v, hv⟩ := hread
        exact ⟨-v, by simp only [hv]⟩

/-- C20, with the condition it needs. For grid sizes `nx, ny, nz >= 1` and `halfz = nz/2 + 1`
such that the buffer has at most `2^31` entries (its largest index fits in an `int`), a buffer of
`nx*ny*halfz` complex values and every `(kx, ky, kz)` in range: `getFieldKRe` and `getFieldKIm`
return a value, so every index they compute through `flattenIndex`, the mirrored ones included,
is inside the buffer; a point with `kz >= halfz` is read at `nz - kz`, which lies in
`[0, halfz)`; the index of every point of the half space lies in `[0, nx*ny*halfz)`; and
`flattenIndex` is injective on the half space. -/
theorem fft_indices_in_buffer (g : FftGaussianRandomFieldGenerator α) (hg : g.Generated)
    (hnx : 1 ≤ g.nx) (hny : 1 ≤ g.ny) (hnz : 1 ≤ g.nz)
    (hfit : g.nx * g.ny * g.halfz ≤ 2147483648) :
    ((g.data.length : Int) = g.nx * g.ny * g.halfz) ∧
    (∀ kx ky kz : Int, (0 ≤ kx ∧ kx < g.nx) → (0 ≤ ky ∧ ky < g.ny) → (0 ≤ kz ∧ kz < g.nz) →
      (∃ v, getFieldKRe g kx ky kz = .ok v) ∧ (∃ v, getFieldKIm g kx ky kz = .ok v)) ∧
    (∀ kz : Int, 0 ≤ kz → kz < g.nz → g.halfz ≤ kz → 0 ≤ g.nz - kz ∧ g.nz - kz < g.halfz) ∧
    (∀ kx ky kz : Int, (0 ≤ kx ∧ kx < g.nx) → (0 ≤ ky ∧ ky < g.ny) → (0 ≤ kz ∧ kz < g.halfz) →
      0 ≤ flattenIndex g kx ky kz ∧ flattenIndex g kx ky kz < g.nx * g.ny * g.halfz) ∧
    (∀ kx ky kz kx2 ky2 kz2 : Int,
      (0 ≤ kx ∧ kx < g.nx) → (0 ≤ ky ∧ ky < g.ny) → (0 ≤ kz ∧ kz < g.halfz) →
      (0 ≤ kx2 ∧ kx2 < g.nx) → (0 ≤ ky2 ∧ ky2 < g.ny) → (0 ≤ kz2 ∧ kz2 < g.halfz) →
      flattenIndex g kx ky kz = flattenIndex g kx2 ky2 kz2 → kx = kx2 ∧ ky = ky2 ∧ kz = kz2) := by
  have hh : g.halfz = g.nz / 2 + 1 := by
    rw [hg.1, Int.tdiv_eq_ediv (by omega) (by decide)]
  refine ⟨hg.2, ?_, ?_, ?_, ?_⟩
  · intro kx ky kz hx hy hz
    exact ⟨getFieldKRe_ok g hg hfit kx ky kz hx hy hz, getFieldKIm_ok g hg hfit kx ky kz hx hy hz⟩
  · intro kz h0 h1 h2
    omega
  · intro kx ky kz hx hy hz
    exact flattenIndex_bounds g hfit kx ky kz hx hy hz
  · intro kx ky kz kx2 ky2 kz2 hx hy hz hx2 hy2 hz2 h
    exact flattenIndex_injective g hfit kx ky kz kx2 ky2 kz2 hx hy hz hx2 hy2 hz2 h

theorem exampleGenerator_generated : exampleGenerator.Generated := by
  constructor
  · decide
  · simp [exampleGenerator]

/-- C20 at the 2 x 3 x 4 generator. -/
theorem fft_indices_in_buffer_witness :
    ((exampleGenerator.data.length : Int)
      = exampleGenerator.nx * exampleGenerator.ny * exampleGenerator.halfz) ∧
    (∀ kx ky kz : Int, (0 ≤ kx ∧ kx < exampleGenerator.nx) → (0 ≤ ky ∧ ky < exampleGenerator.ny) →
      (0 ≤ kz ∧ kz < exampleGenerator.nz) →
      (∃ v, getFieldKRe exampleGenerator kx ky kz = .ok v) ∧
      (∃ v, getFieldKIm exampleGenerator kx ky kz = .ok v)) ∧
    (∀ kz : Int, 0 ≤ kz → kz < exampleGenerator.nz → exampleGenerator.halfz ≤ kz →
      0 ≤ exampleGenerator.nz - kz ∧ exampleGenerator.nz - kz < exampleGenerator.halfz) ∧
    (∀ kx ky kz : Int, (0 ≤ kx ∧ kx < exampleGenerator.nx) → (0 ≤ ky ∧ ky < exampleGenerator.ny) →
      (0 ≤ kz ∧ kz < exampleGenerator.halfz) →
      0 ≤ flattenIndex exampleGenerator kx ky kz ∧
      flattenIndex exampleGenerator kx ky kz
        < exampleGenerator.nx * exampleGenerator.ny * exampleGenerator.halfz) ∧
    (∀ kx ky kz kx2 ky2 kz2 : Int,
      (0 ≤ kx ∧ kx < exampleGenerator.nx) → (0 ≤ ky ∧ ky < exampleGenerator.ny) →
      (0 ≤ kz ∧ kz < exampleGenerator.halfz) →
      (0 ≤ kx2 ∧ kx2 < exampleGenerator.nx) → (0 ≤ ky2 ∧ ky2 < exampleGenerator.ny) →
      (0 ≤ kz2 ∧ kz2 < exampleGenerator.halfz) →
      flattenIndex exampleGenerator kx ky kz = flattenIndex exampleGenerator kx2 ky2 kz2 →
      kx = kx2 ∧ ky = ky2 ∧ kz = kz2) :=
  fft_indices_in_buffer exampleGenerator exampleGenerator_generated (by decide) (by decide)
    (by decide) (by decide)

/-! ## The k grid -/

/-- The k grid a successful construction builds. -/
theorem construct_kgrid [FloorRing α] {E : Collaborators α σ} {power : α → α}
    {distortion : α → α → α} {klo khi : α} {nk : Int} {rmin rmax : α} {nr : Int} {ellMax : Int}
    {symmetric : Bool} {relerr abserr abspow : α} {s0 : DistortedPowerCorrelation α σ}
    (h : construct E power distortion klo khi nk rmin rmax nr ellMax symmetric
      relerr abserr abspow = .ok s0) :
    s0.kgrid = (List.range nk.toNat).map
      (fun (i : Nat) => klo * E.pow (E.pow (khi / klo) (1 / ((nk : α) - 1))) (i : α)) := by
  unfold construct at h
  by_cases h1 : khi ≤ klo
  · simp [h1] at h
  by_cases h2 : klo ≤ 0
  · simp [h1, h2] at h
  by_cases h3 : nk < 2
  · simp [h1, h2, h3] at h
  by_cases h4 : rmax ≤ rmin
  · simp [h1, h2, h3, h4] at h
  by_cases h5 : rmin ≤ 0
  · simp [h1, h2, h3, h4, h5] at h
  by_cases h6 : nr < 2
  · simp [h1, h2, h3, h4, h5, h6] at h
  by_cases h7 : ellMax < 0
  · simp [h1, h2, h3, h4, h5, h6, h7] at h
  by_cases h8 : (symmetric && decide (ellMax.tmod 2 = 1)) = true
  · simp only [h8] at h
    simp [h1, h2, h3, h4, h5, h6, h7] at h
  · rw [if_neg h1, if_neg h2, if_neg h3, if_neg h4, if_neg h5, if_neg h6, if_neg h7,
      if_neg h8] at h
    injection h with h
    subst h
    rfl

/-- A construction whose arguments pass the eight tests returns an object. -/
theorem construct_succeeds [FloorRing α] (E : Collaborators α σ) (power : α → α)
    (distortion : α → α → α) (klo khi : α) (nk : Int) (rmin rmax : α) (nr : Int) (ellMax : Int)
    (symmetric : Bool) (relerr abserr abspow : α)
    (h1 : klo < khi) (h2 : 0 < klo) (h3 : 2 ≤ nk) (h4 : rmin < rmax) (h5 : 0 < rmin)
    (h6 : 2 ≤ nr) (h7 : 0 ≤ ellMax) (h8 : symmetric = true → ellMax.tmod 2 ≠ 1) :
    ∃ s0, construct E power distortion klo khi nk rmin rmax nr ellMax symmetric
      relerr abserr abspow = .ok s0 := by
  have h8b : ¬ ((symmetric && decide (ellMax.tmod 2 = 1)) = true) := by
    cases symmetric
    · simp
    · simpa using h8 rfl
  unfold construct
  rw [if_neg (not_le.mpr h1), if_neg (not_le.mpr h2), if_neg (not_lt.mpr h3),
    if_neg (not_le.mpr h4), if_neg (not_le.mpr h5), if_neg (not_lt.mpr h6),
    if_neg (not_lt.mpr h7), if_neg h8b]
  exact ⟨_, rfl⟩

/-- C13. Over the reals, with `std::pow` the real power function, for every accepted
construction the k grid has exactly `nk` elements, its `i`-th element is
`klo * ((khi/klo)^(1/(nk-1)))^i`, its first element is `klo` and its last is `khi`, it is
strictly increasing with all elements positive, and consecutive elements have the same ratio. -/
theorem kgrid_spec (E : Collaborators ℝ σ) (hpow : ∀ x y : ℝ, 0 < x → E.pow x y = x ^ y)
    (power : ℝ → ℝ) (distortion : ℝ → ℝ → ℝ) (klo khi : ℝ) (nk : Int) (rmin rmax : ℝ)
    (nr : Int) (ellMax : Int) (symmetric : Bool) (relerr abserr abspow : ℝ)
    (s0 : DistortedPowerCorrelation ℝ σ)
    (h0 : construct E power distortion klo khi nk rmin rmax nr ellMax symmetric
      relerr abserr abspow = .ok s0) :
    ((s0.kgrid.length : Int) = nk) ∧
    (∀ i : Nat, (i : Int) < nk →
      s0.kgrid[i]? = some (klo * ((khi / klo) ^ (1 / ((nk : ℝ) - 1))) ^ i)) ∧
    s0.kgrid.head? = some klo ∧ s0.kgrid.getLast? = some khi ∧
    (∀ (i j : Nat) (x y : ℝ), i < j → s0.kgrid[i]? = some x → s0.kgrid[j]? = some y → x < y) ∧
    (∀ x ∈ s0.kgrid, 0 < x) ∧
    (∀ (i : Nat) (x y : ℝ), s0.kgrid[i]? = some x → s0.kgrid[i + 1]? = some y →
      y / x = (khi / klo) ^ (1 / ((nk : ℝ) - 1))) := by
  obtain ⟨⟨hlt, hpos, hnk, -⟩, -⟩ := construct_ok h0
  have hk := construct_kgrid h0
  have hn : (0 : ℝ) < (nk : ℝ) - 1 := by
    have h2 : (2 : ℝ) ≤ (nk : ℝ) := by exact_mod_cast hnk
    linarith
  have hq : (1 : ℝ) < khi / klo := (one_lt_div hpos).mpr hlt
  have hq0 : (0 : ℝ) < khi / klo := lt_trans one_pos hq
  have hdk1 : (1 : ℝ) < (khi / klo) ^ (1 / ((nk : ℝ) - 1)) :=
    Real.one_lt_rpow hq (one_div_pos.mpr hn)
  have hdk0 : (0 : ℝ) < (khi / klo) ^ (1 / ((nk : ℝ) - 1)) := lt_trans one_pos hdk1
  have hterm : ∀ i : Nat,
      klo * E.pow (E.pow (khi / klo) (1 / ((nk : ℝ) - 1))) (i : ℝ)
        = klo * ((khi / klo) ^ (1 / ((nk : ℝ) - 1))) ^ i := by
    intro i
    rw [hpow _ _ hq0, hpow _ _ hdk0, Real.rpow_natCast]
  have hgrid : s0.kgrid = (List.range nk.toNat).map
      (fun (i : Nat) => klo * ((khi / klo) ^ (1 / ((nk : ℝ) - 1))) ^ i) := by
    rw [hk]
    exact List.map_congr_left (fun i _ => hterm i)
  have hget : ∀ (i : Nat) (x : ℝ), s0.kgrid[i]? = some x →
      i < nk.toNat ∧ x = klo * ((khi / klo) ^ (1 / ((nk : ℝ) - 1))) ^ i := by
    intro i x hx
    rw [hgrid, List.getElem?_map] at hx
    by_cases hi : i < nk.toNat
    · rw [List.getElem?_range hi] at hx
      simp only [Option.map_some', Option.some.injEq] at hx
      exact ⟨hi, hx.symm⟩
    · rw [List.getElem?_eq_none (by simpa using hi)] at hx
      simp at hx
  have hnz : nk.toNat ≠ 0 := by omega
  have hcast : ((nk.toNat - 1 : Nat) : ℝ) = (nk : ℝ) - 1 := by
    have h1 : 1 ≤ nk.toNat := by omega
    rw [Nat.cast_sub h1, Nat.cast_one]
    congr 1
    have h2 : ((nk.toNat : Int) : ℝ) = (nk : ℝ) := by rw [Int.toNat_of_nonneg (by omega)]
    rw [← h2, Int.cast_natCast]
  have hlast : ((khi / klo) ^ (1 / ((nk : ℝ) - 1))) ^ (nk.toNat - 1) = khi / klo := by
    rw [← Real.rpow_natCast, hcast, ← Real.rpow_mul hq0.le, one_div,
      inv_mul_cancel₀ hn.ne', Real.rpow_one]
  refine ⟨?_, ?_, ?_, ?_, ?_, ?_, ?_⟩
  · rw [hgrid, List.length_map, List.length_range, Int.toNat_of_nonneg (by omega)]
  · intro i hi
    have hi2 : i < nk.toNat := by omega
    rw [hgrid, List.getElem?_map, List.getElem?_range hi2]
    rfl
  · rw [hgrid, List.head?_map, List.head?_range, if_neg hnz]
    simp
  · rw [hgrid, List.getLast?_map, List.getLast?_range, if_neg hnz]
    simp only [Option.map_some', Option.some.injEq]
    rw [hlast, mul_div_cancel₀ _ hpos.ne']
  · intro i j x y hij hx hy
    obtain ⟨-, rfl⟩ := hget i x hx
    obtain ⟨-, rfl⟩ := hget j y hy
    exact mul_lt_mul_of_pos_left (pow_lt_pow_right₀ hdk1 hij) hpos
  · intro x hx
    obtain ⟨i, hi⟩ := List.getElem?_of_mem hx
    obtain ⟨-, rfl⟩ := hget i x hi
    exact mul_pos hpos (pow_pos hdk0 i)
  · intro i x y hx hy
    obtain ⟨-, rfl⟩ := hget i x hx
    obtain ⟨-, rfl⟩ := hget (i + 1) y hy
    have hne : klo * ((khi / klo) ^ (1 / ((nk : ℝ) - 1))) ^ i ≠ 0 :=
      (mul_pos hpos (pow_pos hdk0 i)).ne'
    rw [div_eq_iff hne, pow_succ]
    ring

/-- C13 for `klo = 1`, `khi = 10`, `nk = 3`, with `std::pow` the real power function. -/
theorem kgrid_spec_witness :
    ∃ (E : Collaborators ℝ Unit) (s0 : DistortedPowerCorrelation ℝ Unit),
      (∀ x y : ℝ, 0 < x → E.pow x y = x ^ y) ∧
      construct E (fun _ => 1) (fun _ _ => 1) 1 10 3 1 2 2 2 true (1 / 100) (1 / 1000) 0
        = .ok s0 ∧
      (((s0.kgrid.length : Int) = 3) ∧
      (∀ i : Nat, (i : Int) < 3 →
        s0.kgrid[i]? = some ((1 : ℝ) * ((10 / 1 : ℝ) ^ (1 / (((3 : Int) : ℝ) - 1))) ^ i)) ∧
      s0.kgrid.head? = some 1 ∧ s0.kgrid.getLast? = some 10 ∧
      (∀ (i j : Nat) (x y : ℝ), i < j → s0.kgrid[i]? = some x → s0.kgrid[j]? = some y → x < y) ∧
      (∀ x ∈ s0.kgrid, 0 < x) ∧
      (∀ (i : Nat) (x y : ℝ), s0.kgrid[i]? = some x → s0.kgrid[i + 1]? = some y →
        y / x = (10 / 1 : ℝ) ^ (1 / (((3 : Int) : ℝ) - 1)))) := by
  obtain ⟨s0, hs0⟩ := construct_succeeds
    ({ pow := fun x y => x ^ y
       log10 := fun x => Real.log x / Real.log 10
       getMultipole := fun f _ => f 0
       legendreP := fun _ _ => 1
       multipoleTransformNormalization := fun _ _ _ => 1
       amtInitialize := fun amt _ _ _ _ _ _ _ => ((), amt.rgrid.map (fun _ => 0))
       amtTransform := fun amt _ _ _ => (true, (), amt.rgrid.map (fun _ => 0))
       interpolate := fun _ _ => 0
       tabulatedPower := fun _ _ => 0 } : Collaborators ℝ Unit)
    (fun _ => 1) (fun _ _ => 1) 1 10 3 1 2 2 2 true (1 / 100) (1 / 1000) 0
    (by norm_num) (by norm_num) (by decide) (by norm_num) (by norm_num) (by decide) (by decide)
    (fun _ => by decide)
  exact ⟨_, s0, fun _ _ _ => rfl, hs0,
    kgrid_spec _ (fun _ _ _ => rfl) (fun _ => 1) (fun _ _ => 1) 1 10 3 1 2 2 2 true (1 / 100)
      (1 / 1000) 0 s0 hs0⟩

/-! ## The cache after it has been built -/

/-- Calls compose. -/
theorem Reachable.trans {E : Collaborators α σ} {s0 s t : DistortedPowerCorrelation α σ}
    (h1 : Reachable E s0 s) (h2 : Reachable E s t) : Reachable E s0 t := by
  induction h2 with
  | start => exact h1
  | call c _ ih => exact Reachable.call c ih

/-- The cache build fills every slot with the table of the slot's own order, and changes nothing
else. -/
theorem initPowerMultipoles_cached (E : Collaborators α σ) (s : DistortedPowerCorrelation α σ)
    (h0 : 0 ≤ s.ellMax)
    (hlen : s.savedPowerMultipole.length = (1 + s.ellMax.tdiv (dell s.symmetric)).toNat) :
    ∃ saved : List (Option (TabulatedPower α)),
      saved.length = s.savedPowerMultipole.length ∧
      initPowerMultipoles E s = (.ok (), { s with savedPowerMultipole := saved }) ∧
      ∀ j, j < (1 + s.ellMax.tdiv (dell s.symmetric)).toNat →
        saved[j]? = some (some (powerMultipoleTable E s j)) := by
  have hprog := foldl_range_progress
    (fun k (acc : Except Failure Unit × DistortedPowerCorrelation α σ) =>
      ∃ saved : List (Option (TabulatedPower α)),
        saved.length = s.savedPowerMultipole.length ∧
        acc = (.ok (), { s with savedPowerMultipole := saved }) ∧
        ∀ j, j < k → saved[j]? = some (some (powerMultipoleTable E s j)))
    (fun acc (i : Nat) => initPowerMultipolesStep E acc ((i : Int) * dell s.symmetric))
    (1 + s.ellMax.tdiv (dell s.symmetric)).toNat
    (by
      rintro k acc hk ⟨saved, hl, rfl, hdone⟩
      have hvalid : invalidEll s.ellMax s.symmetric ((k : Int) * dell s.symmetric) = false := by
        apply invalidEll_of_mem_ellLoop
        rw [ellLoop_zero s.symmetric h0]
        exact List.mem_map.mpr ⟨k, List.mem_range.mpr hk, rfl⟩
      simp only []
      rw [initPowerMultipolesStep_ok E { s with savedPowerMultipole := saved } _ hvalid]
      simp only [slotIndex_mul, Int.toNat_ofNat]
      refine ⟨_, ?_, rfl, ?_⟩
      · simp only [List.length_set, hl]
      · intro j hj
        by_cases hjk : j = k
        · subst hjk
          rw [List.getElem?_set_self (by rw [hl, hlen]; exact hk)]
          rfl
        · rw [List.getElem?_set_ne (Ne.symm hjk)]
          exact hdone j (by omega))
    (.ok (), s) ⟨s.savedPowerMultipole, rfl, rfl, fun j hj => absurd hj (Nat.not_lt_zero j)⟩
  obtain ⟨saved, hl, heq, hall⟩ := hprog
  refine ⟨saved, hl, ?_, hall⟩
  rw [initPowerMultipoles, ellLoop_foldl _ _ s.symmetric h0]
  exact heq

/-! ## FftGaussianRandomFieldGenerator: Hermitian symmetry -/

/-- The branches of `getFieldKRe` at a point in range, with the mirrored reads written through
`mirrorIndex`. -/
theorem getFieldKRe_eq (g : FftGaussianRandomFieldGenerator α) (hh : g.halfz = g.nz / 2 + 1)
    (kx ky kz : Int)
    (hx : 0 ≤ kx ∧ kx < g.nx) (hy : 0 ≤ ky ∧ ky < g.ny) (hz : 0 ≤ kz ∧ kz < g.nz) :
    getFieldKRe g kx ky kz =
      if kz = 0 ∨ 2 * kz = g.nz then
        if kx = 0 ∧ ky = 0 then dataRe g (flattenIndex g kx ky kz)
        else ofReads (fun a b => (1 / 2) * (a + b)) (dataRe g (flattenIndex g kx ky kz))
          (dataRe g (flattenIndex g (mirrorIndex g.nx kx) (mirrorIndex g.ny ky) kz))
      else if kz < g.halfz then dataRe g (flattenIndex g kx ky kz)
      else dataRe g (flattenIndex g (mirrorIndex g.nx kx) (mirrorIndex g.ny ky) (g.nz - kz)) := by
  unfold getFieldKRe mirrorIndex
  rw [if_neg (by omega), if_neg (by omega), if_neg (by omega)]
  by_cases hkx : kx = 0 <;> by_cases hky : ky = 0 <;> by_cases hP0 : kz = 0 <;>
    by_cases hP1 : 2 * kz = g.nz <;> simp [hkx, hky, hP0, hP1]
  all_goals omega

/-- The branches of `getFieldKIm` at a point in range. -/
theorem getFieldKIm_eq (g : FftGaussianRandomFieldGenerator α) (hh : g.halfz = g.nz / 2 + 1)
    (kx ky kz : Int)
    (hx : 0 ≤ kx ∧ kx < g.nx) (hy : 0 ≤ ky ∧ ky < g.ny) (hz : 0 ≤ kz ∧ kz < g.nz) :
    getFieldKIm g kx ky kz =
      if kz = 0 ∨ 2 * kz = g.nz then
        if kx = 0 ∧ ky = 0 then
          if 2 * kz = g.nz then .ok 0 else dataIm g (flattenIndex g kx ky kz)
        else ofReads (fun a b => (1 / 2) * (a - b)) (dataIm g (flattenIndex g kx ky kz))
          (dataIm g (flattenIndex g (mirrorIndex g.nx kx) (mirrorIndex g.ny ky) kz))
      else if kz < g.halfz then dataIm g (flattenIndex g kx ky kz)
      else
        match dataIm g (flattenIndex g (mirrorIndex g.nx kx) (mirrorIndex g.ny ky) (g.nz - kz)) with
        | .ok v => .ok (-v)
        | .error e => .error e := by
  unfold getFieldKIm mirrorIndex
  rw [if_neg (by omega), if_neg (by omega), if_neg (by omega)]
  by_cases hkx : kx = 0 <;> by_cases hky : ky = 0 <;> by_cases hP0 : kz = 0 <;>
    by_cases hP1 : 2 * kz = g.nz <;> simp [hkx, hky, hP0, hP1]
  all_goals first | rfl | omega | (exfalso; omega) |
    (have h9 : ¬ (0 : Int) = g.nz := by omega
     have h8 : 0 < g.halfz := by omega
     simp only [h9, h8, if_true, if_false])

theorem exampleHuge_generated : exampleHuge.Generated := by
  constructor
  · decide
  · show ((List.replicate 4299161600 ((0 : ℚ), (0 : ℚ))).length : Int) = 2048 * 2048 * 1025
    rw [List.length_replicate]
    norm_num

/-- C20 as stated fails: `flattenIndex` computes in `int`. On the 2048 x 2048 x 2048 grid, whose
buffer has `2048*2048*1025 = 4299161600` entries, the point `(1024, 0, 0)` is in range and the
value of its index expression, `1025*2048*1024 = 2149580800`, is above `2^31 - 1`; as an `int` it
is `2149580800 - 2^32 = -2145386496`, which is no index of the buffer, and both accessors read
outside the buffer there. -/
theorem fft_index_overflows :
    exampleHuge.Generated ∧
    (1 ≤ exampleHuge.nx ∧ 1 ≤ exampleHuge.ny ∧ 1 ≤ exampleHuge.nz) ∧
    ((0 : Int) ≤ 1024 ∧ 1024 < exampleHuge.nx ∧ (0 : Int) ≤ 0 ∧ 0 < exampleHuge.ny ∧
      0 < exampleHuge.nz ∧ 0 < exampleHuge.halfz) ∧
    (0 : Int) + exampleHuge.halfz * (0 + exampleHuge.ny * 1024) = 2149580800 ∧
    flattenIndex exampleHuge 1024 0 0 = -2145386496 ∧
    ¬ (0 ≤ flattenIndex exampleHuge 1024 0 0) ∧
    getFieldKRe exampleHuge 1024 0 0 = .error .undefined ∧
    getFieldKIm exampleHuge 1024 0 0 = .error .undefined := by
  have hf : flattenIndex exampleHuge 1024 0 0 = -2145386496 := by decide
  have hf2 : flattenIndex exampleHuge (exampleHuge.nx - 1024) 0 0 = -2145386496 := by decide
  have hr : dataRe exampleHuge (-2145386496) = .error .undefined := by
    rw [dataRe, if_pos (by decide)]
  have hi : dataIm exampleHuge (-2145386496) = .error .undefined := by
    rw [dataIm, if_pos (by decide)]
  have hh : exampleHuge.halfz = exampleHuge.nz / 2 + 1 := by decide
  refine ⟨exampleHuge_generated, by decide, by decide, by decide, hf, by rw [hf]; decide,
    ?_, ?_⟩
  · rw [getFieldKRe_eq exampleHuge hh 1024 0 0 (by decide) (by decide) (by decide),
      if_pos (Or.inl rfl), if_neg (by decide)]
    have hm1 : mirrorIndex exampleHuge.nx 1024 = exampleHuge.nx - 1024 := by decide
    have hm2 : mirrorIndex exampleHuge.ny 0 = 0 := by decide
    rw [hm1, hm2, hf, hf2, hr]
    rfl
  · rw [getFieldKIm_eq exampleHuge hh 1024 0 0 (by decide) (by decide) (by decide),
      if_pos (Or.inl rfl), if_neg (by decide)]
    have hm1 : mirrorIndex exampleHuge.nx 1024 = exampleHuge.nx - 1024 := by decide
    have hm2 : mirrorIndex exampleHuge.ny 0 = 0 := by decide
    rw [hm1, hm2, hf, hf2, hi]
    rfl

/-- Whether every slot holds its own table depends only on the cache and on members no call
changes. -/
theorem Cached.congr {E : Collaborators α σ} {s t : DistortedPowerCorrelation α σ}
    (h : Cached E s) (h1 : t.savedPowerMultipole = s.savedPowerMultipole)
    (h2 : t.power = s.power) (h3 : t.distortion = s.distortion) (h4 : t.ellMax = s.ellMax)
    (h5 : t.symmetric = s.symmetric) (h6 : t.kgrid = s.kgrid) : Cached E t := by
  intro i hi
  rw [h4, h5] at hi
  have := h i hi
  unfold powerMultipoleTable at this ⊢
  rw [h1, h2, h3, h5, h6]
  exact this

/-- The cache after `transform`: rebuilt when `interpolatePowerMultipoles` is set, untouched
otherwise. -/
theorem transform_saved (E : Collaborators α σ) (s : DistortedPowerCorrelation α σ)
    (interpolate bypass : Bool) (h : Sized s) :
    (transform E s interpolate bypass).2.savedPowerMultipole
      = (if interpolate = true then (initPowerMultipoles E s).2 else s).savedPowerMultipole := by
  obtain ⟨-, -, -, -, he⟩ := transform_eq_loop E s interpolate bypass h
  rw [he]
  exact (blankSlots_fields (transformLoop_blank E interpolate bypass _ _)).2.2.2.2.2.2.2.2.2.2.2.1

/-- The cache after `initialize`: rebuilt when the arguments pass the validation, untouched
otherwise. -/
theorem initializeObj_saved (E : Collaborators α σ) (s : DistortedPowerCorrelation α σ)
    (nmu : Int) (margin vepsMax vepsMin : α) (optimize : Bool) (stack : α) :
    (initializeObj E s nmu margin vepsMax vepsMin optimize stack).2.savedPowerMultipole
      = (if returned (initializeObj E s nmu margin vepsMax vepsMin optimize stack).1 = true then
          (initPowerMultipoles E s).2 else s).savedPowerMultipole := by
  by_cases hv : (nmu < 2 ∨ margin < 1 ∨ vepsMax ≤ vepsMin ∨ vepsMin ≤ 0)
  · obtain ⟨msg, hm⟩ :=
      (initializeObj_outcome E s nmu margin vepsMax vepsMin optimize stack).1 hv
    rw [hm, if_neg (by simp [returned])]
  · rw [if_pos (by rw [(initializeObj_outcome E s nmu margin vepsMax vepsMin optimize stack).2 hv]; rfl)]
    obtain ⟨saved, -, hp⟩ := initPowerMultipoles_frame E s
    simp only [not_or] at hv
    obtain ⟨h1, h2, h3, h4⟩ := hv
    simp only [initializeObj, if_neg h1, if_neg h2, if_neg h3, if_neg h4, hp]
    have hb1 := retuneLoop_blank E margin vepsMax vepsMin optimize
      (ellLoop (calibrationSweep E (coarsePass E margin vepsMax vepsMin
        { s with savedPowerMultipole := saved }) nmu stack).ellMax
        (calibrationSweep E (coarsePass E margin vepsMax vepsMin
        { s with savedPowerMultipole := saved }) nmu stack).symmetric 0)
      (calibrationSweep E (coarsePass E margin vepsMax vepsMin
        { s with savedPowerMultipole := saved }) nmu stack)
    have hb2 := coarseLoop_blank E margin vepsMax vepsMin
      (ellLoop s.ellMax s.symmetric 0) { s with savedPowerMultipole := saved }
    have a := (blankSlots_fields hb1).2.2.2.2.2.2.2.2.2.2.2.1
    have b := (blankSlots_fields hb2).2.2.2.2.2.2.2.2.2.2.2.1
    exact a.trans b

/-- What a call does to the cache: it keeps its length; tables that were there stay; and a call
of `initialize` that returns normally, or of `transform` with `interpolatePowerMultipoles`, leaves
every slot with its own table. -/
theorem exec_cached (E : Collaborators α σ) (s : DistortedPowerCorrelation α σ) (c : Call α)
    (h : Sized s)
    (hlen : s.savedPowerMultipole.length = (1 + s.ellMax.tdiv (dell s.symmetric)).toNat) :
    (exec E s c).2.savedPowerMultipole.length
      = (1 + (exec E s c).2.ellMax.tdiv (dell (exec E s c).2.symmetric)).toNat ∧
    (Cached E s → Cached E (exec E s c).2) ∧
    (((c.isInitialize = true ∧ (exec E s c).1 = true) ∨ ∃ b, c = .transform true b) →
      Cached E (exec E s c).2) := by
  obtain ⟨i1, i2, i3, i4, -, -, -, i8, -, -⟩ := exec_immutable E s c
  obtain ⟨saved, hl, hp, hall⟩ := initPowerMultipoles_cached E s h.1 hlen
  have hfresh : Cached E { s with savedPowerMultipole := saved } := hall
  have hcase : ((exec E s c).2.savedPowerMultipole = s.savedPowerMultipole ∧
        ¬((c.isInitialize = true ∧ (exec E s c).1 = true) ∨ ∃ b, c = .transform true b)) ∨
      (exec E s c).2.savedPowerMultipole = saved := by
    have same : ∀ c2 : Call α, (exec E s c2).2 = s → c2.isInitialize = false →
        (∀ b, c2 ≠ .transform true b) →
        ((exec E s c2).2.savedPowerMultipole = s.savedPowerMultipole ∧
        ¬((c2.isInitialize = true ∧ (exec E s c2).1 = true) ∨ ∃ b, c2 = .transform true b)) := by
      intro c2 e1 e2 e3
      refine ⟨by rw [e1], ?_⟩
      rintro (⟨h1, -⟩ | ⟨b, hb⟩)
      · rw [e2] at h1
        exact Bool.false_ne_true h1
      · exact e3 b hb
    cases c with
    | initializeObj nmu margin vepsMax vepsMin optimize stack =>
      have e := initializeObj_saved E s nmu margin vepsMax vepsMin optimize stack
      by_cases hr : returned (initializeObj E s nmu margin vepsMax vepsMin optimize stack).1 = true
      · right
        rw [if_pos hr, hp] at e
        exact e
      · left
        rw [if_neg hr] at e
        refine ⟨e, ?_⟩
        rintro (⟨-, h2⟩ | ⟨b, hb⟩)
        · exact hr h2
        · exact Call.noConfusion hb
    | transform interpolate bypass =>
      have e := transform_saved E s interpolate bypass h
      cases interpolate with
      | true =>
        right
        rw [if_pos rfl, hp] at e
        exact e
      | false =>
        left
        rw [if_neg (by decide)] at e
        refine ⟨e, ?_⟩
        rintro (⟨h1, -⟩ | ⟨b, hb⟩)
        · exact Bool.false_ne_true h1
        · injection hb with hb1
          exact Bool.false_ne_true hb1
    | getPower k mu => exact Or.inl (same _ rfl rfl (fun b hb => Call.noConfusion hb))
    | getPowerMultipole k ell => exact Or.inl (same _ rfl rfl (fun b hb => Call.noConfusion hb))
    | getSavedPowerMultipole k ell =>
      exact Or.inl (same _ rfl rfl (fun b hb => Call.noConfusion hb))
    | getCorrelationMultipole r ell =>
      exact Or.inl (same _ rfl rfl (fun b hb => Call.noConfusion hb))
    | getCorrelation r mu => exact Or.inl (same _ rfl rfl (fun b hb => Call.noConfusion hb))
    | getTransform ell => exact Or.inl (same _ rfl rfl (fun b hb => Call.noConfusion hb))
    | getBiggestContribution ell =>
      exact Or.inl (same _ rfl rfl (fun b hb => Call.noConfusion hb))
  have hnew : (exec E s c).2.savedPowerMultipole = saved → Cached E (exec E s c).2 :=
    fun e => hfresh.congr e i1 i2 i3 i4 i8
  refine ⟨?_, ?_, ?_⟩
  · rw [i3, i4]
    rcases hcase with ⟨e, -⟩ | e
    · rw [e, hlen]
    · rw [e, hl, hlen]
  · intro hc
    rcases hcase with ⟨e, -⟩ | e
    · exact hc.congr e i1 i2 i3 i4 i8
    · exact hnew e
  · intro htrig
    rcases hcase with ⟨-, e⟩ | e
    · exact absurd htrig e
    · exact hnew e

/-- Once every slot holds its own table, later calls keep it so. -/
theorem reachable_cached (E : Collaborators α σ) {s t : DistortedPowerCorrelation α σ}
    (hs : Invariant s)
    (hlen : s.savedPowerMultipole.length = (1 + s.ellMax.tdiv (dell s.symmetric)).toNat)
    (ht : Reachable E s t) :
    Invariant t ∧
    t.savedPowerMultipole.length = (1 + t.ellMax.tdiv (dell t.symmetric)).toNat ∧
    (Cached E s → Cached E t) := by
  induction ht with
  | start => exact ⟨hs, hlen, fun h => h⟩
  | call c _ ih =>
    obtain ⟨h1, h2, h3⟩ := ih
    obtain ⟨e1, e2, -⟩ := exec_cached E _ c h1.1 h2
    exact ⟨exec_invariant E _ c h1, e1, fun h => e2 (h3 h)⟩

/-- With every slot holding its own table, `getSavedPowerMultipole` evaluates the table of the
order asked for. -/
theorem getSavedPowerMultipole_cached (E : Collaborators α σ) (s : DistortedPowerCorrelation α σ)
    (hc : Cached E s) (h0 : 0 ≤ s.ellMax) (i : Nat)
    (hi : i < (1 + s.ellMax.tdiv (dell s.symmetric)).toNat) (k : α) :
    getSavedPowerMultipole E s k ((i : Int) * dell s.symmetric)
      = .ok (E.tabulatedPower (powerMultipoleTable E s i) k) := by
  have hvalid : invalidEll s.ellMax s.symmetric ((i : Int) * dell s.symmetric) = false := by
    apply invalidEll_of_mem_ellLoop
    rw [ellLoop_zero s.symmetric h0]
    exact List.mem_map.mpr ⟨i, List.mem_range.mpr hi, rfl⟩
  unfold getSavedPowerMultipole
  rw [hvalid]
  simp only [Bool.false_eq_true, if_false, slotIndex_mul, Int.toNat_ofNat, hc i hi]

/-- C11. On a freshly constructed object `getSavedPowerMultipole(k, ell)` throws "not
initialized" for every `k` and every valid `ell`. After a call of `initialize` that returned
normally, or of `transform` with `interpolatePowerMultipoles = true`, and any further calls: the
cache has one slot per active multipole, and for every valid `ell` the slot `index(ell)` holds a
table on the k grid with `nk` samples whose `j`-th sample is `getPowerMultipole(kgrid[j], ell)` for
that same `ell`, and `getSavedPowerMultipole(k, ell)` returns that table evaluated at `k`. -/
theorem savedPowerMultipole_spec [FloorRing α] (E : Collaborators α σ) (power : α → α)
    (distortion : α → α → α) (klo khi : α) (nk : Int) (rmin rmax : α) (nr : Int) (ellMax : Int)
    (symmetric : Bool) (relerr abserr abspow : α) (s0 : DistortedPowerCorrelation α σ)
    (h0 : construct E power distortion klo khi nk rmin rmax nr ellMax symmetric
      relerr abserr abspow = .ok s0) :
    (∀ (k : α) (ell : Int), 0 ≤ ell → ell ≤ ellMax → (symmetric = true → 2 ∣ ell) →
      getSavedPowerMultipole E s0 k ell = .error (.runtimeError
        "DistortedPowerCorrelation::getSavedPowerMultipole: not initialized.")) ∧
    (∀ (s t : DistortedPowerCorrelation α σ) (c : Call α), Reachable E s0 s →
      ((c.isInitialize = true ∧ (exec E s c).1 = true) ∨ ∃ b, c = .transform true b) →
      Reachable E (exec E s c).2 t →
      (t.savedPowerMultipole.length : Int) = 1 + ellMax.tdiv (dell symmetric) ∧
      ∀ ell : Int, 0 ≤ ell → ell ≤ ellMax → (symmetric = true → 2 ∣ ell) →
        ∃ table : TabulatedPower α,
          t.savedPowerMultipole[(slotIndex symmetric ell).toNat]? = some (some table) ∧
          table.k = s0.kgrid ∧ (table.k.length : Int) = nk ∧ (table.Pk.length : Int) = nk ∧
          (∀ j : Nat, (j : Int) < nk → ∃ kj p, s0.kgrid[j]? = some kj ∧ table.k[j]? = some kj ∧
            getPowerMultipole E t kj ell = .ok p ∧ table.Pk[j]? = some p) ∧
          (∀ k, getSavedPowerMultipole E t k ell = .ok (E.tabulatedPower table k))) := by
  obtain ⟨⟨-, -, hnk, -, -, -, hm⟩, -, -, he, hs, -, -, -, -, -, -, -, -, hsv, -⟩ := construct_ok h0
  have hI0 := construct_invariant h0
  have hlen0 : s0.savedPowerMultipole.length
      = (1 + s0.ellMax.tdiv (dell s0.symmetric)).toNat := by
    rw [hsv, List.length_map, ellLoop_length symmetric hm, he, hs]
  have hkg : (s0.kgrid.length : Int) = nk := by
    rw [construct_kgrid h0, List.length_map, List.length_range]
    omega
  constructor
  · intro k ell h1 h2 h3
    obtain ⟨i, hi, rfl⟩ := active_slot h1 h2 h3
    have hvalid : invalidEll s0.ellMax s0.symmetric ((i : Int) * dell symmetric) = false := by
      rw [he, hs]
      apply invalidEll_of_mem_ellLoop
      rw [ellLoop_zero symmetric hm]
      exact List.mem_map.mpr ⟨i, List.mem_range.mpr hi, rfl⟩
    have hslot : s0.savedPowerMultipole[i]? = some none := by
      rw [hsv, List.getElem?_map, List.getElem?_eq_getElem (by
        rw [ellLoop_length symmetric hm]; exact hi)]
      rfl
    unfold getSavedPowerMultipole
    rw [hvalid, hs]
    simp only [Bool.false_eq_true, if_false, slotIndex_mul, Int.toNat_ofNat, hslot]
  · intro s t c hs1 htrig ht
    obtain ⟨hIs, hlens, -⟩ := reachable_cached E hI0 hlen0 hs1
    obtain ⟨e1, -, e3⟩ := exec_cached E s c hIs.1 hlens
    obtain ⟨-, hlent, hct⟩ := reachable_cached E (exec_invariant E s c hIs) e1 ht
    have hc : Cached E t := hct (e3 htrig)
    obtain ⟨-, -, -, te, ts, -, -, -, tk, -, -⟩ :=
      reachable_invariant E hI0 ((Reachable.call c hs1).trans ht)
    rw [he] at te
    rw [hs] at ts
    have hN : 0 ≤ 1 + ellMax.tdiv (dell symmetric) := by
      have := nell_toNat symmetric hm
      omega
    constructor
    · rw [hlent, te, ts]
      exact Int.toNat_of_nonneg hN
    · intro ell h1 h2 h3
      obtain ⟨i, hi, rfl⟩ := active_slot h1 h2 h3
      have hi2 : i < (1 + t.ellMax.tdiv (dell t.symmetric)).toNat := by
        rw [te, ts]; exact hi
      have hvalid : invalidEll t.ellMax t.symmetric ((i : Int) * dell symmetric) = false := by
        rw [te, ts]
        apply invalidEll_of_mem_ellLoop
        rw [ellLoop_zero symmetric hm]
        exact List.mem_map.mpr ⟨i, List.mem_range.mpr hi, rfl⟩
      have hget := getSavedPowerMultipole_cached E t hc (by rw [te]; exact hm) i hi2
      have hslot := hc i hi2
      rw [ts] at hget
      refine ⟨powerMultipoleTable E t i, ?_, tk, ?_, ?_, ?_, hget⟩
      · rw [slotIndex_mul, Int.toNat_ofNat]
        exact hslot
      · show (t.kgrid.length : Int) = nk
        rw [tk, hkg]
      · show ((t.kgrid.map _).length : Int) = nk
        rw [List.length_map, tk, hkg]
      · intro j hj
        have hjl : j < t.kgrid.length := by
          rw [tk]
          omega
        refine ⟨t.kgrid[j], t.power t.kgrid[j] * E.getMultipole (fun mu => t.distortion t.kgrid[j] mu)
          ((i : Int) * dell symmetric), ?_, ?_, ?_, ?_⟩
        · rw [← tk]
          exact List.getElem?_eq_getElem hjl
        · exact List.getElem?_eq_getElem hjl
        · unfold getPowerMultipole
          rw [hvalid]
          rfl
        · show (t.kgrid.map _)[j]? = _
          rw [List.getElem?_map, List.getElem?_eq_getElem hjl, ts]
          rfl

/-- C11 at the hand-made object. -/
theorem savedPowerMultipole_spec_witness :
    (∀ (k : ℚ) (ell : Int), 0 ≤ ell → ell ≤ 2 → (true = true → 2 ∣ ell) →
      getSavedPowerMultipole exampleCollaborators exampleObject k ell = .error (.runtimeError
        "DistortedPowerCorrelation::getSavedPowerMultipole: not initialized.")) ∧
    (∀ (s t : DistortedPowerCorrelation ℚ Unit) (c : Call ℚ),
      Reachable exampleCollaborators exampleObject s →
      ((c.isInitialize = true ∧ (exec exampleCollaborators s c).1 = true)
        ∨ ∃ b, c = .transform true b) →
      Reachable exampleCollaborators (exec exampleCollaborators s c).2 t →
      (t.savedPowerMultipole.length : Int) = 1 + (2 : Int).tdiv (dell true) ∧
      ∀ ell : Int, 0 ≤ ell → ell ≤ 2 → (true = true → 2 ∣ ell) →
        ∃ table : TabulatedPower ℚ,
          t.savedPowerMultipole[(slotIndex true ell).toNat]? = some (some table) ∧
          table.k = exampleObject.kgrid ∧ (table.k.length : Int) = 2 ∧
          (table.Pk.length : Int) = 2 ∧
          (∀ j : Nat, (j : Int) < 2 → ∃ kj p, exampleObject.kgrid[j]? = some kj ∧
            table.k[j]? = some kj ∧
            getPowerMultipole exampleCollaborators t kj ell = .ok p ∧ table.Pk[j]? = some p) ∧
          (∀ k, getSavedPowerMultipole exampleCollaborators t k ell
            = .ok (exampleCollaborators.tabulatedPower table k))) :=
  savedPowerMultipole_spec exampleCollaborators (fun _ => 1)
    (fun _ mu => 7 / 2 - 3 / 2 * mu ^ 2) 1 10 2 1 2 2 2 true (1 / 100) (1 / 1000) 0 exampleObject
    exampleObject_constructed

/-! ## transform changes no configuration -/

/-- The loop of `transform` slot by slot, with the call it makes written out: each slot's
transformer keeps its configuration, and its samples are the output of the transformer's own
`transform` on the k-space function of that slot's order. -/
theorem transform_slots (E : Collaborators α σ) (s : DistortedPowerCorrelation α σ)
    (interpolate bypass : Bool) (h : Invariant s) :
    blankSlots (transform E s interpolate bypass).2
      = blankSlots { s with savedPowerMultipole :=
          (if interpolate = true then (initPowerMultipoles E s).2 else s).savedPowerMultipole } ∧
    (transform E s interpolate bypass).2.transformer.length = s.transformer.length ∧
    ∀ i, i < (1 + s.ellMax.tdiv (dell s.symmetric)).toNat →
      ∃ amt xi, s.transformer[i]? = some amt ∧ s.xiMoments[i]? = some xi ∧
        (transform E s interpolate bypass).2.transformer[i]?
          = some { amt with tuning := some (E.amtTransform amt
              (if interpolate = true then
                fun k => getSavedPowerMultipole E (initPowerMultipoles E s).2 k
                  ((i : Int) * dell s.symmetric)
              else fun k => getPowerMultipole E s k ((i : Int) * dell s.symmetric))
              xi bypass).2.1 } ∧
        (transform E s interpolate bypass).2.xiMoments[i]?
          = some (E.amtTransform amt
              (if interpolate = true then
                fun k => getSavedPowerMultipole E (initPowerMultipoles E s).2 k
                  ((i : Int) * dell s.symmetric)
              else fun k => getPowerMultipole E s k ((i : Int) * dell s.symmetric))
              xi bypass).2.2 := by
  obtain ⟨hsz, hbl, htr, hxi, hT⟩ := transform_eq_loop E s interpolate bypass h.1
  obtain ⟨-, hslots⟩ := transformLoop_spec E interpolate bypass _ hsz
  have hb2 := transformLoop_blank E interpolate bypass
    (ellLoop (if interpolate = true then (initPowerMultipoles E s).2 else s).ellMax
      (if interpolate = true then (initPowerMultipoles E s).2 else s).symmetric 0)
    (true, if interpolate = true then (initPowerMultipoles E s).2 else s)
  obtain ⟨-, -, hbe, hbs, -⟩ := blankSlots_fields hbl
  have hbe2 : (if interpolate = true then (initPowerMultipoles E s).2 else s).ellMax = s.ellMax :=
    hbe
  have hbs2 : (if interpolate = true then (initPowerMultipoles E s).2 else s).symmetric
      = s.symmetric := hbs
  have hlen := (transform_invariant E s interpolate bypass h).1.transformer_length
  obtain ⟨-, -, pe, ps, -⟩ := blankSlots_fields (hb2.trans hbl)
  rw [hT] at hlen
  rw [hT]
  refine ⟨hb2.trans hbl, ?_, ?_⟩
  · rw [hlen, pe, ps, h.1.transformer_length]
  · intro i hi
    obtain ⟨out, amt, c1, c2, c3, c4, -⟩ := hslots i (by rw [hbe2, hbs2]; exact hi)
    rw [htr] at c2
    have hx : i < s.xiMoments.length := by rw [h.1.xiMoments_length]; exact hi
    have c5 : s.xiMoments[i]? = some s.xiMoments[i] := List.getElem?_eq_getElem hx
    have c6 : transformCall E interpolate bypass
        (if interpolate = true then (initPowerMultipoles E s).2 else s) i
        = some (E.amtTransform amt
              (if interpolate = true then
                fun k => getSavedPowerMultipole E (initPowerMultipoles E s).2 k
                  ((i : Int) * dell s.symmetric)
              else fun k => getPowerMultipole E s k ((i : Int) * dell s.symmetric))
              s.xiMoments[i] bypass) := by
      unfold transformCall
      rw [htr, hxi, c2, c5, hbs2]
      cases interpolate <;> rfl
    rw [c6] at c1
    have c7 := Option.some.inj c1
    rw [← c7] at c3 c4
    exact ⟨amt, s.xiMoments[i], c2, c5, c3, c4⟩

/-- C19. For every object reached from a construction and both values of each flag, `transform`
leaves every transformer's kind, order, normalization, r grid and tolerances, the recorded
`(r, mu, fraction)` of every multipole, the k and r grids and the initialized flag as they were.
With `interpolatePowerMultipoles = false` the cache is also as it was and slot `i` receives the
output of its transformer on `getPowerMultipole(., i*dell)`; with `interpolatePowerMultipoles =
true` the cache is the rebuilt one, every slot of which holds the table of its own order, and slot
`i` receives the output of its transformer on `getSavedPowerMultipole(., i*dell)` of the rebuilt
cache. -/
theorem transform_never_recalibrates [FloorRing α] (E : Collaborators α σ) (power : α → α)
    (distortion : α → α → α) (klo khi : α) (nk : Int) (rmin rmax : α) (nr : Int) (ellMax : Int)
    (symmetric : Bool) (relerr abserr abspow : α) (s0 s : DistortedPowerCorrelation α σ)
    (h0 : construct E power distortion klo khi nk rmin rmax nr ellMax symmetric
      relerr abserr abspow = .ok s0)
    (hs : Reachable E s0 s) (interpolate bypass : Bool) :
    (∀ i, i < (1 + ellMax.tdiv (dell symmetric)).toNat →
      ∃ amt amt2, s.transformer[i]? = some amt ∧
        (transform E s interpolate bypass).2.transformer[i]? = some amt2 ∧
        amt2.kind = amt.kind ∧ amt2.ell = amt.ell ∧ amt2.coef = amt.coef ∧
        amt2.rgrid = amt.rgrid ∧ amt2.relerr = amt.relerr ∧ amt2.abserr = amt.abserr ∧
        amt2.abspow = amt.abspow) ∧
    (transform E s interpolate bypass).2.transformer.length = s.transformer.length ∧
    ((transform E s interpolate bypass).2.rbig = s.rbig ∧
      (transform E s interpolate bypass).2.mubig = s.mubig ∧
      (transform E s interpolate bypass).2.relbig = s.relbig) ∧
    ((transform E s interpolate bypass).2.kgrid = s.kgrid ∧
      (transform E s interpolate bypass).2.rgrid = s.rgrid) ∧
    (transform E s interpolate bypass).2.initialized = s.initialized ∧
    (interpolate = false →
      (transform E s interpolate bypass).2.savedPowerMultipole = s.savedPowerMultipole ∧
      ∀ i, i < (1 + ellMax.tdiv (dell symmetric)).toNat →
        ∃ amt xi, s.transformer[i]? = some amt ∧ s.xiMoments[i]? = some xi ∧
          (transform E s interpolate bypass).2.xiMoments[i]?
            = some (E.amtTransform amt
                (fun k => getPowerMultipole E s k ((i : Int) * dell symmetric)) xi bypass).2.2) ∧
    (interpolate = true →
      (transform E s interpolate bypass).2.savedPowerMultipole
        = (initPowerMultipoles E s).2.savedPowerMultipole ∧
      ∀ i, i < (1 + ellMax.tdiv (dell symmetric)).toNat →
        (transform E s interpolate bypass).2.savedPowerMultipole[i]?
          = some (some (powerMultipoleTable E s i)) ∧
        (∀ k, getSavedPowerMultipole E (initPowerMultipoles E s).2 k ((i : Int) * dell symmetric)
          = .ok (E.tabulatedPower (powerMultipoleTable E s i) k)) ∧
        ∃ amt xi, s.transformer[i]? = some amt ∧ s.xiMoments[i]? = some xi ∧
          (transform E s interpolate bypass).2.xiMoments[i]?
            = some (E.amtTransform amt
                (fun k => getSavedPowerMultipole E (initPowerMultipoles E s).2 k
                  ((i : Int) * dell symmetric)) xi bypass).2.2) := by
  obtain ⟨-, -, -, he0, hs0, -, -, -, -, -, -, -, -, hsv, -⟩ := construct_ok h0
  obtain ⟨⟨-, -, -, -, -, -, hm⟩, -⟩ := construct_ok h0
  have hI0 := construct_invariant h0
  have hlen0 : s0.savedPowerMultipole.length
      = (1 + s0.ellMax.tdiv (dell s0.symmetric)).toNat := by
    rw [hsv, List.length_map, ellLoop_length symmetric hm, he0, hs0]
  obtain ⟨hI, hlen, -⟩ := reachable_cached E hI0 hlen0 hs
  obtain ⟨-, -, -, he, hsym, -⟩ := reachable_invariant E hI0 hs
  have hE : s.ellMax = ellMax := he.trans he0
  have hS : s.symmetric = symmetric := hsym.trans hs0
  obtain ⟨hb, hl, hslots⟩ := transform_slots E s interpolate bypass hI
  obtain ⟨saved, -, hp, hall⟩ := initPowerMultipoles_cached E s hI.1.1 hlen
  rw [hE, hS] at hslots hall
  obtain ⟨-, -, -, -, -, -, -, b8, b9, -, b11, b12, b13, b14, b15⟩ := blankSlots_fields hb
  refine ⟨?_, hl, ⟨b13, b14, b15⟩, ⟨b9, b11⟩, b8, ?_, ?_⟩
  · intro i hi
    obtain ⟨amt, xi, c1, -, c3, -⟩ := hslots i hi
    exact ⟨amt, _, c1, c3, rfl, rfl, rfl, rfl, rfl, rfl, rfl⟩
  · intro hf
    subst hf
    refine ⟨b12, ?_⟩
    intro i hi
    obtain ⟨amt, xi, c1, c2, -, c4⟩ := hslots i hi
    exact ⟨amt, xi, c1, c2, c4⟩
  · intro hf
    subst hf
    have b12b : (transform E s true bypass).2.savedPowerMultipole
        = (initPowerMultipoles E s).2.savedPowerMultipole := b12
    refine ⟨b12b, ?_⟩
    intro i hi
    obtain ⟨amt, xi, c1, c2, -, c4⟩ := hslots i hi
    have hc : Cached E { s with savedPowerMultipole := saved } := by
      intro j hj
      exact hall j (by rw [← hE, ← hS]; exact hj)
    have hget := getSavedPowerMultipole_cached E { s with savedPowerMultipole := saved } hc
      hI.1.1 i (by rw [← hE, ← hS] at hi; exact hi)
    refine ⟨?_, ?_, amt, xi, c1, c2, c4⟩
    · rw [b12b, hp]
      exact hall i hi
    · intro k
      rw [hp, ← hS]
      exact hget k

/-- C19 at the hand-made object, with cache refresh and without bypassing the termination
test. -/
theorem transform_never_recalibrates_witness :
    (∀ i, i < (1 + (2 : Int).tdiv (dell true)).toNat →
      ∃ amt amt2, exampleObject.transformer[i]? = some amt ∧
        (transform exampleCollaborators exampleObject true false).2.transformer[i]? = some amt2 ∧
        amt2.kind = amt.kind ∧ amt2.ell = amt.ell ∧ amt2.coef = amt.coef ∧
        amt2.rgrid = amt.rgrid ∧ amt2.relerr = amt.relerr ∧ amt2.abserr = amt.abserr ∧
        amt2.abspow = amt.abspow) ∧
    (transform exampleCollaborators exampleObject true false).2.transformer.length
      = exampleObject.transformer.length ∧
    ((transform exampleCollaborators exampleObject true false).2.rbig = exampleObject.rbig ∧
      (transform exampleCollaborators exampleObject true false).2.mubig = exampleObject.mubig ∧
      (transform exampleCollaborators exampleObject true false).2.relbig = exampleObject.relbig) ∧
    ((transform exampleCollaborators exampleObject true false).2.kgrid = exampleObject.kgrid ∧
      (transform exampleCollaborators exampleObject true false).2.rgrid = exampleObject.rgrid) ∧
    (transform exampleCollaborators exampleObject true false).2.initialized
      = exampleObject.initialized ∧
    (true = false →
      (transform exampleCollaborators exampleObject true false).2.savedPowerMultipole
        = exampleObject.savedPowerMultipole ∧
      ∀ i, i < (1 + (2 : Int).tdiv (dell true)).toNat →
        ∃ amt xi, exampleObject.transformer[i]? = some amt ∧
          exampleObject.xiMoments[i]? = some xi ∧
          (transform exampleCollaborators exampleObject true false).2.xiMoments[i]?
            = some (exampleCollaborators.amtTransform amt
                (fun k => getPowerMultipole exampleCollaborators exampleObject k
                  ((i : Int) * dell true)) xi false).2.2) ∧
    (true = true →
      (transform exampleCollaborators exampleObject true false).2.savedPowerMultipole
        = (initPowerMultipoles exampleCollaborators exampleObject).2.savedPowerMultipole ∧
      ∀ i, i < (1 + (2 : Int).tdiv (dell true)).toNat →
        (transform exampleCollaborators exampleObject true false).2.savedPowerMultipole[i]?
          = some (some (powerMultipoleTable exampleCollaborators exampleObject i)) ∧
        (∀ k, getSavedPowerMultipole exampleCollaborators
            (initPowerMultipoles exampleCollaborators exampleObject).2 k ((i : Int) * dell true)
          = .ok (exampleCollaborators.tabulatedPower
              (powerMultipoleTable exampleCollaborators exampleObject i) k)) ∧
        ∃ amt xi, exampleObject.transformer[i]? = some amt ∧
          exampleObject.xiMoments[i]? = some xi ∧
          (transform exampleCollaborators exampleObject true false).2.xiMoments[i]?
            = some (exampleCollaborators.amtTransform amt
                (fun k => getSavedPowerMultipole exampleCollaborators
                  (initPowerMultipoles exampleCollaborators exampleObject).2 k
                  ((i : Int) * dell true)) xi false).2.2) :=
  transform_never_recalibrates exampleCollaborators (fun _ => 1)
    (fun _ mu => 7 / 2 - 3 / 2 * mu ^ 2) 1 10 2 1 2 2 2 true (1 / 100) (1 / 1000) 0
    exampleObject exampleObject exampleObject_constructed Reachable.start true false

/-! ## The last multipole loop of initialize -/

/-- One pass of the last loop of `initialize`, at the `k`-th order: the transformer left in slot
`k` has the constructor arguments the loop body computes. -/
theorem retuneStep_retuned (E : Collaborators α σ) (margin vepsMax vepsMin : α) (optimize : Bool)
    (t : DistortedPowerCorrelation α σ) (k : Nat) (hk1 : k < t.transformer.length)
    (hk2 : k < t.xiMoments.length) :
    ∃ amt,
      (retuneStep E margin vepsMax vepsMin optimize t ((k : Int) * dell t.symmetric)).transformer[k]?
        = some amt ∧ RetunedFor E t k amt := by
  have hxi : t.xiMoments[k]? = some (t.xiMoments[k]) := List.getElem?_eq_getElem hk2
  unfold retuneStep
  simp only [slotIndex_mul, Int.toNat_ofNat]
  rw [initializeSlot_eq E margin vepsMax vepsMin optimize _ (k : Int) _ _ (t.xiMoments[k])
    (by simp only [Int.toNat_ofNat]; exact List.getElem?_set_self hk1)
    (by simp only [Int.toNat_ofNat]; exact hxi)]
  simp only [Int.toNat_ofNat]
  refine ⟨_, List.getElem?_set_self (by simpa using hk1), ?_⟩
  exact ⟨rfl, rfl, rfl, rfl, rfl, rfl, rfl⟩

/-- The last loop of `initialize` leaves in every slot the transformer its body constructs for
that slot, from the fractions recorded before the loop. -/
theorem retunePass_retuned (E : Collaborators α σ) (margin vepsMax vepsMin : α)
    (optimize : Bool) (s : DistortedPowerCorrelation α σ) (h : Sized s) :
    ∀ j, j < (1 + s.ellMax.tdiv (dell s.symmetric)).toNat →
      ∃ amt, (retunePass E margin vepsMax vepsMin optimize s).transformer[j]? = some amt ∧
        RetunedFor E s j amt := by
  have hprog := foldl_range_progress
    (fun k t => blankSlots t = blankSlots s ∧
      t.transformer.length = s.transformer.length ∧ t.xiMoments.length = s.xiMoments.length ∧
      t.interpolator.length = s.interpolator.length ∧
      ∀ j, j < k → ∃ amt, t.transformer[j]? = some amt ∧ RetunedFor E s j amt)
    (fun t (i : Nat) =>
      retuneStep E margin vepsMax vepsMin optimize t ((i : Int) * dell s.symmetric))
    (1 + s.ellMax.tdiv (dell s.symmetric)).toNat
    (by
      intro k t hk ⟨hb, h1, h2, h3, hslots⟩
      have hsym : s.symmetric = t.symmetric := (blankSlots_fields hb).2.2.2.1.symm
      simp only [hsym]
      obtain ⟨-, -, hother, l1, l2, l3⟩ :=
        retuneStep_slot E margin vepsMax vepsMin optimize t k
          (by rw [h1, h.2]; exact hk) (by rw [h2, h.3]; exact hk) (by rw [h3, h.4]; exact hk)
      obtain ⟨amt, hamt, htuned⟩ := retuneStep_retuned E margin vepsMax vepsMin optimize t k
          (by rw [h1, h.2]; exact hk) (by rw [h2, h.3]; exact hk)
      refine ⟨(retuneStep_blank E margin vepsMax vepsMin optimize t _).trans hb,
        l1.trans h1, l2.trans h2, l3.trans h3, ?_⟩
      intro j hj
      by_cases hjk : j = k
      · subst hjk
        refine ⟨amt, hamt, ?_⟩
        have ht : RetunedFor E (blankSlots t) j amt := htuned
        rw [hb] at ht
        exact ht
      · have hlt : j < k := by omega
        rw [(hother j hjk).2]
        exact hslots j hlt)
    s ⟨rfl, rfl, rfl, rfl, fun j hj => absurd hj (Nat.not_lt_zero j)⟩
  unfold retunePass
  rw [ellLoop_foldl _ s s.symmetric h.1]
  exact hprog.2.2.2.2

/-- The absolute tolerances of transformers that all have the tolerance `c` sum to the number of
transformers times `c`. -/
theorem sum_abserr_shares (l : List (AdaptiveMultipoleTransform α σ)) (c : α)
    (h : ∀ amt ∈ l, amt.abserr = c) :
    (l.map (fun amt => amt.abserr)).sum = (l.length : α) * c := by
  induction l with
  | nil => simp
  | cons a l ih =>
    rw [List.map_cons, List.sum_cons, ih (fun amt hamt => h amt (List.mem_cons_of_mem a hamt)),
      h a (List.mem_cons_self a l), List.length_cons]
    push_cast
    ring

/-- C17. In a call of `initialize` that passes the validation, on an object reached from a
construction, let `s2` be the object when the last multipole loop starts. The call ends with
that loop. For every active multipole `i*dell` the transformer the loop leaves in slot `i` is a
spherical-Bessel transformer of that same order, on the r grid and with `abspow`, with relative
tolerance `relerr/N/f` when the recorded fraction `f` of the slot is positive and `relerr/N` when
it is 0 (it is never negative, and `N >= 1`, so no division by zero occurs), and with absolute
tolerance `abserr/N`, where `N = 1 + ellMax/dell`; the absolute tolerances of all slots sum to
`abserr`. -/
theorem retune_budget [FloorRing α] (E : Collaborators α σ) (power : α → α)
    (distortion : α → α → α) (klo khi : α) (nk : Int) (rmin rmax : α) (nr : Int) (ellMax : Int)
    (symmetric : Bool) (relerr abserr abspow : α) (s0 s s2 : DistortedPowerCorrelation α σ)
    (h0 : construct E power distortion klo khi nk rmin rmax nr ellMax symmetric
      relerr abserr abspow = .ok s0)
    (hs : Reachable E s0 s) (nmu : Int) (margin vepsMax vepsMin : α) (optimize : Bool)
    (stack : α) (hv : ¬ (nmu < 2 ∨ margin < 1 ∨ vepsMax ≤ vepsMin ∨ vepsMin ≤ 0))
    (hs2 : s2 = calibrationSweep E
      (coarsePass E margin vepsMax vepsMin (initPowerMultipoles E s).2) nmu stack) :
    (initializeObj E s nmu margin vepsMax vepsMin optimize stack).2
      = { retunePass E margin vepsMax vepsMin optimize s2 with initialized := true } ∧
    (0 : α) < ((1 + ellMax.tdiv (dell symmetric) : Int) : α) ∧
    (initializeObj E s nmu margin vepsMax vepsMin optimize stack).2.transformer.length
      = (1 + ellMax.tdiv (dell symmetric)).toNat ∧
    (initializeObj E s nmu margin vepsMax vepsMin optimize stack).2.relbig = s2.relbig ∧
    (∀ i, i < (1 + ellMax.tdiv (dell symmetric)).toNat →
      ∃ amt,
        (initializeObj E s nmu margin vepsMax vepsMin optimize stack).2.transformer[i]?
          = some amt ∧
        amt.kind = .SphericalBessel ∧ amt.ell = (i : Int) * dell symmetric ∧
        amt.coef = E.multipoleTransformNormalization ((i : Int) * dell symmetric) 3 1 ∧
        amt.rgrid = s0.rgrid ∧ amt.abspow = abspow ∧
        0 ≤ s2.relbig.getD i 0 ∧
        (0 < s2.relbig.getD i 0 →
          amt.relerr = relerr / ((1 + ellMax.tdiv (dell symmetric) : Int) : α)
            / s2.relbig.getD i 0) ∧
        (s2.relbig.getD i 0 = 0 →
          amt.relerr = relerr / ((1 + ellMax.tdiv (dell symmetric) : Int) : α)) ∧
        amt.abserr = abserr / ((1 + ellMax.tdiv (dell symmetric) : Int) : α)) ∧
    ((initializeObj E s nmu margin vepsMax vepsMin optimize stack).2.transformer.map
      (fun amt => amt.abserr)).sum = abserr := by
  obtain ⟨⟨-, -, -, -, -, -, hm⟩, -, -, he0, hs0, hr0, ha0, hp0, -⟩ := construct_ok h0
  have hI0 := construct_invariant h0
  obtain ⟨hI, -, -, he, hsym, hrel, habs, hpow, -, -, hrg⟩ := reachable_invariant E hI0 hs
  obtain ⟨saved, -, hp⟩ := initPowerMultipoles_frame E s
  have hsz2 : Sized s2 := by
    rw [hs2, hp]
    exact calibrationSweep_sized E _ nmu stack
      (coarsePass_sized E margin vepsMax vepsMin _ (hI.withSaved saved).1)
  have hb2 : blankSlots (coarsePass E margin vepsMax vepsMin (initPowerMultipoles E s).2)
      = blankSlots { s with savedPowerMultipole := saved } := by
    rw [hp]
    exact coarseLoop_blank E margin vepsMax vepsMin _ _
  obtain ⟨-, -, c3, c4, c5, c6, c7, -, -, -, c11, -⟩ := blankSlots_fields hb2
  have e3 : s2.ellMax = ellMax := by rw [hs2]; exact c3.trans (he.trans he0)
  have e4 : s2.symmetric = symmetric := by rw [hs2]; exact c4.trans (hsym.trans hs0)
  have e5 : s2.relerr = relerr := by rw [hs2]; exact c5.trans (hrel.trans hr0)
  have e6 : s2.abserr = abserr := by rw [hs2]; exact c6.trans (habs.trans ha0)
  have e7 : s2.abspow = abspow := by rw [hs2]; exact c7.trans (hpow.trans hp0)
  have e11 : s2.rgrid = s0.rgrid := by rw [hs2]; exact c11.trans hrg
  obtain ⟨hsz3, -, hb3⟩ := retunePass_calibrated E margin vepsMax vepsMin optimize s2 hsz2
  obtain ⟨-, -, d3, d4, -, -, -, -, -, -, -, -, -, -, d15⟩ := blankSlots_fields hb3
  have hret := retunePass_retuned E margin vepsMax vepsMin optimize s2 hsz2
  rw [e3, e4] at hret
  have hpost : (initializeObj E s nmu margin vepsMax vepsMin optimize stack).2
      = { retunePass E margin vepsMax vepsMin optimize s2 with initialized := true } := by
    simp only [not_or] at hv
    obtain ⟨h1, h2, h3, h4⟩ := hv
    rw [hs2]
    simp only [initializeObj, if_neg h1, if_neg h2, if_neg h3, if_neg h4, hp]
  have hN : 1 ≤ 1 + ellMax.tdiv (dell symmetric) := by
    have := nell_toNat symmetric hm
    omega
  have hNpos : (0 : α) < ((1 + ellMax.tdiv (dell symmetric) : Int) : α) := by
    exact_mod_cast (by omega : (0 : Int) < 1 + ellMax.tdiv (dell symmetric))
  have hlen : (retunePass E margin vepsMax vepsMin optimize s2).transformer.length
      = (1 + ellMax.tdiv (dell symmetric)).toNat := by
    rw [hsz3.transformer_length, d3, d4, e3, e4]
  have hall : ∀ amt ∈ (retunePass E margin vepsMax vepsMin optimize s2).transformer,
      amt.abserr = abserr / ((1 + ellMax.tdiv (dell symmetric) : Int) : α) := by
    intro amt hamt
    obtain ⟨i, hi, hget⟩ := List.getElem_of_mem hamt
    rw [hlen] at hi
    obtain ⟨amt2, g1, g2⟩ := hret i hi
    have g3 : (retunePass E margin vepsMax vepsMin optimize s2).transformer[i]? = some amt := by
      rw [← hget]
      exact List.getElem?_eq_getElem _
    rw [g3] at g1
    obtain ⟨-, -, -, -, -, r6, -⟩ := g2
    rw [← Option.some.inj g1, e3, e4, e6] at r6
    exact r6
  rw [hpost]
  refine ⟨rfl, hNpos, hlen, d15, ?_, ?_⟩
  · intro i hi
    obtain ⟨amt, g1, r1, r2, r3, r4, r5, r6, r7⟩ := hret i hi
    rw [e3, e4] at r5 r6
    rw [e4] at r2 r3
    have hil : i < s2.relbig.length := by
      rw [hsz2.relbig_length, e3, e4]; exact hi
    have hnn : 0 ≤ s2.relbig.getD i 0 := by
      rw [List.getD_eq_getElem _ _ hil]
      exact hsz2.relbig_nonneg _ (List.getElem_mem _)
    refine ⟨amt, g1, r1, r2, r3, r4.trans e11, r7.trans e7, hnn, ?_, ?_, r6.trans (by rw [e6])⟩
    · intro hpos
      rw [r5, if_pos hpos, e5]
    · intro hz
      rw [r5, if_neg (by rw [hz]; exact lt_irrefl 0), e5]
  · show ((retunePass E margin vepsMax vepsMin optimize s2).transformer.map _).sum = abserr
    rw [sum_abserr_shares _ _ hall, hlen]
    have hcast : (((1 + ellMax.tdiv (dell symmetric)).toNat : Nat) : α)
        = ((1 + ellMax.tdiv (dell symmetric) : Int) : α) := by
      have : (((1 + ellMax.tdiv (dell symmetric)).toNat : Nat) : Int)
          = 1 + ellMax.tdiv (dell symmetric) := Int.toNat_of_nonneg (by omega)
      exact_mod_cast this
    rw [hcast, mul_div_cancel₀ _ hNpos.ne']

/-- C17 at the hand-made object: `initialize(nmu = 2, margin = 1, vepsMax = 1, vepsMin = 1/2,
optimize = false)`, where the last loop starts from the object with the fractions `3/2` and
`1/2`. -/
theorem retune_budget_witness :
    (initializeObj exampleCollaborators exampleObject 2 1 1 (1 / 2) false 0).2
      = { retunePass exampleCollaborators 1 1 (1 / 2) false exampleSwept
          with initialized := true } ∧
    (0 : ℚ) < ((1 + (2 : Int).tdiv (dell true) : Int) : ℚ) ∧
    (initializeObj exampleCollaborators exampleObject 2 1 1 (1 / 2) false 0).2.transformer.length
      = (1 + (2 : Int).tdiv (dell true)).toNat ∧
    (initializeObj exampleCollaborators exampleObject 2 1 1 (1 / 2) false 0).2.relbig
      = exampleSwept.relbig ∧
    (∀ i, i < (1 + (2 : Int).tdiv (dell true)).toNat →
      ∃ amt,
        (initializeObj exampleCollaborators exampleObject 2 1 1 (1 / 2) false 0).2.transformer[i]?
          = some amt ∧
        amt.kind = .SphericalBessel ∧ amt.ell = (i : Int) * dell true ∧
        amt.coef = exampleCollaborators.multipoleTransformNormalization ((i : Int) * dell true) 3 1 ∧
        amt.rgrid = exampleObject.rgrid ∧ amt.abspow = 0 ∧
        0 ≤ exampleSwept.relbig.getD i 0 ∧
        (0 < exampleSwept.relbig.getD i 0 →
          amt.relerr = (1 / 100 : ℚ) / ((1 + (2 : Int).tdiv (dell true) : Int) : ℚ)
            / exampleSwept.relbig.getD i 0) ∧
        (exampleSwept.relbig.getD i 0 = 0 →
          amt.relerr = (1 / 100 : ℚ) / ((1 + (2 : Int).tdiv (dell true) : Int) : ℚ)) ∧
        amt.abserr = (1 / 1000 : ℚ) / ((1 + (2 : Int).tdiv (dell true) : Int) : ℚ)) ∧
    ((initializeObj exampleCollaborators exampleObject 2 1 1 (1 / 2) false 0).2.transformer.map
      (fun amt => amt.abserr)).sum = 1 / 1000 :=
  retune_budget exampleCollaborators (fun _ => 1)
    (fun _ mu => 7 / 2 - 3 / 2 * mu ^ 2) 1 10 2 1 2 2 2 true (1 / 100) (1 / 1000) 0
    exampleObject exampleObject exampleSwept exampleObject_constructed Reachable.start
    2 1 1 (1 / 2) false 0 (by norm_num)
    (by rw [example_initPowerMultipoles, example_coarsePass, example_calibrationSweep])

/-! ## The skip test of the (r,mu) loop -/

theorem exampleNull_ellLoop : ellLoop 0 false 0 = [0] := by
  rw [ellLoop_zero false (by decide)]
  decide

theorem exampleNull_constructed :
    construct exampleCollaborators (fun _ => 0) (fun _ _ => 1) 1 10 2 1 2 2 0 false
      (1 / 100) 0 0 = .ok exampleNull := by
  have hlog : Nat.log 10 10 = 1 :=
    Nat.log_eq_of_pow_le_of_lt_pow (by norm_num) (by norm_num)
  simp [construct, exampleNull_ellLoop, exampleNull, exampleCollaborators, dell, List.range_succ,
    hlog]
  norm_num

theorem exampleNull_coarsePass :
    coarsePass exampleCollaborators 1 1 (1 / 2)
      (initPowerMultipoles exampleCollaborators exampleNull).2 = exampleNullCoarse := by
  have h1 : initPowerMultipoles exampleCollaborators exampleNull
      = (.ok (), { exampleNull with
          savedPowerMultipole :=
            [some { k := [1, 10], Pk := [0, 0], extrapolateBelow := true,
                    extrapolateAbove := true }] }) := by
    simp [initPowerMultipoles, initPowerMultipolesStep, pgridLoop, getPowerMultipole, invalidEll,
      slotIndex, exampleNull, exampleCollaborators, exampleNull_ellLoop]
  rw [h1]
  have hl : ellLoop exampleNull.ellMax exampleNull.symmetric 0 = [0] := exampleNull_ellLoop
  simp only [coarsePass, hl]
  simp [coarseStep, initializeSlot, getSavedPowerMultipole, invalidEll,
    slotIndex, dell, exampleNull, exampleNullCoarse, exampleCollaborators,
    exampleAtOne, exampleLookup]

/-- C16 as stated fails: the constructor accepts `abserr = 0`. On the object with no power,
constructed with `abserr = 0`, `initialize(2, 1, 1, 1/2, false)` passes the validation; at the
first point `(r, mu) = (1, 1)` of the (r,mu) loop, entered with 0 in `xisum`, the sum is 0, the
test `|0| < 0 * pow(1, 0)` is false, so the point is not skipped and the update loop divides by
0. -/
theorem sweep_divides_by_zero :
    construct exampleCollaborators (fun _ => 0) (fun _ _ => 1) 1 10 2 1 2 2 0 false
      (1 / 100) 0 0 = .ok exampleNull ∧
    (initializeObj exampleCollaborators exampleNull 2 1 1 (1 / 2) false 0).1 = .ok () ∧
    coarsePass exampleCollaborators 1 1 (1 / 2)
      (initPowerMultipoles exampleCollaborators exampleNull).2 = exampleNullCoarse ∧
    exampleNullCoarse.rgrid.head? = some 1 ∧
    (sweepMu exampleNullCoarse.symmetric 2 0 : ℚ) = 1 ∧
    (sweepTerms exampleCollaborators exampleNullCoarse 1 1
      { contribution := [0], xisum := 0, rbig := [0], mubig := [0], relbig := [0] }).xisum = 0 ∧
    ¬ (|(sweepTerms exampleCollaborators exampleNullCoarse 1 1
          { contribution := [0], xisum := 0, rbig := [0], mubig := [0], relbig := [0] }).xisum|
        < exampleNullCoarse.abserr
          * exampleCollaborators.pow 1 exampleNullCoarse.abspow) ∧
    sweepPoint exampleCollaborators exampleNullCoarse 1 1 1
        { contribution := [0], xisum := 0, rbig := [0], mubig := [0], relbig := [0] }
      = sweepUpdate 1 1 1 (sweepTerms exampleCollaborators exampleNullCoarse 1 1
          { contribution := [0], xisum := 0, rbig := [0], mubig := [0], relbig := [0] }) := by
  have hx : (sweepTerms exampleCollaborators exampleNullCoarse 1 1
      { contribution := [0], xisum := 0, rbig := [0], mubig := [0], relbig := [0] }).xisum
      = 0 := by
    have hl : ellLoop exampleNullCoarse.ellMax exampleNullCoarse.symmetric 0 = [0] :=
      exampleNull_ellLoop
    simp only [sweepTerms, hl]
    simp [interpolatorAt, slotIndex, exampleNull, exampleNullCoarse, exampleCollaborators,
      exampleLookup, exampleLegendre]
  have hskip : ¬ (|(sweepTerms exampleCollaborators exampleNullCoarse 1 1
          { contribution := [0], xisum := 0, rbig := [0], mubig := [0], relbig := [0] }).xisum|
        < exampleNullCoarse.abserr
          * exampleCollaborators.pow 1 exampleNullCoarse.abspow) := by
    rw [hx]
    simp [exampleNullCoarse, exampleNull]
  refine ⟨exampleNull_constructed, ?_, exampleNull_coarsePass, rfl, ?_, hx, hskip, ?_⟩
  · exact (initializeObj_outcome exampleCollaborators exampleNull 2 1 1 (1 / 2) false 0).2
      (by norm_num)
  · simp [sweepMu]
  · rw [sweepPoint]
    exact if_neg hskip

/-- C16, with the condition it needs. On an object constructed with `abserr > 0`, by a
`std::pow` that is positive on positive radii, in any call of `initialize`: at every point of the
(r,mu) loop, whatever the loop variables hold, either the point is skipped and no division is
made, or the sum `xisum` that the update loop divides by is not 0. -/
theorem sweep_divisor_nonzero [FloorRing α] (E : Collaborators α σ)
    (hpow : ∀ x y : α, 0 < x → 0 < E.pow x y) (power : α → α)
    (distortion : α → α → α) (klo khi : α) (nk : Int) (rmin rmax : α) (nr : Int) (ellMax : Int)
    (symmetric : Bool) (relerr abserr abspow : α) (s0 s s1 : DistortedPowerCorrelation α σ)
    (h0 : construct E power distortion klo khi nk rmin rmax nr ellMax symmetric
      relerr abserr abspow = .ok s0)
    (habs : 0 < abserr) (hs : Reachable E s0 s) (margin vepsMax vepsMin : α)
    (hs1 : s1 = coarsePass E margin vepsMax vepsMin (initPowerMultipoles E s).2) :
    ∀ r ∈ s1.rgrid, ∀ (mu : α) (w : Sweep α),
      (|(sweepTerms E s1 r mu w).xisum| < s1.abserr * E.pow r s1.abspow ∧
        sweepPoint E s1 (1 + ellMax.tdiv (dell symmetric)) r mu w = sweepTerms E s1 r mu w) ∨
      ((sweepTerms E s1 r mu w).xisum ≠ 0 ∧
        sweepPoint E s1 (1 + ellMax.tdiv (dell symmetric)) r mu w
          = sweepUpdate (1 + ellMax.tdiv (dell symmetric)) r mu (sweepTerms E s1 r mu w)) := by
  obtain ⟨⟨-, -, -, hr1, hr2, hnr, -⟩, -, -, -, -, -, ha0, -, -, hrg0, -⟩ := construct_ok h0
  obtain ⟨-, -, -, -, -, -, habs1, -, -, -, hrg⟩ :=
    reachable_invariant E (construct_invariant h0) hs
  obtain ⟨saved, -, hp⟩ := initPowerMultipoles_frame E s
  have hb : blankSlots s1 = blankSlots { s with savedPowerMultipole := saved } := by
    rw [hs1, hp]
    exact coarseLoop_blank E margin vepsMax vepsMin _ _
  obtain ⟨-, -, -, -, -, c6, -, -, -, -, c11, -⟩ := blankSlots_fields hb
  have e6 : s1.abserr = abserr := c6.trans (habs1.trans ha0)
  have e11 : s1.rgrid = (List.range nr.toNat).map
      (fun (i : Nat) => rmin + (rmax - rmin) / ((nr : α) - 1) * (i : α)) :=
    c11.trans (hrg.trans hrg0)
  intro r hr mu w
  have hrpos : 0 < r := by
    rw [e11] at hr
    obtain ⟨i, -, rfl⟩ := List.mem_map.mp hr
    have hnr1 : (0 : α) < (nr : α) - 1 := by
      have : (2 : α) ≤ (nr : α) := by exact_mod_cast hnr
      linarith
    have hd : 0 ≤ (rmax - rmin) / ((nr : α) - 1) * (i : α) :=
      mul_nonneg (div_nonneg (by linarith) hnr1.le) (Nat.cast_nonneg i)
    linarith
  have hthr : 0 < s1.abserr * E.pow r s1.abspow := by
    rw [e6]
    exact mul_pos habs (hpow r _ hrpos)
  by_cases hskip : |(sweepTerms E s1 r mu w).xisum| < s1.abserr * E.pow r s1.abspow
  · left
    refine ⟨hskip, ?_⟩
    rw [sweepPoint]
    exact if_pos hskip
  · right
    refine ⟨?_, ?_⟩
    · intro hz
      rw [hz, abs_zero] at hskip
      exact hskip hthr
    · rw [sweepPoint]
      exact if_neg hskip

/-- C16, amended, at the hand-made object, whose `abserr` is 1/1000, and the first point
`(r, mu) = (1, 1)` of the loop. -/
theorem sweep_divisor_nonzero_witness :
    (|(sweepTerms exampleCollaborators exampleCoarse 1 1
          { contribution := [0, 0], xisum := 0, rbig := [0, 0], mubig := [0, 0],
            relbig := [0, 0] }).xisum|
        < exampleCoarse.abserr * exampleCollaborators.pow 1 exampleCoarse.abspow ∧
      sweepPoint exampleCollaborators exampleCoarse (1 + (2 : Int).tdiv (dell true)) 1 1
          { contribution := [0, 0], xisum := 0, rbig := [0, 0], mubig := [0, 0],
            relbig := [0, 0] }
        = sweepTerms exampleCollaborators exampleCoarse 1 1
          { contribution := [0, 0], xisum := 0, rbig := [0, 0], mubig := [0, 0],
            relbig := [0, 0] }) ∨
    ((sweepTerms exampleCollaborators exampleCoarse 1 1
          { contribution := [0, 0], xisum := 0, rbig := [0, 0], mubig := [0, 0],
            relbig := [0, 0] }).xisum ≠ 0 ∧
      sweepPoint exampleCollaborators exampleCoarse (1 + (2 : Int).tdiv (dell true)) 1 1
          { contribution := [0, 0], xisum := 0, rbig := [0, 0], mubig := [0, 0],
            relbig := [0, 0] }
        = sweepUpdate (1 + (2 : Int).tdiv (dell true)) 1 1
            (sweepTerms exampleCollaborators exampleCoarse 1 1
              { contribution := [0, 0], xisum := 0, rbig := [0, 0], mubig := [0, 0],
                relbig := [0, 0] })) :=
  sweep_divisor_nonzero exampleCollaborators (fun x y hx => pow_pos hx _) (fun _ => 1)
    (fun _ mu => 7 / 2 - 3 / 2 * mu ^ 2) 1 10 2 1 2 2 2 true (1 / 100) (1 / 1000) 0
    exampleObject exampleObject exampleCoarse exampleObject_constructed (by norm_num)
    Reachable.start 1 1 (1 / 2)
    (by rw [example_initPowerMultipoles, example_coarsePass])
    1 (List.mem_cons_self 1 [2]) 1
    { contribution := [0, 0], xisum := 0, rbig := [0, 0], mubig := [0, 0], relbig := [0, 0] }

/-! ## The sum the (r,mu) loop divides by -/

theorem exampleEqual_constructed :
    construct exampleCollaborators (fun _ => 1) (fun _ mu => 1 / 2 + 3 / 2 * mu ^ 2)
      1 10 2 1 2 2 2 true (1 / 100) (1 / 1000) 0 = .ok exampleEqual := by
  have hlog : Nat.log 10 10 = 1 :=
    Nat.log_eq_of_pow_le_of_lt_pow (by norm_num) (by norm_num)
  simp [construct, example_ellLoop, exampleEqual, exampleObject, exampleCollaborators, dell,
    List.range_succ, hlog]
  norm_num

theorem exampleEqual_coarsePass :
    coarsePass exampleCollaborators 1 1 (1 / 2)
      (initPowerMultipoles exampleCollaborators exampleEqual).2 = exampleEqualCoarse := by
  have h1 : initPowerMultipoles exampleCollaborators exampleEqual
      = (.ok (), { exampleEqual with
          savedPowerMultipole :=
            [some { k := [1, 10], Pk := [1, 1], extrapolateBelow := true,
                    extrapolateAbove := true },
             some { k := [1, 10], Pk := [1, 1], extrapolateBelow := true,
                    extrapolateAbove := true }] }) := by
    simp [initPowerMultipoles, initPowerMultipolesStep, pgridLoop, getPowerMultipole, invalidEll,
      slotIndex, exampleEqual, exampleObject, exampleCollaborators, example_ellLoop]
    norm_num
  rw [h1]
  have hl : ellLoop exampleEqual.ellMax exampleEqual.symmetric 0 = [0, 2] := example_ellLoop
  simp only [coarsePass, hl]
  simp [coarseStep, initializeSlot, getSavedPowerMultipole, invalidEll,
    slotIndex, dell, exampleEqual, exampleObject, exampleEqualCoarse, exampleCollaborators,
    exampleAtOne, exampleLookup]

theorem exampleEqual_sweepPoint_first :
    sweepPoint exampleCollaborators exampleEqualCoarse 2 1 1
        { contribution := [0, 0], xisum := 0, rbig := [0, 0], mubig := [0, 0], relbig := [0, 0] }
      = { contribution := [1, 1], xisum := 2, rbig := [1, 1], mubig := [1, 1],
          relbig := [1 / 2, 1 / 2] } := by
  simp [sweepPoint, sweepTerms, sweepUpdate, example_ellLoop, interpolatorAt, slotIndex,
    exampleObject, exampleEqual, exampleEqualCoarse, exampleCollaborators, exampleLookup,
    exampleLegendre, List.range_succ]
  norm_num [abs_of_pos, abs_div]

theorem exampleEqual_sweepPoint_second :
    sweepPoint exampleCollaborators exampleEqualCoarse 2 1 0
        { contribution := [1, 1], xisum := 2, rbig := [1, 1], mubig := [1, 1],
          relbig := [1 / 2, 1 / 2] }
      = { contribution := [1, -1 / 2], xisum := 5 / 2, rbig := [1, 1], mubig := [1, 1],
          relbig := [1 / 2, 1 / 2] } := by
  simp [sweepPoint, sweepTerms, sweepUpdate, example_ellLoop, interpolatorAt, slotIndex,
    exampleObject, exampleEqual, exampleEqualCoarse, exampleCollaborators, exampleLookup,
    exampleLegendre, List.range_succ]
  norm_num [abs_of_pos, abs_div]

theorem exampleEqual_sweepPoint_third :
    sweepPoint exampleCollaborators exampleEqualCoarse 2 2 1
        { contribution := [1, -1 / 2], xisum := 5 / 2, rbig := [1, 1], mubig := [1, 1],
          relbig := [1 / 2, 1 / 2] }
      = { contribution := [1, 1], xisum := 9 / 2, rbig := [1, 1], mubig := [1, 1],
          relbig := [1 / 2, 1 / 2] } := by
  simp [sweepPoint, sweepTerms, sweepUpdate, example_ellLoop, interpolatorAt, slotIndex,
    exampleObject, exampleEqual, exampleEqualCoarse, exampleCollaborators, exampleLookup,
    exampleLegendre, List.range_succ]
  norm_num [abs_of_pos, abs_div]

theorem exampleEqual_sweepPoint_fourth :
    sweepPoint exampleCollaborators exampleEqualCoarse 2 2 0
        { contribution := [1, 1], xisum := 9 / 2, rbig := [1, 1], mubig := [1, 1],
          relbig := [1 / 2, 1 / 2] }
      = { contribution := [1, -1 / 2], xisum := 5, rbig := [1, 1], mubig := [1, 1],
          relbig := [1 / 2, 1 / 2] } := by
  simp [sweepPoint, sweepTerms, sweepUpdate, example_ellLoop, interpolatorAt, slotIndex,
    exampleObject, exampleEqual, exampleEqualCoarse, exampleCollaborators, exampleLookup,
    exampleLegendre, List.range_succ]
  norm_num [abs_of_pos, abs_div]

theorem exampleEqual_calibrationSweep :
    calibrationSweep exampleCollaborators exampleEqualCoarse 2 0 = exampleEqualSwept := by
  have hn : (1 + exampleEqualCoarse.ellMax.tdiv 2) = 2 := by decide
  have hr : exampleEqualCoarse.rgrid = [1, 2] := rfl
  have hb : exampleEqualCoarse.rbig = [0, 0] := rfl
  have hm : exampleEqualCoarse.mubig = [0, 0] := rfl
  have hl : exampleEqualCoarse.relbig = [0, 0] := rfl
  have hd : dell exampleEqualCoarse.symmetric = 2 := rfl
  have hrange : List.range (2 : Int).toNat = [0, 1] := by decide
  have hrep : List.replicate (2 : Int).toNat (0 : ℚ) = [0, 0] := by
    rw [show (2 : Int).toNat = 2 from rfl]
    rfl
  have mu0 : (1 : ℚ) - ((0 : Nat) : ℚ) * (2 / ((2 : Int) : ℚ) / (((2 : Int) : ℚ) - 1)) = 1 := by
    norm_num
  have mu1 : (1 : ℚ) - ((1 : Nat) : ℚ) * (2 / ((2 : Int) : ℚ) / (((2 : Int) : ℚ) - 1)) = 0 := by
    norm_num
  simp only [calibrationSweep, sweep, hd, hn, hr, hb, hm, hl, hrange, hrep, List.foldl_cons,
    List.foldl_nil, List.map_cons, List.map_nil, mu0, mu1]
  rw [exampleEqual_sweepPoint_first, exampleEqual_sweepPoint_second,
    exampleEqual_sweepPoint_third, exampleEqual_sweepPoint_fourth]
  rfl

/-- Past its validation `initialize` is its four phases in order, and then sets the flag. -/
theorem initializeObj_phases (E : Collaborators α σ) (s : DistortedPowerCorrelation α σ)
    (nmu : Int) (margin vepsMax vepsMin : α) (optimize : Bool) (stack : α)
    (hv : ¬ (nmu < 2 ∨ margin < 1 ∨ vepsMax ≤ vepsMin ∨ vepsMin ≤ 0)) :
    (initializeObj E s nmu margin vepsMax vepsMin optimize stack).2
      = { retunePass E margin vepsMax vepsMin optimize
            (calibrationSweep E (coarsePass E margin vepsMax vepsMin (initPowerMultipoles E s).2)
              nmu stack)
          with initialized := true } := by
  obtain ⟨saved, -, hp⟩ := initPowerMultipoles_frame E s
  simp only [not_or] at hv
  obtain ⟨h1, h2, h3, h4⟩ := hv
  simp only [initializeObj, if_neg h1, if_neg h2, if_neg h3, if_neg h4, hp]

/-- C15 fails on the code: the local `xisum` is not reset between points. On the object with
`xi_0 = xi_2 = 1`, constructed and initialized normally with 0 in the storage of `xisum` at the
start, `getBiggestContribution(0)` reports the fraction 1/2 at `(r, mu) = (1, 1)`. At the second
point `(r, mu) = (1, 0)` the terms taken from the interpolators of the first loop are 1 and -1/2;
summed from zero they give `xi_total = 1/2`, which is not below `abserr * pow(1, abspow)`, so the
point is not skipped, and there `|term_0 / xi_total| = 2 > 1/2`. The loop divided by the carried
sum `2 + 1/2` instead. -/
theorem sweep_accumulator_carried :
    construct exampleCollaborators (fun _ => 1) (fun _ mu => 1 / 2 + 3 / 2 * mu ^ 2)
      1 10 2 1 2 2 2 true (1 / 100) (1 / 1000) 0 = .ok exampleEqual ∧
    (initializeObj exampleCollaborators exampleEqual 2 1 1 (1 / 2) false 0).1 = .ok () ∧
    getBiggestContribution
      (initializeObj exampleCollaborators exampleEqual 2 1 1 (1 / 2) false 0).2 0
        = .ok (1, 1, 1 / 2) ∧
    getBiggestContribution
      (initializeObj exampleCollaborators exampleEqual 2 1 1 (1 / 2) false 0).2 2
        = .ok (1, 1, 1 / 2) ∧
    coarsePass exampleCollaborators 1 1 (1 / 2)
      (initPowerMultipoles exampleCollaborators exampleEqual).2 = exampleEqualCoarse ∧
    (1 : ℚ) ∈ exampleEqualCoarse.rgrid ∧
    (sweepMu exampleEqualCoarse.symmetric 2 1 : ℚ) = 0 ∧
    sweepTerms exampleCollaborators exampleEqualCoarse 1 0
        { contribution := [0, 0], xisum := 0, rbig := [0, 0], mubig := [0, 0], relbig := [0, 0] }
      = { contribution := [1, -1 / 2], xisum := 1 / 2, rbig := [0, 0], mubig := [0, 0],
          relbig := [0, 0] } ∧
    ¬ (|(1 / 2 : ℚ)| < exampleEqualCoarse.abserr
        * exampleCollaborators.pow 1 exampleEqualCoarse.abspow) ∧
    (1 / 2 : ℚ) < |1 / (1 / 2)| ∧
    sweepTerms exampleCollaborators exampleEqualCoarse 1 0
        { contribution := [1, 1], xisum := 2, rbig := [1, 1], mubig := [1, 1],
          relbig := [1 / 2, 1 / 2] }
      = { contribution := [1, -1 / 2], xisum := 5 / 2, rbig := [1, 1], mubig := [1, 1],
          relbig := [1 / 2, 1 / 2] } := by
  have hpost := initializeObj_phases exampleCollaborators exampleEqual 2 1 1 (1 / 2) false 0
    (by norm_num)
  rw [exampleEqual_coarsePass, exampleEqual_calibrationSweep] at hpost
  have hb := retuneLoop_blank exampleCollaborators 1 1 (1 / 2) false
    (ellLoop exampleEqualSwept.ellMax exampleEqualSwept.symmetric 0) exampleEqualSwept
  obtain ⟨-, -, b3, b4, -, -, -, -, -, -, -, -, b13, b14, b15⟩ := blankSlots_fields hb
  have hbig : ∀ ell : Int, ell = 0 ∨ ell = 2 →
      getBiggestContribution
        (initializeObj exampleCollaborators exampleEqual 2 1 1 (1 / 2) false 0).2 ell
        = .ok (1, 1, 1 / 2) := by
    intro ell hell
    rw [hpost]
    unfold getBiggestContribution retunePass
    simp only [b3, b4, b13, b14, b15]
    rcases hell with rfl | rfl <;>
      simp [invalidEll, dell, exampleEqualSwept, exampleEqualCoarse, exampleEqual, exampleObject]
  refine ⟨exampleEqual_constructed, ?_, hbig 0 (Or.inl rfl), hbig 2 (Or.inr rfl),
    exampleEqual_coarsePass, ?_, ?_, ?_, ?_, ?_, ?_⟩
  · exact (initializeObj_outcome exampleCollaborators exampleEqual 2 1 1 (1 / 2) false 0).2
      (by norm_num)
  · simp [exampleEqualCoarse, exampleEqual, exampleObject]
  · simp [sweepMu, exampleEqualCoarse, exampleEqual, exampleObject, dell]
    norm_num
  · simp [sweepTerms, example_ellLoop, interpolatorAt, slotIndex,
      exampleObject, exampleEqual, exampleEqualCoarse, exampleCollaborators, exampleLookup,
      exampleLegendre]
    norm_num
  · simp [exampleEqualCoarse, exampleEqual, exampleObject, exampleCollaborators]
    norm_num [abs_of_pos]
  · norm_num [abs_of_pos]
  · simp [sweepTerms, example_ellLoop, interpolatorAt, slotIndex,
      exampleObject, exampleEqual, exampleEqualCoarse, exampleCollaborators, exampleLookup,
      exampleLegendre]
    norm_num

/-! ## The constructor in rounded arithmetic and the range of r -/

/-- With exact arithmetic the rounded constructor is the constructor. -/
theorem constructRounded_exact [FloorRing α] (E : Collaborators α σ) (power : α → α)
    (distortion : α → α → α) (klo khi : α) (nk : Int) (rmin rmax : α) (nr : Int) (ellMax : Int)
    (symmetric : Bool) (relerr abserr abspow : α) :
    constructRounded (fun x => x) E power distortion klo khi nk rmin rmax nr ellMax symmetric
      relerr abserr abspow
      = construct E power distortion klo khi nk rmin rmax nr ellMax symmetric
          relerr abserr abspow := rfl

/-- A successful construction passed the tests, built the r grid by the rounded arithmetic, and
satisfies the invariant. -/
theorem constructRounded_ok [FloorRing α] {fl : α → α} {E : Collaborators α σ} {power : α → α}
    {distortion : α → α → α} {klo khi : α} {nk : Int} {rmin rmax : α} {nr : Int} {ellMax : Int}
    {symmetric : Bool} {relerr abserr abspow : α} {s0 : DistortedPowerCorrelation α σ}
    (h : constructRounded fl E power distortion klo khi nk rmin rmax nr ellMax symmetric
      relerr abserr abspow = .ok s0) :
    (rmin < rmax ∧ 0 < rmin ∧ 2 ≤ nr ∧ 0 ≤ ellMax) ∧
    s0.ellMax = ellMax ∧ s0.symmetric = symmetric ∧
    s0.rgrid = (List.range nr.toNat).map
      (fun (i : Nat) =>
        fl (rmin + fl (fl (fl (rmax - rmin) / fl ((nr : α) - 1)) * (i : α)))) ∧
    Invariant s0 := by
  unfold constructRounded at h
  by_cases h1 : khi ≤ klo
  · simp [h1] at h
  by_cases h2 : klo ≤ 0
  · simp [h1, h2] at h
  by_cases h3 : nk < 2
  · simp [h1, h2, h3] at h
  by_cases h4 : rmax ≤ rmin
  · simp [h1, h2, h3, h4] at h
  by_cases h5 : rmin ≤ 0
  · simp [h1, h2, h3, h4, h5] at h
  by_cases h6 : nr < 2
  · simp [h1, h2, h3, h4, h5, h6] at h
  by_cases h7 : ellMax < 0
  · simp [h1, h2, h3, h4, h5, h6, h7] at h
  by_cases h8 : (symmetric && decide (ellMax.tmod 2 = 1)) = true
  · simp only [h8] at h
    simp [h1, h2, h3, h4, h5, h6, h7] at h
  · rw [if_neg h1, if_neg h2, if_neg h3, if_neg h4, if_neg h5, if_neg h6, if_neg h7,
      if_neg h8] at h
    injection h with h
    subst h
    have hm : 0 ≤ ellMax := not_lt.mp h7
    have hlen := ellLoop_length symmetric hm
    refine ⟨⟨not_le.mp h4, not_le.mp h5, not_lt.mp h6, hm⟩, rfl, rfl, rfl, ⟨⟨hm, ?_, ?_, ?_, ?_,
      ?_, ?_, ?_⟩, ?_⟩⟩
    · simp only [List.length_map]; exact hlen
    · simp only [List.length_map]; exact hlen
    · simp only [List.length_map]; exact hlen
    · simp only [List.length_replicate]
    · simp only [List.length_replicate]
    · simp only [List.length_replicate]
    · intro x hx
      rw [(List.mem_replicate.mp hx).2]
    · intro hi
      exact absurd hi (by simp)

/-- The ends of the r grid of a constructed object: the points of index 0 and `nr - 1`. With
exact arithmetic they are `rmin` and `rmax`; when 0 and `rmin` are values of the arithmetic type
the first is `rmin`; under a monotone rounding the first is not above the last. -/
theorem constructRounded_ends [FloorRing α] {fl : α → α} {E : Collaborators α σ} {power : α → α}
    {distortion : α → α → α} {klo khi : α} {nk : Int} {rmin rmax : α} {nr : Int} {ellMax : Int}
    {symmetric : Bool} {relerr abserr abspow : α} {s0 : DistortedPowerCorrelation α σ}
    (h : constructRounded fl E power distortion klo khi nk rmin rmax nr ellMax symmetric
      relerr abserr abspow = .ok s0) :
    s0.rgrid.head? = some (rgridPoint fl rmin rmax nr 0) ∧
    s0.rgrid.getLast? = some (rgridPoint fl rmin rmax nr ((nr : α) - 1)) ∧
    ((∀ x, fl x = x) →
      rgridPoint fl rmin rmax nr 0 = rmin ∧ rgridPoint fl rmin rmax nr ((nr : α) - 1) = rmax) ∧
    (fl 0 = 0 → fl rmin = rmin → rgridPoint fl rmin rmax nr 0 = rmin) ∧
    (Monotone fl → fl 0 = 0 →
      rgridPoint fl rmin rmax nr 0 ≤ rgridPoint fl rmin rmax nr ((nr : α) - 1)) := by
  obtain ⟨⟨hlt, -, hnr, -⟩, -, -, hr, -⟩ := constructRounded_ok h
  have hn : nr.toNat ≠ 0 := by omega
  have hcast : ((nr.toNat - 1 : Nat) : α) = (nr : α) - 1 := by
    have h1 : 1 ≤ nr.toNat := by omega
    rw [Nat.cast_sub h1, Nat.cast_one]
    congr 1
    have h2 : ((nr.toNat : Int) : α) = (nr : α) := by rw [Int.toNat_of_nonneg (by omega)]
    rw [← h2, Int.cast_natCast]
  have hpos : (0 : α) < (nr : α) - 1 := by
    have h2 : (2 : α) ≤ (nr : α) := by exact_mod_cast hnr
    linarith
  refine ⟨?_, ?_, ?_, ?_, ?_⟩
  · rw [hr, List.head?_map, List.head?_range, if_neg hn]
    simp only [Option.map_some', Nat.cast_zero, rgridPoint, rgridStep]
  · rw [hr, List.getLast?_map, List.getLast?_range, if_neg hn]
    simp only [Option.map_some', hcast, rgridPoint, rgridStep]
  · intro hfl
    simp only [rgridPoint, rgridStep, hfl, mul_zero, add_zero, true_and]
    rw [div_mul_cancel₀ _ hpos.ne']
    ring
  · intro hz hm
    simp only [rgridPoint, mul_zero, hz, add_zero, hm]
  · intro hmono hz
    have h1 : 0 ≤ fl (rmax - rmin) := by
      rw [← hz]
      exact hmono (by linarith)
    have h2 : 0 ≤ fl ((nr : α) - 1) := by
      rw [← hz]
      exact hmono hpos.le
    have h3 : 0 ≤ rgridStep fl rmin rmax nr := by
      unfold rgridStep
      rw [← hz]
      exact hmono (div_nonneg h1 h2)
    unfold rgridPoint
    apply hmono
    have h4 : rgridStep fl rmin rmax nr * 0 ≤ rgridStep fl rmin rmax nr * ((nr : α) - 1) :=
      mul_le_mul_of_nonneg_left hpos.le h3
    linarith [hmono h4]

/-- On an initialized object reached from a construction, `getCorrelationMultipole` at the `i`-th
active order tests `r` against the two ends of the r grid and then evaluates the interpolator of
slot `i`. -/
theorem getCorrelationMultipole_reached [FloorRing α] {fl : α → α} {E : Collaborators α σ}
    {power : α → α}
    {distortion : α → α → α} {klo khi : α} {nk : Int} {rmin rmax : α} {nr : Int} {ellMax : Int}
    {symmetric : Bool} {relerr abserr abspow : α} {s0 s : DistortedPowerCorrelation α σ}
    (h0 : constructRounded fl E power distortion klo khi nk rmin rmax nr ellMax symmetric
      relerr abserr abspow = .ok s0)
    (hs : Reachable E s0 s) (hinit : s.initialized = true)
    (i : Nat) (hi : i < (1 + ellMax.tdiv (dell symmetric)).toNat) (x : α) :
    ∃ interpolator, s.interpolator[i]? = some (some interpolator) ∧
      getCorrelationMultipole E s x ((i : Int) * dell symmetric)
        = if x < rgridPoint fl rmin rmax nr 0 ∨ x > rgridPoint fl rmin rmax nr ((nr : α) - 1) then
            .error (.runtimeError
              "DistortedPowerCorrelation::getCorrelationMultipole: r out of range.")
          else .ok (E.interpolate interpolator x) := by
  obtain ⟨-, he0, hsym0, -, hI0⟩ := constructRounded_ok h0
  obtain ⟨hI, -, -, he, hsym, -, -, -, -, -, hrg⟩ := reachable_invariant E hI0 hs
  obtain ⟨hlo, hhi, -⟩ := constructRounded_ends h0
  rw [← hrg] at hlo hhi
  have hE : s.ellMax = ellMax := he.trans he0
  have hS : s.symmetric = symmetric := hsym.trans hsym0
  have := getCorrelationMultipole_active E s hI hinit _ _ hlo hhi i
    (by rw [hE, hS]; exact hi) x
  rw [hS] at this
  exact this

/-- C6, as the code has it. After `initialize` has returned normally, for every active order
`ell`, `getCorrelationMultipole(r, ell)` returns exactly when `front <= r <= back`, the first and
last elements of the r grid; it throws below `front` and above `back`, and what it returns is the
interpolator of slot `index(ell)` evaluated at `r`. The grid ends are `rmin + dr*0` and
`rmin + dr*(nr-1)` as the arithmetic of the constructor delivers them (`fl` is its rounding): the
first is `rmin` and the call returns at `rmin`; the last is `rmax` in exact arithmetic. -/
theorem getCorrelationMultipole_spec [FloorRing α] (fl : α → α) (E : Collaborators α σ)
    (power : α → α)
    (distortion : α → α → α) (klo khi : α) (nk : Int) (rmin rmax : α) (nr : Int) (ellMax : Int)
    (symmetric : Bool) (relerr abserr abspow : α) (s0 s : DistortedPowerCorrelation α σ)
    (h0 : constructRounded fl E power distortion klo khi nk rmin rmax nr ellMax symmetric
      relerr abserr abspow = .ok s0)
    (hs : Reachable E s0 s) (hinit : s.initialized = true)
    (ell : Int) (hell : 0 ≤ ell ∧ ell ≤ ellMax ∧ (symmetric = true → 2 ∣ ell)) (r : α) :
    ∃ front back : α,
      (s.rgrid.head? = some front ∧ s.rgrid.getLast? = some back ∧
        front = rgridPoint fl rmin rmax nr 0 ∧
        back = rgridPoint fl rmin rmax nr ((nr : α) - 1)) ∧
      ((∀ x, fl x = x) → front = rmin ∧ back = rmax) ∧
      (fl 0 = 0 → fl rmin = rmin → front = rmin) ∧
      (Monotone fl → fl 0 = 0 → front ≤ back) ∧
      (returned (getCorrelationMultipole E s r ell) = true ↔ front ≤ r ∧ r ≤ back) ∧
      (front ≤ back →
        returned (getCorrelationMultipole E s front ell) = true ∧
        returned (getCorrelationMultipole E s back ell) = true) ∧
      (Monotone fl → fl 0 = 0 → fl rmin = rmin →
        returned (getCorrelationMultipole E s rmin ell) = true) ∧
      ((r < front ∨ back < r) →
        ∃ msg, getCorrelationMultipole E s r ell = .error (.runtimeError msg)) ∧
      ((front ≤ r ∧ r ≤ back) →
        ∃ interpolator,
          s.interpolator[(slotIndex symmetric ell).toNat]? = some (some interpolator) ∧
          getCorrelationMultipole E s r ell = .ok (E.interpolate interpolator r)) := by
  obtain ⟨-, -, -, -, hI0⟩ := constructRounded_ok h0
  obtain ⟨hlo, hhi, hexact, hfirst, horder⟩ := constructRounded_ends h0
  obtain ⟨-, -, -, -, -, -, -, -, -, -, hrg⟩ := reachable_invariant E hI0 hs
  rw [← hrg] at hlo hhi
  obtain ⟨i, hi, rfl⟩ := active_slot hell.1 hell.2.1 hell.2.2
  have key := getCorrelationMultipole_reached h0 hs hinit i hi
  generalize rgridPoint fl rmin rmax nr 0 = front at *
  generalize rgridPoint fl rmin rmax nr ((nr : α) - 1) = back at *
  have inside : ∀ x : α, front ≤ x → x ≤ back → ¬ (x < front ∨ x > back) := by
    intro x h1 h2 h3
    rcases h3 with h3 | h3
    · exact absurd h1 (not_le.mpr h3)
    · exact absurd h2 (not_le.mpr h3)
  have ends : front ≤ back →
      returned (getCorrelationMultipole E s front ((i : Int) * dell symmetric)) = true ∧
      returned (getCorrelationMultipole E s back ((i : Int) * dell symmetric)) = true := by
    intro hle
    constructor
    · obtain ⟨it, -, hv⟩ := key front
      rw [hv, if_neg (inside front (le_refl _) hle)]
      rfl
    · obtain ⟨it, -, hv⟩ := key back
      rw [hv, if_neg (inside back hle (le_refl _))]
      rfl
  refine ⟨front, back, ⟨hlo, hhi, rfl, rfl⟩, hexact, hfirst, horder, ?_, ends, ?_, ?_, ?_⟩
  · obtain ⟨it, -, hv⟩ := key r
    rw [hv]
    by_cases hout : r < front ∨ r > back
    · rw [if_pos hout]
      simp only [returned, Bool.false_eq_true, false_iff, not_and, not_le]
      intro h1
      rcases hout with h | h
      · exact absurd h1 (not_le.mpr h)
      · exact h
    · rw [if_neg hout]
      simp only [returned, true_iff]
      simp only [not_or, not_lt] at hout
      exact hout
  · intro hmono hz hm
    have e := hfirst hz hm
    rw [← e]
    exact (ends (horder hmono hz)).1
  · intro hout
    obtain ⟨it, -, hv⟩ := key r
    rw [hv, if_pos hout]
    exact ⟨_, rfl⟩
  · rintro ⟨h1, h2⟩
    obtain ⟨it, hit, hv⟩ := key r
    refine ⟨it, ?_, ?_⟩
    · rw [slotIndex_mul, Int.toNat_ofNat]
      exact hit
    · rw [hv, if_neg (inside r h1 h2)]

/-- On an initialized object reached from a construction, `getCorrelation` at an `r` outside the
ends of the r grid throws what `getCorrelationMultipole` throws at the first order. -/
theorem getCorrelation_out_of_range [FloorRing α] {fl : α → α} {E : Collaborators α σ}
    {power : α → α}
    {distortion : α → α → α} {klo khi : α} {nk : Int} {rmin rmax : α} {nr : Int} {ellMax : Int}
    {symmetric : Bool} {relerr abserr abspow : α} {s0 s : DistortedPowerCorrelation α σ}
    (h0 : constructRounded fl E power distortion klo khi nk rmin rmax nr ellMax symmetric
      relerr abserr abspow = .ok s0)
    (hs : Reachable E s0 s) (hinit : s.initialized = true) (r mu : α)
    (hout : r < rgridPoint fl rmin rmax nr 0 ∨ r > rgridPoint fl rmin rmax nr ((nr : α) - 1))
    (hmu : ¬ (mu < -1 ∨ mu > 1)) :
    getCorrelation E s r mu = .error (.runtimeError
      "DistortedPowerCorrelation::getCorrelationMultipole: r out of range.") := by
  obtain ⟨⟨-, -, -, hm⟩, he0, hsym0, -, hI0⟩ := constructRounded_ok h0
  obtain ⟨hI, -, -, he, hsym, -⟩ := reachable_invariant E hI0 hs
  have hE : s.ellMax = ellMax := he.trans he0
  have hS : s.symmetric = symmetric := hsym.trans hsym0
  have h0pos : 0 < (1 + ellMax.tdiv (dell symmetric)).toNat := by
    rw [nell_toNat symmetric hm]
    exact Nat.succ_pos _
  obtain ⟨it, -, hv⟩ := getCorrelationMultipole_reached h0 hs hinit 0 h0pos r
  rw [if_pos hout] at hv
  simp only [Nat.cast_zero, zero_mul] at hv
  simp only [getCorrelation, hinit, Bool.not_true, Bool.false_eq_true, if_false, if_neg hmu]
  rw [hE, hS, ellLoop_cons symmetric hm]
  simp only [getCorrelationLoop, hv]

/-- C5, as the code has it. After `initialize` has returned normally, for `front <= r <= back`,
the first and last elements of the r grid, and `-1 <= mu <= 1`, `getCorrelation(r, mu)` returns
the sum over the active orders `ell = 0, dell, ..., ellMax` of
`getCorrelationMultipole(r, ell) * legendreP(ell, mu)`; it throws for `mu` outside `[-1, 1]` and
for `r` outside `[front, back]`. The grid ends are `rmin + dr*0` and `rmin + dr*(nr-1)` as the
arithmetic of the constructor delivers them (`fl` is its rounding): the first is `rmin`, the last
is `rmax` in exact arithmetic. -/
theorem getCorrelation_spec [FloorRing α] (fl : α → α) (E : Collaborators α σ)
    (power : α → α)
    (distortion : α → α → α) (klo khi : α) (nk : Int) (rmin rmax : α) (nr : Int) (ellMax : Int)
    (symmetric : Bool) (relerr abserr abspow : α) (s0 s : DistortedPowerCorrelation α σ)
    (h0 : constructRounded fl E power distortion klo khi nk rmin rmax nr ellMax symmetric
      relerr abserr abspow = .ok s0)
    (hs : Reachable E s0 s) (hinit : s.initialized = true) (r mu : α) :
    ∃ front back : α,
      (s.rgrid.head? = some front ∧ s.rgrid.getLast? = some back ∧
        front = rgridPoint fl rmin rmax nr 0 ∧
        back = rgridPoint fl rmin rmax nr ((nr : α) - 1)) ∧
      ((∀ x, fl x = x) → front = rmin ∧ back = rmax) ∧
      (fl 0 = 0 → fl rmin = rmin → front = rmin) ∧
      (Monotone fl → fl 0 = 0 → front ≤ back) ∧
      ((front ≤ r ∧ r ≤ back ∧ -1 ≤ mu ∧ mu ≤ 1) →
        ∃ xi : Int → α,
          (∀ i : Nat, i < (1 + ellMax.tdiv (dell symmetric)).toNat →
            getCorrelationMultipole E s r ((i : Int) * dell symmetric)
              = .ok (xi ((i : Int) * dell symmetric))) ∧
          getCorrelation E s r mu
            = .ok (((List.range (1 + ellMax.tdiv (dell symmetric)).toNat).map
                (fun (i : Nat) => xi ((i : Int) * dell symmetric)
                  * E.legendreP ((i : Int) * dell symmetric) mu)).sum)) ∧
      ((mu < -1 ∨ mu > 1) → ∃ msg, getCorrelation E s r mu = .error (.runtimeError msg)) ∧
      ((r < front ∨ r > back) → ∃ msg, getCorrelation E s r mu = .error (.runtimeError msg)) := by
  obtain ⟨⟨-, -, -, hm⟩, he0, hsym0, -, hI0⟩ := constructRounded_ok h0
  obtain ⟨hlo, hhi, hexact, hfirst, horder⟩ := constructRounded_ends h0
  obtain ⟨hI, -, -, he, hsym, -, -, -, -, -, hrg⟩ := reachable_invariant E hI0 hs
  rw [← hrg] at hlo hhi
  have hE : s.ellMax = ellMax := he.trans he0
  have hS : s.symmetric = symmetric := hsym.trans hsym0
  have key := fun i hi => getCorrelationMultipole_reached h0 hs hinit i hi
  have kout := getCorrelation_out_of_range h0 hs hinit r mu
  generalize rgridPoint fl rmin rmax nr 0 = front at *
  generalize rgridPoint fl rmin rmax nr ((nr : α) - 1) = back at *
  refine ⟨front, back, ⟨hlo, hhi, rfl, rfl⟩, hexact, hfirst, horder, ?_, ?_, ?_⟩
  · rintro ⟨hr1, hr2, hm1, hm2⟩
    have hin : ¬ (r < front ∨ r > back) := by
      rintro (h | h)
      · exact absurd hr1 (not_le.mpr h)
      · exact absurd hr2 (not_le.mpr h)
    have hmu : ¬ (mu < -1 ∨ mu > 1) := by
      rintro (h | h)
      · exact absurd hm1 (not_le.mpr h)
      · exact absurd hm2 (not_le.mpr h)
    have hxi : ∀ i : Nat, i < (1 + ellMax.tdiv (dell symmetric)).toNat →
        getCorrelationMultipole E s r ((i : Int) * dell symmetric)
          = .ok (match getCorrelationMultipole E s r ((i : Int) * dell symmetric) with
              | .ok v => v
              | .error _ => 0) := by
      intro i hi
      obtain ⟨it, -, hv⟩ := key i hi r
      rw [hv, if_neg hin]
    refine ⟨fun ell => match getCorrelationMultipole E s r ell with
      | .ok v => v
      | .error _ => 0, hxi, ?_⟩
    simp only [getCorrelation, hinit, Bool.not_true, Bool.false_eq_true, if_false, if_neg hmu]
    rw [hE, hS, ellLoop_zero symmetric hm]
    rw [getCorrelationLoop_ok E s r mu
      (fun ell => match getCorrelationMultipole E s r ell with
        | .ok v => v
        | .error _ => 0)]
    · rw [zero_add, List.map_map]
      rfl
    · intro ell hell
      obtain ⟨i, hi, rfl⟩ := List.mem_map.mp hell
      exact hxi i (List.mem_range.mp hi)
  · intro hmu
    simp only [getCorrelation, hinit, Bool.not_true, Bool.false_eq_true, if_false, if_pos hmu]
    exact ⟨_, rfl⟩
  · intro hout
    by_cases hmu : mu < -1 ∨ mu > 1
    · simp only [getCorrelation, hinit, Bool.not_true, Bool.false_eq_true, if_false, if_pos hmu]
      exact ⟨_, rfl⟩
    · exact ⟨_, kout hout hmu⟩

/-! ## The last element of the r grid in double precision -/

/-- The rounding of a positive `x` whose scaled value is within 1/2 of the integer `m`. -/
theorem roundDouble_of_near (x p : ℚ) (e m : Int) (hx : 0 < x) (hp : (2 : ℚ) ^ e = p)
    (hlo : (2 : ℚ) ^ 52 ≤ x / p) (hhi : x / p < (2 : ℚ) ^ 53)
    (hm : |x / p - m| < 1 / 2) : roundDouble x = m * p := by
  have hp0 : 0 < p := by rw [← hp]; positivity
  have hlog : Int.log 2 x = e + 52 := by
    have h1 : ((2 : ℕ) : ℚ) ^ (e + 52) ≤ x := by
      rw [zpow_add₀ (by norm_num), Nat.cast_ofNat, hp]
      have := (le_div_iff₀ hp0).mp hlo
      rw [mul_comm]
      exact_mod_cast this
    have h2 : x < ((2 : ℕ) : ℚ) ^ (e + 53) := by
      rw [zpow_add₀ (by norm_num), Nat.cast_ofNat, hp]
      have := (div_lt_iff₀ hp0).mp hhi
      rw [mul_comm]
      exact_mod_cast this
    have h3 := (Int.zpow_le_iff_le_log (by norm_num : 1 < 2) hx).mp h1
    have h4 := (Int.lt_zpow_iff_log_lt (by norm_num : 1 < 2) hx).mp h2
    omega
  unfold roundDouble
  rw [if_neg hx.ne']
  simp only [abs_of_pos hx, hlog, add_sub_cancel_right, hp, if_neg (not_lt.mpr hx.le), one_mul]
  congr 1
  rw [abs_lt] at hm
  by_cases hle : (m : ℚ) ≤ x / p
  · have hf : Int.floor (x / p) = m := by
      rw [Int.floor_eq_iff]
      constructor
      · exact hle
      · linarith [hm.2]
    rw [hf, if_pos (by linarith [hm.2])]
  · have hf : Int.floor (x / p) = m - 1 := by
      rw [Int.floor_eq_iff]
      push_cast
      constructor
      · linarith [hm.1]
      · linarith [not_le.mp hle]
    rw [hf]
    push_cast
    rw [if_neg (by linarith [hm.1, not_le.mp hle]), if_pos (by linarith [hm.1, not_le.mp hle])]
    ring

theorem roundDouble_zero : roundDouble 0 = 0 := by
  unfold roundDouble
  rw [if_pos rfl]

theorem two_zpow_neg51 : (2 : ℚ) ^ (-51 : Int) = 1 / 2251799813685248 := by
  rw [zpow_neg, zpow_ofNat]
  norm_num

theorem two_zpow_neg45 : (2 : ℚ) ^ (-45 : Int) = 1 / 35184372088832 := by
  rw [zpow_neg, zpow_ofNat]
  norm_num

theorem two_zpow_neg46 : (2 : ℚ) ^ (-46 : Int) = 1 / 70368744177664 := by
  rw [zpow_neg, zpow_ofNat]
  norm_num

theorem roundDouble_199 : roundDouble 199 = 199 := by
  rw [roundDouble_of_near 199 _ (-45) (199 * 35184372088832) (by norm_num) two_zpow_neg45
    (by norm_num) (by norm_num) (by norm_num)]
  norm_num

theorem roundDouble_99 : roundDouble 99 = 99 := by
  rw [roundDouble_of_near 99 _ (-46) (99 * 70368744177664) (by norm_num) two_zpow_neg46
    (by norm_num) (by norm_num) (by norm_num)]
  norm_num

theorem roundDouble_step : roundDouble (199 / 99) = 4526345080033983 / 2251799813685248 := by
  rw [roundDouble_of_near (199 / 99) _ (-51) 4526345080033983 (by norm_num) two_zpow_neg51
    (by norm_num) (by norm_num) (by norm_num [abs_lt])]
  norm_num

theorem roundDouble_product :
    roundDouble (4526345080033983 / 2251799813685248 * 99)
      = 7001690045677567 / 35184372088832 := by
  rw [roundDouble_of_near _ _ (-45) 7001690045677567 (by norm_num) two_zpow_neg45
    (by norm_num) (by norm_num) (by norm_num [abs_lt])]
  norm_num

theorem roundDouble_last :
    roundDouble (1 + 7001690045677567 / 35184372088832)
      = 7036874417766399 / 35184372088832 := by
  rw [roundDouble_of_near _ _ (-45) 7036874417766399 (by norm_num) two_zpow_neg45
    (by norm_num) (by norm_num) (by norm_num [abs_lt])]
  norm_num


/-- The eight tests of the constructor passed, the rounded constructor returns an object. -/
theorem constructRounded_succeeds [FloorRing α] (fl : α → α) (E : Collaborators α σ)
    (power : α → α)
    (distortion : α → α → α) (klo khi : α) (nk : Int) (rmin rmax : α) (nr : Int) (ellMax : Int)
    (symmetric : Bool) (relerr abserr abspow : α)
    (h1 : klo < khi) (h2 : 0 < klo) (h3 : 2 ≤ nk) (h4 : rmin < rmax) (h5 : 0 < rmin)
    (h6 : 2 ≤ nr) (h7 : 0 ≤ ellMax) (h8 : symmetric = true → ellMax.tmod 2 ≠ 1) :
    ∃ s0, constructRounded fl E power distortion klo khi nk rmin rmax nr ellMax symmetric
      relerr abserr abspow = .ok s0 := by
  unfold constructRounded
  rw [if_neg (not_le.mpr h1), if_neg (not_le.mpr h2), if_neg (not_lt.mpr h3),
    if_neg (not_le.mpr h4), if_neg (not_le.mpr h5), if_neg (not_lt.mpr h6),
    if_neg (not_lt.mpr h7), if_neg (by
      cases symmetric with
      | false => simp
      | true => simpa using h8 rfl)]
  exact ⟨_, rfl⟩

/-- In double precision the last point of the grid for `rmin = 1`, `rmax = 200`, `nr = 100` is
`7036874417766399 / 2^45 = 199.99999999999997...`: `dr = 199/99` rounds to
`4526345080033983 / 2^51`, `dr*99` rounds to `7001690045677567 / 2^45`, and adding 1 is exact. -/
theorem rgridPoint_double_last :
    rgridPoint roundDouble 1 200 100 (((100 : Int) : ℚ) - 1)
      = 7036874417766399 / 35184372088832 := by
  have e1 : ((100 : Int) : ℚ) - 1 = 99 := by norm_num
  have e2 : (200 : ℚ) - 1 = 199 := by norm_num
  unfold rgridPoint rgridStep
  rw [e1, e2, roundDouble_199, roundDouble_99, roundDouble_step, roundDouble_product,
    roundDouble_last]

/-- The object constructed in double precision with `rmin = 1`, `rmax = 200`, `nr = 100`, after
`initialize`: it exists, it is initialized, and the last element of its r grid is below
`rmax`. -/
theorem exampleDouble_initialized :
    ∃ s0 : DistortedPowerCorrelation ℚ Unit,
      constructRounded roundDouble exampleCollaborators (fun _ => 1)
        (fun _ mu => 7 / 2 - 3 / 2 * mu ^ 2) 1 10 2 1 200 100 2 true (1 / 100) (1 / 1000) 0
        = .ok s0 ∧
      (initializeObj exampleCollaborators s0 2 1 1 (1 / 2) false 0).1 = .ok () ∧
      s0.rgrid.getLast? = some (7036874417766399 / 35184372088832) ∧
      Reachable exampleCollaborators s0
        (initializeObj exampleCollaborators s0 2 1 1 (1 / 2) false 0).2 ∧
      (initializeObj exampleCollaborators s0 2 1 1 (1 / 2) false 0).2.initialized = true := by
  obtain ⟨s0, h⟩ := constructRounded_succeeds roundDouble exampleCollaborators (fun _ => 1)
    (fun _ mu => 7 / 2 - 3 / 2 * mu ^ 2) 1 10 2 1 200 100 2 true (1 / 100) (1 / 1000) 0
    (by norm_num) (by norm_num) (by decide) (by norm_num) (by norm_num) (by decide) (by decide)
    (fun _ => by decide)
  obtain ⟨-, hlast, -⟩ := constructRounded_ends h
  rw [rgridPoint_double_last] at hlast
  exact ⟨s0, h,
    (initializeObj_outcome exampleCollaborators s0 2 1 1 (1 / 2) false 0).2 (by norm_num),
    hlast, Reachable.call (.initializeObj 2 1 1 (1 / 2) false 0) Reachable.start,
    initializeObj_sets_flag exampleCollaborators s0 2 1 1 (1 / 2) false 0 (by norm_num)⟩

/-- C6 as stated fails in double precision: the object constructed with `rmin = 1`, `rmax = 200`,
`nr = 100` has the last grid element `7036874417766399 / 2^45 < 200`, so after `initialize`
`getCorrelationMultipole(200, 0)` throws "r out of range" although `rmin <= 200 <= rmax`. -/
theorem multipole_throws_at_rmax :
    ∃ s0 : DistortedPowerCorrelation ℚ Unit,
      constructRounded roundDouble exampleCollaborators (fun _ => 1)
        (fun _ mu => 7 / 2 - 3 / 2 * mu ^ 2) 1 10 2 1 200 100 2 true (1 / 100) (1 / 1000) 0
        = .ok s0 ∧
      (initializeObj exampleCollaborators s0 2 1 1 (1 / 2) false 0).1 = .ok () ∧
      s0.rgrid.getLast? = some (7036874417766399 / 35184372088832) ∧
      ((7036874417766399 / 35184372088832 : ℚ) < 200) ∧
      ((1 : ℚ) ≤ 200 ∧ (200 : ℚ) ≤ 200) ∧
      getCorrelationMultipole exampleCollaborators
        (initializeObj exampleCollaborators s0 2 1 1 (1 / 2) false 0).2 200 0
        = .error (.runtimeError
            "DistortedPowerCorrelation::getCorrelationMultipole: r out of range.") := by
  obtain ⟨s0, h, hret, hlast, hs, hinit⟩ := exampleDouble_initialized
  refine ⟨s0, h, hret, hlast, by norm_num, by norm_num, ?_⟩
  obtain ⟨it, -, hv⟩ := getCorrelationMultipole_reached h hs hinit 0 (by decide) 200
  rw [rgridPoint_double_last, if_pos (Or.inr (by norm_num))] at hv
  simp only [Nat.cast_zero, zero_mul] at hv
  exact hv

/-- C5 as stated fails in double precision: on the object constructed with `rmin = 1`,
`rmax = 200`, `nr = 100`, whose last grid element is `7036874417766399 / 2^45 < 200`, after
`initialize`, `getCorrelation(200, 1/2)` throws although `rmin <= 200 <= rmax` and
`-1 <= 1/2 <= 1`. -/
theorem correlation_throws_at_rmax :
    ∃ s0 : DistortedPowerCorrelation ℚ Unit,
      constructRounded roundDouble exampleCollaborators (fun _ => 1)
        (fun _ mu => 7 / 2 - 3 / 2 * mu ^ 2) 1 10 2 1 200 100 2 true (1 / 100) (1 / 1000) 0
        = .ok s0 ∧
      (initializeObj exampleCollaborators s0 2 1 1 (1 / 2) false 0).1 = .ok () ∧
      s0.rgrid.getLast? = some (7036874417766399 / 35184372088832) ∧
      ((1 : ℚ) ≤ 200 ∧ (200 : ℚ) ≤ 200 ∧ (-1 : ℚ) ≤ 1 / 2 ∧ (1 / 2 : ℚ) ≤ 1) ∧
      getCorrelation exampleCollaborators
        (initializeObj exampleCollaborators s0 2 1 1 (1 / 2) false 0).2 200 (1 / 2)
        = .error (.runtimeError
            "DistortedPowerCorrelation::getCorrelationMultipole: r out of range.") := by
  obtain ⟨s0, h, hret, hlast, hs, hinit⟩ := exampleDouble_initialized
  refine ⟨s0, h, hret, hlast, by norm_num, ?_⟩
  exact getCorrelation_out_of_range h hs hinit 200 (1 / 2)
    (Or.inr (by rw [rgridPoint_double_last]; norm_num)) (by norm_num)

/-- The hand-made object is also what the rounded constructor builds in exact arithmetic. -/
theorem exampleObject_constructed_exact :
    constructRounded (fun x => x) exampleCollaborators (fun _ => 1)
      (fun _ mu => 7 / 2 - 3 / 2 * mu ^ 2) 1 10 2 1 2 2 2 true (1 / 100) (1 / 1000) 0
      = .ok exampleObject :=
  (constructRounded_exact exampleCollaborators (fun _ => 1)
    (fun _ mu => 7 / 2 - 3 / 2 * mu ^ 2) 1 10 2 1 2 2 2 true (1 / 100) (1 / 1000) 0).trans
    exampleObject_constructed

/-- C5, amended, at the hand-made object (exact arithmetic), `r = 3/2` and `mu = 1/2`. -/
theorem getCorrelation_spec_witness :
    ∃ front back : ℚ,
      (exampleInitialized.rgrid.head? = some front ∧
        exampleInitialized.rgrid.getLast? = some back ∧
        front = rgridPoint (fun x => x) 1 2 2 0 ∧
        back = rgridPoint (fun x => x) 1 2 2 (((2 : Int) : ℚ) - 1)) ∧
      ((∀ x : ℚ, x = x) → front = 1 ∧ back = 2) ∧
      ((0 : ℚ) = 0 → (1 : ℚ) = 1 → front = 1) ∧
      (Monotone (fun x : ℚ => x) → (0 : ℚ) = 0 → front ≤ back) ∧
      ((front ≤ 3 / 2 ∧ 3 / 2 ≤ back ∧ (-1 : ℚ) ≤ 1 / 2 ∧ (1 / 2 : ℚ) ≤ 1) →
        ∃ xi : Int → ℚ,
          (∀ i : Nat, i < (1 + (2 : Int).tdiv (dell true)).toNat →
            getCorrelationMultipole exampleCollaborators exampleInitialized (3 / 2)
              ((i : Int) * dell true) = .ok (xi ((i : Int) * dell true))) ∧
          getCorrelation exampleCollaborators exampleInitialized (3 / 2) (1 / 2)
            = .ok (((List.range (1 + (2 : Int).tdiv (dell true)).toNat).map
                (fun (i : Nat) => xi ((i : Int) * dell true)
                  * exampleCollaborators.legendreP ((i : Int) * dell true) (1 / 2))).sum)) ∧
      (((1 / 2 : ℚ) < -1 ∨ (1 / 2 : ℚ) > 1) →
        ∃ msg, getCorrelation exampleCollaborators exampleInitialized (3 / 2) (1 / 2)
          = .error (.runtimeError msg)) ∧
      ((3 / 2 < front ∨ 3 / 2 > back) →
        ∃ msg, getCorrelation exampleCollaborators exampleInitialized (3 / 2) (1 / 2)
          = .error (.runtimeError msg)) :=
  getCorrelation_spec (fun x => x) exampleCollaborators (fun _ => 1)
    (fun _ mu => 7 / 2 - 3 / 2 * mu ^ 2) 1 10 2 1 2 2 2 true (1 / 100) (1 / 1000) 0
    exampleObject exampleInitialized exampleObject_constructed_exact exampleInitialized_reachable
    exampleInitialized_flag (3 / 2) (1 / 2)

/-- C6, amended, at the hand-made object (exact arithmetic), order 2 and `r = 3/2`. -/
theorem getCorrelationMultipole_spec_witness :
    ∃ front back : ℚ,
      (exampleInitialized.rgrid.head? = some front ∧
        exampleInitialized.rgrid.getLast? = some back ∧
        front = rgridPoint (fun x => x) 1 2 2 0 ∧
        back = rgridPoint (fun x => x) 1 2 2 (((2 : Int) : ℚ) - 1)) ∧
      ((∀ x : ℚ, x = x) → front = 1 ∧ back = 2) ∧
      ((0 : ℚ) = 0 → (1 : ℚ) = 1 → front = 1) ∧
      (Monotone (fun x : ℚ => x) → (0 : ℚ) = 0 → front ≤ back) ∧
      (returned (getCorrelationMultipole exampleCollaborators exampleInitialized (3 / 2) 2) = true
        ↔ front ≤ 3 / 2 ∧ 3 / 2 ≤ back) ∧
      (front ≤ back →
        returned (getCorrelationMultipole exampleCollaborators exampleInitialized front 2) = true ∧
        returned (getCorrelationMultipole exampleCollaborators exampleInitialized back 2) = true) ∧
      (Monotone (fun x : ℚ => x) → (0 : ℚ) = 0 → (1 : ℚ) = 1 →
        returned (getCorrelationMultipole exampleCollaborators exampleInitialized 1 2) = true) ∧
      ((3 / 2 < front ∨ back < 3 / 2) →
        ∃ msg, getCorrelationMultipole exampleCollaborators exampleInitialized (3 / 2) 2
          = .error (.runtimeError msg)) ∧
      ((front ≤ 3 / 2 ∧ 3 / 2 ≤ back) →
        ∃ interpolator,
          exampleInitialized.interpolator[(slotIndex true 2).toNat]? = some (some interpolator) ∧
          getCorrelationMultipole exampleCollaborators exampleInitialized (3 / 2) 2
            = .ok (exampleCollaborators.interpolate interpolator (3 / 2))) :=
  getCorrelationMultipole_spec (fun x => x) exampleCollaborators (fun _ => 1)
    (fun _ mu => 7 / 2 - 3 / 2 * mu ^ 2) 1 10 2 1 2 2 2 true (1 / 100) (1 / 1000) 0
    exampleObject exampleInitialized exampleObject_constructed_exact exampleInitialized_reachable
    exampleInitialized_flag 2 ⟨by decide, by decide, fun _ => ⟨1, rfl⟩⟩ (3 / 2)

end Proofs

end cosmo
